import Mathlib

/-!
Verification development for the FlowForge agent core (TypeScript sources under
src/). We give a shallow embedding, in Lean, of the plan sanitizer
(planner-client), the workflow compiler (workflow-compiler.ts), the execution
monitors (execution-monitor), and the orchestration service (agent-service.ts),
and prove the behavioural properties claimed by the specification.

Modelling conventions:
- JavaScript strings are Lean Strings; we operate on their character lists.
  JS string primitives (trim, slice, padEnd, split, toUpperCase, regexes used
  by the sources) are embedded as executable Lean functions below.
- JS numbers are embedded as an inductive JsNum: NaN, the two infinities, and
  finite values represented exactly as rationals. Number literals appearing in
  the sources are integers or short decimals, all exactly representable.
- Fallible TS code (throw) is embedded with Except; side-effecting warning
  accumulation is threaded explicitly; randomUUID is modelled by a
  deterministic injective fresh-id counter.
-/

/- The Batteries rational-number operations are marked irreducible, which
blocks kernel evaluation inside decide on concrete inputs; the embedded
number model computes with exact rationals, so restore reducibility. -/
set_option allowUnsafeReducibility true in
attribute [semireducible] Rat.add Rat.mul Rat.sub Rat.div Rat.inv Rat.ofScientific

/-- Decidable equality on fallible results, for concrete evaluation. -/
instance exceptDecEq {ε α : Type} [DecidableEq ε] [DecidableEq α] :
    DecidableEq (Except ε α) := fun a b =>
  match a, b with
  | .ok x, .ok y =>
    if h : x = y then .isTrue (by rw [h])
    else .isFalse (by intro he; cases he; exact h rfl)
  | .ok _, .error _ => .isFalse (by intro h; cases h)
  | .error _, .ok _ => .isFalse (by intro h; cases h)
  | .error e, .error f =>
    if h : e = f then .isTrue (by rw [h])
    else .isFalse (by intro he; cases he; exact h rfl)

namespace FlowForge

/-! ## JavaScript string primitives -/

/-- JS whitespace class used by trim and the regex \s (ASCII subset plus
vertical tab, form feed and no-break space, which are the characters that can
actually occur in the data handled here). -/
def jsWsChar (c : Char) : Bool :=
  c = ' ' || c = '\t' || c = '\n' || c = '\r' ||
  c = Char.ofNat 11 || c = Char.ofNat 12 || c = Char.ofNat 160

def trimLeadList (l : List Char) : List Char := l.dropWhile jsWsChar

def trimTrailList (l : List Char) : List Char := (l.reverse.dropWhile jsWsChar).reverse

/-- JS String.prototype.trim. -/
def jsTrim (s : String) : String := ⟨trimLeadList (trimTrailList s.data)⟩

/-- JS s.slice(0, n) for n at least 0. -/
def jsSliceTo (s : String) (n : ℕ) : String := ⟨s.data.take n⟩

def jsToUpper (s : String) : String := ⟨s.data.map Char.toUpper⟩

def jsToLower (s : String) : String := ⟨s.data.map Char.toLower⟩

/-- Fuelled worker for squashWsHyphen (structural recursion on the fuel so
that concrete evaluations reduce in the kernel; the list length strictly
decreases at every step, so fuel length+1 never runs out). -/
def squashWsHyphenAux : ℕ → List Char → List Char
  | 0, _ => []
  | _ + 1, [] => []
  | fuel + 1, c :: r =>
    if jsWsChar c || c = '-' then
      '_' :: squashWsHyphenAux fuel (r.dropWhile (fun d => jsWsChar d || d = '-'))
    else
      c :: squashWsHyphenAux fuel r

/-- JS s.replace of every maximal run matched by [\s-]+ with a single
underscore (used by normalizeChain). -/
def squashWsHyphen (l : List Char) : List Char :=
  squashWsHyphenAux (l.length + 1) l

/-- JS s.replace of every match of \s+ with the empty string. -/
def removeWsList (l : List Char) : List Char := l.filter (fun c => !jsWsChar c)

/-- JS s.padEnd(n, c). -/
def padEndList (l : List Char) (n : ℕ) (c : Char) : List Char :=
  l ++ List.replicate (n - l.length) c

/-- JS s.split(sep) for a one-character separator (list of fields,
empty fields preserved). -/
def jsSplitChar (sep : Char) : List Char → List (List Char)
  | [] => [[]]
  | c :: r =>
    if c = sep then
      [] :: jsSplitChar sep r
    else
      match jsSplitChar sep r with
      | g :: gs => (c :: g) :: gs
      | [] => [[c]]

/-! ## Decimal digits and number rendering -/

def digitVal (c : Char) : ℕ := c.toNat - '0'.toNat

/-- Value of a big-endian digit string (fold of value*10 + digit). -/
def digitsToNatList (l : List Char) : ℕ :=
  l.foldl (fun a c => a * 10 + digitVal c) 0

def digitChar (d : ℕ) : Char :=
  match d with
  | 0 => '0' | 1 => '1' | 2 => '2' | 3 => '3' | 4 => '4'
  | 5 => '5' | 6 => '6' | 7 => '7' | 8 => '8' | 9 => '9'
  | _ => '*'

/-- Fuelled worker for the little-endian decimal digits of n (structural
recursion so that the kernel evaluates it; n strictly decreases at every
step, so fuel n+1 never runs out). -/
def natToDigitsLEAux : ℕ → ℕ → List Char
  | 0, _ => []
  | _ + 1, 0 => []
  | fuel + 1, n + 1 => digitChar ((n + 1) % 10) :: natToDigitsLEAux fuel ((n + 1) / 10)

/-- Little-endian decimal digits of n (empty for 0). -/
def natToDigitsLE (n : ℕ) : List Char := natToDigitsLEAux (n + 1) n

/-- Decimal rendering of a natural number (JS ToString on integral values). -/
def natToString (n : ℕ) : String :=
  if n = 0 then "0" else ⟨(natToDigitsLE n).reverse⟩

/-- Decimal rendering of an integer. -/
def intToString (i : ℤ) : String :=
  if i < 0 then "-" ++ natToString i.natAbs else natToString i.natAbs

/-! ## JavaScript numbers -/

/-- A JS number: NaN, the infinities, or a finite value (represented exactly
as a rational; the decimal literals manipulated by the embedded sources stay
well inside the double range where this is faithful). -/
inductive JsNum where
  | nan
  | posInf
  | negInf
  | finite (q : ℚ)
deriving DecidableEq, Repr

def takeDigitsList (l : List Char) : List Char × List Char :=
  (l.takeWhile Char.isDigit, l.dropWhile Char.isDigit)

/-- Parse an optional exponent part e[+-]?digits; when the part is malformed
it is not consumed (value 0, rest unchanged), matching prefix-maximal JS
number parsing. -/
def parseExpPart (l : List Char) : ℤ × List Char :=
  match l with
  | 'e' :: r | 'E' :: r =>
    match r with
    | '+' :: r2 =>
      let (ds, r3) := takeDigitsList r2
      if ds = [] then (0, l) else ((digitsToNatList ds : ℤ), r3)
    | '-' :: r2 =>
      let (ds, r3) := takeDigitsList r2
      if ds = [] then (0, l) else (-(digitsToNatList ds : ℤ), r3)
    | _ =>
      let (ds, r3) := takeDigitsList r
      if ds = [] then (0, l) else ((digitsToNatList ds : ℤ), r3)
  | _ => (0, l)

/-- 10^n as a rational, computed through the natural-number power (kernel
reducible, unlike the typeclass power on ℚ). -/
def pow10Q (n : ℕ) : ℚ := ((10 ^ n : ℕ) : ℚ)

/-- 10^e for an integer e, exactly. -/
def zpow10Q (e : ℤ) : ℚ :=
  match e with
  | .ofNat n => pow10Q n
  | .negSucc n => 1 / pow10Q (n + 1)

/-- Exact value of digits I, fractional digits F. -/
def mantissaVal (I F : List Char) : ℚ :=
  (digitsToNatList I : ℚ) + (digitsToNatList F : ℚ) / pow10Q F.length

/-- Parse the longest decimal-literal prefix digits[.digits][exp]; none when
no digit is present. Returns the exact value and the unconsumed rest. -/
def parseDecCore (l : List Char) : Option (ℚ × List Char) :=
  let (I, r1) := takeDigitsList l
  match r1 with
  | '.' :: r2 =>
    let (F, r3) := takeDigitsList r2
    if I = [] && F = [] then none
    else
      let (e, r4) := parseExpPart r3
      some (mantissaVal I F * zpow10Q e, r4)
  | _ =>
    if I = [] then none
    else
      let (e, r4) := parseExpPart r1
      some ((digitsToNatList I : ℚ) * zpow10Q e, r4)

def infinityChars : List Char := ['I', 'n', 'f', 'i', 'n', 'i', 't', 'y']

/-- JS parseFloat: skip leading whitespace, optional sign, then the longest
decimal-literal (or Infinity) prefix; NaN when no digits can be read. -/
def jsParseFloat (s : String) : JsNum :=
  let core : Bool → List Char → JsNum := fun neg r =>
    if infinityChars.isPrefixOf r then
      if neg then .negInf else .posInf
    else
      match parseDecCore r with
      | some (q, _) => .finite (if neg then -q else q)
      | none => .nan
  match s.data.dropWhile jsWsChar with
  | '+' :: r => core false r
  | '-' :: r => core true r
  | r => core false r

def hexDigitVal (c : Char) : ℕ :=
  if c.isDigit then digitVal c
  else if 'a' ≤ c && c ≤ 'f' then c.toNat - 'a'.toNat + 10
  else if 'A' ≤ c && c ≤ 'F' then c.toNat - 'A'.toNat + 10
  else 0

def isHexDigitChar (c : Char) : Bool :=
  c.isDigit || ('a' ≤ c && c ≤ 'f') || ('A' ≤ c && c ≤ 'F')

def radixVal (base : ℕ) (vals : List Char → List ℕ) (l : List Char) : ℕ :=
  (vals l).foldl (fun a d => a * base + d) 0

/-- JS ToNumber on a string (the Number(x) coercion): trim; empty gives 0;
radix-prefixed integer literals; otherwise a signed decimal literal or
Infinity that must consume the whole string, else NaN. -/
def jsStringToNumber (s : String) : JsNum :=
  let t := trimLeadList (trimTrailList s.data)
  if t = [] then .finite 0
  else
    match t with
    | '0' :: 'x' :: r | '0' :: 'X' :: r =>
      if r ≠ [] && r.all isHexDigitChar then
        .finite ((radixVal 16 (List.map hexDigitVal) r : ℕ) : ℚ)
      else .nan
    | '0' :: 'o' :: r | '0' :: 'O' :: r =>
      if r ≠ [] && r.all (fun c => '0' ≤ c && c ≤ '7') then
        .finite ((radixVal 8 (List.map digitVal) r : ℕ) : ℚ)
      else .nan
    | '0' :: 'b' :: r | '0' :: 'B' :: r =>
      if r ≠ [] && r.all (fun c => c = '0' || c = '1') then
        .finite ((radixVal 2 (List.map digitVal) r : ℕ) : ℚ)
      else .nan
    | _ =>
      let (neg, r) :=
        match t with
        | '+' :: r => (false, r)
        | '-' :: r => (true, r)
        | r => (false, r)
      if r = infinityChars then
        if neg then .negInf else .posInf
      else
        match parseDecCore r with
        | some (q, []) => .finite (if neg then -q else q)
        | _ => .nan

def jsNumIsFinite : JsNum → Bool
  | .finite _ => true
  | _ => false

def jsNumIsPosInt : JsNum → Bool
  | .finite q => q.den = 1 && 0 < q.num
  | _ => false

/-! ## workflow-compiler.ts: numeric helpers -/

/-- Fixed-point decimal rendering of the natural number m with d fractional
digits (the shape of the string produced by toFixed on a non-negative value,
below the 1e21 exponential-form threshold). -/
def decimalString (m d : ℕ) : String :=
  if d = 0 then natToString m
  else natToString (m / 10 ^ d) ++ "." ++ ⟨List.replicate (d - (natToDigitsLE (m % 10 ^ d)).length) '0' ++ (natToDigitsLE (m % 10 ^ d)).reverse⟩

/-- Floor of a rational as an integer (num/den with integer floor division;
equal to the mathematical floor, see ratFloorZ_eq). -/
def ratFloorZ (q : ℚ) : ℤ := q.num / (q.den : ℤ)

/-- JS Number.prototype.toFixed(d) on a non-negative finite value below 1e21:
the decimal string with exactly d fractional digits denoting the multiple of
10^-d nearest to q (the larger one on ties). -/
def jsToFixed (q : ℚ) (d : ℕ) : String :=
  decimalString (Int.toNat (ratFloorZ (q * pow10Q d + 1 / 2))) d

/-- workflow-compiler.ts toWeiString: convert a human amount string to the
smallest-unit integer string for the given decimals. -/
def toWeiString (amountHuman : String) (decimals : ℕ) : String :=
  match jsParseFloat amountHuman with
  | .finite n =>
    -- n < 0 tested on the numerator (equivalent, kernel reducible)
    if n.num < 0 then "0"
    else
      let s := jsToFixed n decimals
      let parts := jsSplitChar '.' s.data
      let head := parts.headD []
      let tail := (parts.drop 1).headD []
      let frac := (padEndList tail decimals '0').take decimals
      ⟨(if head = ['0'] then [] else head) ++ frac⟩
  | _ => "0"

/-- workflow-compiler.ts toPositiveInt. The raw value reaching it is always a
config-hint string or absent (hints are sanitized to string maps), so it is
embedded with an Option String argument; warnings are threaded explicitly. -/
def toPositiveInt (rawValue : Option String) (defaultValue : ℤ)
    (fieldName : String) (warnings : List String) : ℤ × List String :=
  let asNumber : JsNum :=
    match rawValue with
    | some s => jsStringToNumber s
    | none => .nan
  if jsNumIsPosInt asNumber then
    (match asNumber with
     | .finite q => q.num
     | _ => defaultValue, warnings)
  else
    match rawValue with
    | some s =>
      (defaultValue,
        warnings ++ ["Invalid " ++ fieldName ++ " \"" ++ s ++ "\", using default " ++
          intToString defaultValue ++ "."])
    | none => (defaultValue, warnings)

/-! ## workflow-compiler.ts: condition parsing and small regexes -/

/-- [A-Z0-9] with the i flag: an ASCII letter or digit. -/
def isAsciiAlphanum (c : Char) : Bool := c.isAlpha || c.isDigit

/-- Test of the anchored pattern [A-Z0-9]+/[A-Z0-9]+ (case-insensitive). -/
def isPairSymbolList (l : List Char) : Bool :=
  match jsSplitChar '/' l with
  | [a, b] => a ≠ [] && b ≠ [] && a.all isAsciiAlphanum && b.all isAsciiAlphanum
  | _ => false

/-- Try the operator alternation of the IF-condition regex at the head of the
list, longest alternative first, paired with its canonical operator from
IF_OPERATOR_MAP. -/
def opHeadMatch (l : List Char) : Option (List Char × String) :=
  match l with
  | '<' :: '=' :: _ => some (['<', '='], "lte")
  | '>' :: '=' :: _ => some (['>', '='], "gte")
  | '=' :: '=' :: _ => some (['=', '='], "equals")
  | '!' :: '=' :: _ => some (['!', '='], "notEquals")
  | '<' :: _ => some (['<'], "lt")
  | '>' :: _ => some (['>'], "gt")
  | '=' :: _ => some (['='], "equals")
  | _ => none

/-- Leftmost match of the regex \s*(<=|>=|==|!=|<|>|=)\s* : full matched text
(the operator with the greedily matched surrounding whitespace) and the
canonical operator. revPre holds the already-scanned characters reversed. -/
def findOpAux (revPre : List Char) : List Char → Option (List Char × String)
  | [] => none
  | c :: r =>
    match opHeadMatch (c :: r) with
    | some (opChars, canonical) =>
      some ((revPre.takeWhile jsWsChar).reverse ++ opChars ++
        ((c :: r).drop opChars.length).takeWhile jsWsChar, canonical)
    | none => findOpAux (c :: revPre) r

/-- First occurrence of a non-empty pattern inside l: the part before it and
the part after it. -/
def findOccurrence (pat : List Char) : List Char → Option (List Char × List Char)
  | [] => none
  | c :: r =>
    if pat.isPrefixOf (c :: r) then some ([], (c :: r).drop pat.length)
    else
      match findOccurrence pat r with
      | some (b, a) => some (c :: b, a)
      | none => none

/-- JS s.split(sep, 2) destructured to its first two fields: the text before
the first occurrence, and the field after it (up to the next occurrence when
there is one), none when sep does not occur. -/
def splitTake2 (sep l : List Char) : List Char × Option (List Char) :=
  match findOccurrence sep l with
  | none => (l, none)
  | some (before, after) =>
    match findOccurrence sep after with
    | none => (before, some after)
    | some (mid, _) => (before, some mid)

/-- workflow-compiler.ts parseIfConditionString: parse a condition such as
ETH/USD < 1750 into (leftPath, operator, rightValue); price-feed style left
sides become the oracle output key formattedAnswer. -/
def parseIfConditionString (condition : String) :
    Option (String × String × String) :=
  let trimmed := jsTrim condition
  match findOpAux [] trimmed.data with
  | none => none
  | some (matchedFull, operator) =>
    let (leftL, rightOpt) := splitTake2 matchedFull trimmed.data
    match rightOpt with
    | none => none
    | some rightL =>
      let left := jsTrim ⟨leftL⟩
      let right := jsTrim ⟨rightL⟩
      let leftPath :=
        if isPairSymbolList left.data then "formattedAnswer" else left
      some (leftPath, operator, right)

/-- Test of the anchored pattern [A-Z0-9]+/[A-Z0-9]+\s+price (i flag). -/
def isPairPriceSuffix (l : List Char) : Bool :=
  let r := l.reverse
  if (r.take 5).map Char.toLower = ['e', 'c', 'i', 'r', 'p'] then
    let r2 := r.drop 5
    decide ((r2.takeWhile jsWsChar) ≠ []) &&
      isPairSymbolList (r2.dropWhile jsWsChar).reverse
  else false

/-- Test of the anchored pattern [A-Z0-9]+USD (i flag). -/
def isAlnumUSD (l : List Char) : Bool :=
  decide (4 ≤ l.length) && l.all isAsciiAlphanum &&
    (l.reverse.take 3).map Char.toLower = ['d', 's', 'u']

/-- workflow-compiler.ts looksLikePriceFeedPath. -/
def looksLikePriceFeedPath (path : String) : Bool :=
  if path = "" then false
  else
    let s := jsTrim path
    isPairSymbolList s.data || isPairPriceSuffix s.data ||
      isAlnumUSD s.data || jsToLower s = "price"

/-! ## Config values (Record of string to unknown) -/

/-- A JS value stored in a node config map: the sources only ever store
strings, numbers, booleans, nested objects, or null there. Objects are
association lists with unique keys (JS object key lists). -/
inductive CVal where
  | str (s : String)
  | num (q : ℚ)
  | bool (b : Bool)
  | obj (fields : List (String × CVal))
  | null

/-- A node config: a JS object from string keys to values. -/
abbrev Config := List (String × CVal)

def cfgGet (cfg : Config) (k : String) : Option CVal :=
  (List.find? (fun p => p.1 == k) cfg).map (·.2)

/-- JS property write: update in place when the key exists, else append. -/
def cfgSet (cfg : Config) (k : String) (v : CVal) : Config :=
  if List.any cfg (fun p => p.1 == k) then
    List.map (fun p => if p.1 == k then (k, v) else p) cfg
  else cfg ++ [(k, v)]

def cfgDelete (cfg : Config) (k : String) : Config :=
  List.filter (fun p => p.1 != k) cfg

/-- JS truthiness of a possibly-absent config value. -/
def cvalTruthy : Option CVal → Bool
  | none => false
  | some (.str s) => s ≠ ""
  | some (.num q) => q ≠ 0
  | some (.bool b) => b
  | some (.obj _) => true
  | some .null => false

/-- JS nullish test (undefined or null), for the ?? operator. -/
def cvalNullish : Option CVal → Bool
  | none => true
  | some .null => true
  | _ => false

/-- First non-nullish value of a chain a ?? b ?? d. -/
def nullishChain2 (a b : Option CVal) (d : CVal) : CVal :=
  if cvalNullish a then (if cvalNullish b then d else b.getD d) else a.getD d

/-- JS String(x) coercion. Decimal rendering of non-integral numbers is not
needed by the embedded call sites (they only coerce strings or defaults) and
is left at its integral part. -/
def cvalCoerceString : CVal → String
  | .str s => s
  | .num q => if q.den = 1 then intToString q.num else intToString (Int.floor q)
  | .bool b => if b then "true" else "false"
  | .obj _ => "[object Object]"
  | .null => "null"

/-- Lookup an object field of a CVal (JS optional chaining x?.k). -/
def cvalField (v : CVal) (k : String) : Option CVal :=
  match v with
  | .obj fields => cfgGet fields k
  | _ => none

/-- Read a string-valued config key. -/
def cfgGetStr (cfg : Config) (k : String) : Option String :=
  match cfgGet cfg k with
  | some (.str s) => some s
  | _ => none

/-! ## workflow-compiler.ts: tables and chain normalization -/

def DEFAULT_ORACLE_CHAIN : String := "ARBITRUM"

def CHAINLINK_ETH_USD_AGGREGATORS : List (String × String) :=
  [("ARBITRUM", "0x639Fe6ab55C921f74e7fac1ee960C0B6293ba612"),
   ("ETHEREUM", "0x5f4ec3df9cbd43714fe2740f5e3616155c5b8419")]

/-- Chainlink aggregator addresses by chain and feed symbol. -/
def CHAINLINK_AGGREGATORS_BY_CHAIN : List (String × List (String × String)) :=
  [("ARBITRUM",
    [("ETH/USD", "0x639Fe6ab55C921f74e7fac1ee960C0B6293ba612"),
     ("BTC/USD", "0x6ce185860a4963106506C203335A2910413708e9"),
     ("LINK/USD", "0x86E53CF1B870786351Da77A57575e79CB55812CB"),
     ("ARB/USD", "0xb2A824043730FE05F3DA2efaFa1CBbe83fa548D6")])]

structure TokenInfo where
  address : String
  symbol : String
  decimals : ℕ

/-- Common token addresses by chain (symbol uppercase). -/
def COMMON_TOKENS_BY_CHAIN : List (String × List (String × TokenInfo)) :=
  [("ARBITRUM_SEPOLIA",
    [("WETH", ⟨"0x980B62Da83eFf3D4576C647993b0c1D7faf17c73", "WETH", 18⟩),
     ("USDC", ⟨"0x75faf114eafb1BDbe2F0316DF893fd58CE46AA4d", "USDC", 6⟩)]),
   ("ETHEREUM_SEPOLIA",
    [("WETH", ⟨"0xfFf9976782d46CC05630D1f6eBAb18b2324d6B14", "WETH", 18⟩),
     ("USDC", ⟨"0x1c7D4B196Cb0C7B01d743Fbc6116a902379C7238", "USDC", 6⟩)]),
   ("UNICHAIN_SEPOLIA",
    [("WETH", ⟨"0x4200000000000000000000000000000000000006", "WETH", 18⟩),
     ("USDC", ⟨"0x31d0220469e10c4e71834a79b1f276d740d3768f", "USDC", 6⟩)]),
   ("ARBITRUM",
    [("WETH", ⟨"0x82aF49447D8a07e3bd95BD0d56f35241523fBab1", "WETH", 18⟩),
     ("USDC", ⟨"0xaf88d065e77c8cC2239327C5EDb3A432268e5831", "USDC", 6⟩)]),
   ("ETHEREUM",
    [("WETH", ⟨"0xC02aaA39b223FE8D0A0e5C4F27eAD9083C756Cc2", "WETH", 18⟩),
     ("USDC", ⟨"0xA0b86991c6218b36c1d19D4a2e9Eb0cE3606eB48", "USDC", 6⟩)]),
   ("UNICHAIN",
    [("WETH", ⟨"0x4200000000000000000000000000000000000006", "WETH", 18⟩),
     ("USDC", ⟨"0x078d782b760474a361dda0af3839290b0ef57ad6", "USDC", 6⟩)]),
   ("BASE",
    [("WETH", ⟨"0x4200000000000000000000000000000000000006", "WETH", 18⟩),
     ("USDC", ⟨"0x833589fCD6eDb6E08f4c7C32D4f71b54bdA02913", "USDC", 6⟩)])]

def assocGet {α : Type} (l : List (String × α)) (k : String) : Option α :=
  (List.find? (fun p => p.1 == k) l).map (·.2)

/-- workflow-compiler.ts normalizeChain. -/
def normalizeChain (raw : Option CVal) : String :=
  match raw with
  | some (.str s) =>
    let normalized : String := ⟨squashWsHyphen (jsToUpper (jsTrim s)).data⟩
    if normalized = "" then DEFAULT_ORACLE_CHAIN else normalized
  | _ => DEFAULT_ORACLE_CHAIN

/-- workflow-compiler.ts normalizeOracleProvider. -/
def normalizeOracleProvider (raw : Option CVal) (backendType : String) : String :=
  match raw with
  | some (.str s) =>
    let normalized := jsToUpper (jsTrim s)
    if normalized = "PYTH" then "PYTH"
    else if normalized = "CHAINLINK" then "CHAINLINK"
    else if backendType = "PYTH_PRICE_ORACLE" then "PYTH" else "CHAINLINK"
  | _ => if backendType = "PYTH_PRICE_ORACLE" then "PYTH" else "CHAINLINK"

/-- workflow-compiler.ts guessAggregatorFromHints. -/
def guessAggregatorFromHints (chain : String)
    (configHints : Option (List (String × String))) : Option String :=
  let hintGet := fun k => (configHints.getD []).find? (fun p => p.1 == k) |>.map (·.2)
  let feed := ⟨removeWsList (jsToUpper (hintGet "feed" |>.getD "")).data⟩
  let asset := jsToUpper (hintGet "asset" |>.getD "")
  let currency := jsToUpper (hintGet "currency" |>.getD "")
  let isEthUsd := feed = "ETH/USD" || (asset = "ETH" && currency = "USD")
  if !isEthUsd then none
  else some ((assocGet CHAINLINK_ETH_USD_AGGREGATORS chain).getD
    "0x639Fe6ab55C921f74e7fac1ee960C0B6293ba612")

/-! ## workflow-compiler.ts: buildBaseConfigForBlock -/

structure BuildConfigParams where
  purpose : String
  configHints : Option (List (String × String))
  chatId : Option String
  telegramConnectionId : Option String

def ZERO_ADDRESS : String := "0x0000000000000000000000000000000000000000"

/-- Test of the anchored pattern [A-Z_0-9]+ (no i flag). -/
def isUpperIdent (l : List Char) : Bool :=
  decide (l ≠ []) && l.all (fun c => c.isUpper || c.isDigit || c = '_')

/-- Test of the anchored pattern 0x[a-fA-F0-9]{40}. -/
def isHexAddress40 (s : String) : Bool :=
  match s.data with
  | '0' :: 'x' :: r => decide (r.length = 40) && r.all isHexDigitChar
  | _ => false

/-- The sourceToken/destinationToken object built for a SWAP inputConfig. -/
def swapTokenObj (tokens : Option (List (String × TokenInfo)))
    (symbolUpper : String) (cfgFallback : Option CVal) : CVal :=
  match tokens.bind (fun t => assocGet t symbolUpper) with
  | some t => .obj [("address", .str t.address), ("symbol", .str t.symbol),
      ("decimals", .num (t.decimals : ℚ))]
  | none =>
    let addr : CVal :=
      match cfgFallback.bind (fun v => cvalField v "address") with
      | some .null => .str ZERO_ADDRESS
      | some v => v
      | none => .str ZERO_ADDRESS
    .obj [("address", addr), ("symbol", .str symbolUpper),
      ("decimals", .num (18 : ℚ))]

/-- workflow-compiler.ts buildBaseConfigForBlock, SWAP branch. -/
def buildSwapConfig (cfg0 : Config) (warnings : List String) :
    Config × List String :=
  let chain := normalizeChain (cfgGet cfg0 "chain")
  let cfg1 := cfgSet cfg0 "chain" (.str chain)
  let providerRaw := (cfgGet cfg1 "provider").getD (.str "UNISWAP_V4")
  let provider : String :=
    match providerRaw with
    | .str s => if isUpperIdent s.data then s else "UNISWAP_V4"
    | _ => "UNISWAP_V4"
  let cfg2 := cfgSet cfg1 "provider" (.str provider)
  let tokens := assocGet COMMON_TOKENS_BY_CHAIN chain
  let fromSymbol := jsToUpper (jsTrim (cvalCoerceString
    (nullishChain2 (cfgGet cfg2 "fromToken") (cfgGet cfg2 "sourceToken") (.str ""))))
  let toSymbol := jsToUpper (jsTrim (cvalCoerceString
    (nullishChain2 (cfgGet cfg2 "toToken") (cfgGet cfg2 "destinationToken") (.str ""))))
  let amountHuman := jsTrim (cvalCoerceString
    (if cvalNullish (cfgGet cfg2 "amount") then .str "0"
     else (cfgGet cfg2 "amount").getD (.str "0")))
  let sourceToken := swapTokenObj tokens fromSymbol (cfgGet cfg2 "sourceToken")
  let destinationToken := swapTokenObj tokens toSymbol (cfgGet cfg2 "destinationToken")
  let sourceDecimals : ℕ :=
    match tokens.bind (fun t => assocGet t fromSymbol) with
    | some t => t.decimals
    | none => 18
  let amountWei := toWeiString amountHuman sourceDecimals
  let swapType : String :=
    match cfgGet cfg2 "swapType" with
    | some (.str s) => if s = "EXACT_OUTPUT" then "EXACT_OUTPUT" else "EXACT_INPUT"
    | _ => "EXACT_INPUT"
  let walletAddress : String :=
    match cfgGet cfg2 "walletAddress" with
    | some (.str w) => if isHexAddress40 w then w else ZERO_ADDRESS
    | _ => ZERO_ADDRESS
  let slippageTolerance : ℚ :=
    match cfgGet cfg2 "slippageTolerance" with
    | some (.num q) => q
    | _ => 1 / 2
  let cfg3 := cfgSet cfg2 "inputConfig" (.obj
    [("sourceToken", sourceToken), ("destinationToken", destinationToken),
     ("amount", .str amountWei), ("swapType", .str swapType),
     ("walletAddress", .str walletAddress),
     ("slippageTolerance", .num slippageTolerance)])
  let warnings1 :=
    if !(tokens.bind (fun t => assocGet t fromSymbol)).isSome ||
       !(tokens.bind (fun t => assocGet t toSymbol)).isSome then
      warnings ++ ["SWAP: unknown token symbol(s) for chain " ++ chain ++
        "; using placeholder addresses. fromToken=" ++
        (if fromSymbol = "" then "?" else fromSymbol) ++ ", toToken=" ++
        (if toSymbol = "" then "?" else toSymbol) ++ "."]
    else warnings
  let cfg4 := cfgDelete (cfgDelete (cfgDelete (cfgDelete cfg3
    "fromToken") "toToken") "sourceToken") "destinationToken"
  (cfg4, warnings1)

/-- workflow-compiler.ts buildBaseConfigForBlock, TELEGRAM branch. -/
def buildTelegramConfig (cfg0 : Config) (purpose : String)
    (chatId telegramConnectionId : Option String) (warnings : List String) :
    Config × List String :=
  let cfg1 :=
    match telegramConnectionId with
    | some t =>
      if t ≠ "" && !cvalTruthy (cfgGet cfg0 "connectionId") then
        cfgSet cfg0 "connectionId" (.str t)
      else cfg0
    | none => cfg0
  let cfg2 :=
    if !cvalTruthy (cfgGet cfg1 "message") then
      match cfgGet cfg1 "text" with
      | some (.str t) =>
        if jsTrim t ≠ "" then cfgSet cfg1 "message" (.str (jsTrim t)) else cfg1
      | _ => cfg1
    else cfg1
  let cfg3 :=
    if !cvalTruthy (cfgGet cfg2 "message") then
      cfgSet cfg2 "message"
        (.str (if purpose = "" then "Telegram notification from workflow." else purpose))
    else cfg2
  let cfg4 :=
    match chatId with
    | some c =>
      if !cvalTruthy (cfgGet cfg3 "chatId") && c ≠ "" then
        cfgSet cfg3 "chatId" (.str c)
      else cfg3
    | none => cfg3
  let warnings1 :=
    if !cvalTruthy (cfgGet cfg4 "connectionId") then
      warnings ++ ["Telegram block is missing connectionId and will likely fail validation."]
    else warnings
  (cfg4, warnings1)

/-- workflow-compiler.ts buildBaseConfigForBlock, IF branch. -/
def buildIfConfig (cfg0 : Config) : Config :=
  let conditionStr :=
    match cfgGet cfg0 "condition" with
    | some (.str s) => jsTrim s
    | _ => ""
  let cfg1 :=
    if conditionStr ≠ "" then
      let cfgP :=
        match parseIfConditionString conditionStr with
        | some (leftPath, operator, rightValue) =>
          cfgSet (cfgSet (cfgSet cfg0 "leftPath" (.str leftPath))
            "operator" (.str operator)) "rightValue" (.str rightValue)
        | none => cfg0
      cfgDelete cfgP "condition"
    else cfg0
  let cfg2 :=
    if !cvalTruthy (cfgGet cfg1 "leftPath") then cfgSet cfg1 "leftPath" (.str "")
    else cfg1
  let cfg3 :=
    if !cvalTruthy (cfgGet cfg2 "operator") then cfgSet cfg2 "operator" (.str "equals")
    else cfg2
  let cfg4 :=
    if (cfgGet cfg3 "rightValue").isNone then cfgSet cfg3 "rightValue" (.str "")
    else cfg3
  match cfgGet cfg4 "leftPath" with
  | some (.str lp) =>
    if looksLikePriceFeedPath lp then cfgSet cfg4 "leftPath" (.str "formattedAnswer")
    else cfg4
  | _ => cfg4

/-- workflow-compiler.ts buildBaseConfigForBlock, price-oracle branch. -/
def buildOracleConfig (backendType : String) (cfg0 : Config) (purpose : String)
    (configHints : Option (List (String × String))) (warnings : List String) :
    Config × List String :=
  let provider := normalizeOracleProvider (cfgGet cfg0 "provider") backendType
  let cfg1 := cfgSet cfg0 "provider" (.str provider)
  let chain := normalizeChain (cfgGet cfg1 "chain")
  let cfg2 := cfgSet cfg1 "chain" (.str chain)
  let cfg3 :=
    if provider = "CHAINLINK" && !cvalTruthy (cfgGet cfg2 "aggregatorAddress") then
      let feedKey : String :=
        match cfgGet cfg2 "feed" with
        | some (.str f) =>
          if jsTrim f ≠ "" then ⟨removeWsList (jsToUpper (jsTrim f)).data⟩ else ""
        | _ => ""
      let cfgA :=
        if feedKey ≠ "" then
          match (assocGet CHAINLINK_AGGREGATORS_BY_CHAIN chain).bind
              (fun byChain => assocGet byChain feedKey) with
          | some addr => cfgSet cfg2 "aggregatorAddress" (.str addr)
          | none => cfg2
        else cfg2
      if !cvalTruthy (cfgGet cfgA "aggregatorAddress") then
        match guessAggregatorFromHints chain configHints with
        | some guessed => cfgSet cfgA "aggregatorAddress" (.str guessed)
        | none => cfgA
      else cfgA
    else cfg2
  let (cfg4, warnings1) :=
    if provider = "CHAINLINK" && !cvalTruthy (cfgGet cfg3 "aggregatorAddress") then
      (cfgSet cfg3 "aggregatorAddress"
        (.str ((assocGet CHAINLINK_ETH_USD_AGGREGATORS chain).getD
          "0x639Fe6ab55C921f74e7fac1ee960C0B6293ba612")),
       warnings ++ ["Oracle block missing aggregatorAddress; defaulted to Chainlink ETH/USD feed."])
    else (cfg3, warnings)
  let warnings2 :=
    if provider = "PYTH" && !cvalTruthy (cfgGet cfg4 "priceFeedId") then
      warnings1 ++ ["Pyth oracle block missing priceFeedId and will likely fail validation."]
    else warnings1
  let cfg5 :=
    if !cvalTruthy (cfgGet cfg4 "staleAfterSeconds") then
      cfgSet cfg4 "staleAfterSeconds" (.num 3600)
    else cfg4
  let cfg6 :=
    match cfgGet cfg5 "output" with
    | some (.str out) =>
      if jsTrim out ≠ "" && !cvalTruthy (cfgGet cfg5 "outputMapping") then
        cfgSet cfg5 "outputMapping" (.obj [(jsTrim out, .str "formattedAnswer")])
      else cfg5
    | _ => cfg5
  let cfg7 :=
    if !cvalTruthy (cfgGet cfg6 "description") then
      cfgSet cfg6 "description" (.str purpose)
    else cfg6
  (cfg7, warnings2)

/-- workflow-compiler.ts buildBaseConfigForBlock: seed the config with the
step config hints, then normalize per backend type. -/
def buildBaseConfigForBlock (backendType : String) (params : BuildConfigParams)
    (warnings : List String) : Config × List String :=
  let cfg0 : Config :=
    (params.configHints.getD []).foldl (fun c p => cfgSet c p.1 (.str p.2)) []
  match backendType with
  | "SWAP" => buildSwapConfig cfg0 warnings
  | "TELEGRAM" =>
    buildTelegramConfig cfg0 params.purpose params.chatId
      params.telegramConnectionId warnings
  | "IF" => (buildIfConfig cfg0, warnings)
  | "CHAINLINK_PRICE_ORACLE" | "PYTH_PRICE_ORACLE" | "PRICE_ORACLE" =>
    buildOracleConfig backendType cfg0 params.purpose params.configHints warnings
  | _ => (cfg0, warnings)

/-! ## Planner result types (planner/plan-types) and the block catalog -/

structure PlannerStep where
  blockId : String
  purpose : String
  configHints : Option (List (String × String))
deriving DecidableEq

structure PlannerMissingInput where
  field : String
  question : String
deriving DecidableEq

structure PlannerNote where
  type : String
  message : String
  field : Option String
deriving DecidableEq

structure PlannerResult where
  workflowName : String
  description : String
  steps : List PlannerStep
  missingInputs : List PlannerMissingInput
  notes : Option (List PlannerNote)
deriving DecidableEq

structure PlannerBlockDefinition where
  id : String
  backendType : String
  label : String
deriving DecidableEq

/-- planner/block-catalog.ts PLANNER_BLOCKS (descriptions are not used by the
embedded code paths and are omitted). -/
def PLANNER_BLOCKS : List PlannerBlockDefinition :=
  [⟨"api", "API", "HTTP Request"⟩,
   ⟨"time-block", "TIME_BLOCK", "Scheduled Trigger"⟩,
   ⟨"telegram", "TELEGRAM", "Telegram"⟩,
   ⟨"slack", "SLACK", "Slack"⟩,
   ⟨"mail", "EMAIL", "Email"⟩,
   ⟨"if", "IF", "If / Condition"⟩,
   ⟨"switch", "SWITCH", "Switch"⟩,
   ⟨"wallet", "WALLET", "Wallet"⟩,
   ⟨"uniswap", "SWAP", "Uniswap Swap"⟩,
   ⟨"oneinch", "SWAP", "1inch Swap"⟩,
   ⟨"lifi", "SWAP", "LiFi"⟩,
   ⟨"relay", "SWAP", "Relay"⟩,
   ⟨"aave", "LENDING", "Aave"⟩,
   ⟨"compound", "LENDING", "Compound"⟩,
   ⟨"chainlink", "CHAINLINK_PRICE_ORACLE", "Chainlink"⟩,
   ⟨"pyth", "PYTH_PRICE_ORACLE", "Pyth"⟩,
   ⟨"ai-openai-chatgpt", "LLM_TRANSFORM", "ChatGPT"⟩,
   ⟨"ai-openrouter-qwen-free", "LLM_TRANSFORM", "Qwen"⟩,
   ⟨"ai-openrouter-glm-free", "LLM_TRANSFORM", "GLM"⟩,
   ⟨"ai-openrouter-deepseek-free", "LLM_TRANSFORM", "DeepSeek"⟩]

/-- planner/block-catalog.ts VALID_PLANNER_BLOCK_IDS (as a list standing for
the Set). -/
def VALID_PLANNER_BLOCK_IDS : List String := PLANNER_BLOCKS.map (·.id)

def validBlockId (bid : String) : Bool := VALID_PLANNER_BLOCK_IDS.contains bid

/-! ## Compiled workflow types -/

structure CompiledNode where
  id : String
  type : String
  name : String
  description : String
  config : Config
  posX : ℕ
  posY : ℕ
  metadata : Config

structure CompiledEdge where
  id : String
  sourceNodeId : String
  targetNodeId : String
  sourceHandle : Option String
  targetHandle : Option String
  condition : Config
  dataMapping : Config

structure CompiledWorkflow where
  name : String
  description : String
  nodes : List CompiledNode
  edges : List CompiledEdge
  triggerNodeId : Option String
  category : String
  tags : List String
  isPublic : Bool

structure ScheduleInfo where
  intervalSeconds : ℤ
  durationSeconds : ℤ
deriving DecidableEq

structure CompileWorkflowOptions where
  plan : PlannerResult
  chatId : Option String
  category : Option String
  tags : Option (List String)
  telegramConnectionId : Option String

structure CompileWorkflowResult where
  workflow : CompiledWorkflow
  warnings : List String
  schedule : Option ScheduleInfo

/-- The throw sites of workflow-compiler.ts. -/
inductive CompileError where
  | emptyPlan
  | noActionableSteps
  | unknownBlock (blockId : String)
  | noBlockDefinition (blockId : String)
  | noNodes
  | badTriggerCount (n : ℕ)
  | missingTriggerNodeId
  | noNonTriggerNodes
  | edgesNotLinear
deriving DecidableEq

def START_NODE_TYPE : String := "START"
def TIME_BLOCK_NODE_TYPE : String := "TIME_BLOCK"
def DEFAULT_CATEGORY : String := "automation"
def DEFAULT_INTERVAL_SECONDS : ℤ := 300
def DEFAULT_DURATION_SECONDS : ℤ := 86400

/-- Deterministic injective stand-in for randomUUID: the k-th fresh id drawn
during one compile call. -/
def uuidOf (k : ℕ) : String := "uuid-" ++ natToString k

/-! ## workflow-compiler.ts: schedule extraction -/

structure ExtractedSchedule where
  intervalSeconds : ℤ
  durationSeconds : ℤ
  recurrence : Config
  stopConditions : Config

/-- workflow-compiler.ts extractScheduleFromTimeBlockStep. -/
def extractScheduleFromTimeBlockStep (step : PlannerStep) (warnings : List String) :
    ExtractedSchedule × List String :=
  let hints := step.configHints.getD []
  let hintGet := fun k => (hints.find? (fun p => p.1 == k)).map (·.2)
  let (intervalSeconds, w1) := toPositiveInt (hintGet "intervalSeconds")
    DEFAULT_INTERVAL_SECONDS "time-block intervalSeconds" warnings
  let (durationSeconds, w2) := toPositiveInt (hintGet "durationSeconds")
    DEFAULT_DURATION_SECONDS "time-block durationSeconds" w1
  let recurrenceTypeHint := jsToUpper ((hintGet "recurrenceType").getD "")
  let cronExpression : Option String :=
    match hintGet "cronExpression" with
    | some c => if jsTrim c ≠ "" then some (jsTrim c) else none
    | none => none
  let recurrence : Config :=
    if recurrenceTypeHint = "CRON" || cronExpression.isSome then
      [("type", .str "CRON"),
       ("cronExpression", .str (cronExpression.getD "*/5 * * * *"))]
    else
      [("type", .str "INTERVAL"), ("intervalSeconds", .num (intervalSeconds : ℚ))]
  (⟨intervalSeconds, durationSeconds, recurrence,
    [("durationSeconds", .num (durationSeconds : ℚ))]⟩, w2)

/-! ## workflow-compiler.ts: step compilation, post-pass, edges, validation -/

/-- workflow-compiler.ts compileStepToNode; the fresh node id is supplied by
the caller (uuid counter). -/
def compileStepToNode (step : PlannerStep) (index : ℕ) (chatId : Option String)
    (warnings : List String) (telegramConnectionId : Option String)
    (nodeId : String) : Except CompileError (CompiledNode × List String) :=
  if !validBlockId step.blockId then
    .error (.unknownBlock step.blockId)
  else
    match PLANNER_BLOCKS.find? (fun b => b.id == step.blockId) with
    | none => .error (.noBlockDefinition step.blockId)
    | some blockDef =>
      let (baseConfig, warnings1) := buildBaseConfigForBlock blockDef.backendType
        ⟨step.purpose, step.configHints, chatId, telegramConnectionId⟩ warnings
      .ok ({ id := nodeId, type := blockDef.backendType, name := blockDef.label,
             description := step.purpose, config := baseConfig,
             posX := 280 + index * 260, posY := 0,
             metadata := [("blockId", .str step.blockId),
                          ("plannerLabel", .str blockDef.label)] },
           warnings1)

/-- The per-step map of compilePlannerResultToWorkflow: each remaining step
becomes one node, in order; idx is both the map index and the uuid counter
offset (the trigger consumed uuid number 0). -/
def compileSteps (chatId telegramConnectionId : Option String) :
    List PlannerStep → ℕ → List String →
    Except CompileError (List CompiledNode × List String)
  | [], _, warnings => .ok ([], warnings)
  | step :: rest, idx, warnings => do
    let (node, w1) ← compileStepToNode step idx chatId warnings
      telegramConnectionId (uuidOf (idx + 1))
    let (nodes, w2) ← compileSteps chatId telegramConnectionId rest (idx + 1) w1
    .ok (node :: nodes, w2)

/-- The TELEGRAM-after-oracle post-pass of compilePlannerResultToWorkflow:
when a TELEGRAM node directly follows an oracle node and has no templated
message, default it to show the oracle price. prev carries the previous
node type and id. -/
def telegramOraclePass (prev : Option (String × String)) :
    List CompiledNode → List CompiledNode
  | [] => []
  | node :: rest =>
    let node1 :=
      match prev with
      | some (prevType, prevId) =>
        if node.type = "TELEGRAM" ∧
           (prevType = "CHAINLINK_PRICE_ORACLE" ∨ prevType = "PYTH_PRICE_ORACLE" ∨
            prevType = "PRICE_ORACLE") then
          let message :=
            match cfgGet node.config "message" with
            | some (.str s) => s
            | _ => ""
          if message = "" ∨ ¬ List.IsInfix "\x7b\x7b".data message.data then
            let defaulted : CVal :=
              .str ("Price: $\x7b\x7bblocks." ++ prevId ++ ".formattedAnswer\x7d\x7d")
            { node with config := cfgSet node.config "message" defaulted }
          else node
        else node
      | none => node
    node1 :: telegramOraclePass (some (node.type, node.id)) rest

/-- Linear edge synthesis: trigger to first step to next step and so on, with
deterministic edge ids sourceId->targetId. -/
def mkLinearEdges (previousNodeId : String) : List CompiledNode → List CompiledEdge
  | [] => []
  | node :: rest =>
    { id := previousNodeId ++ "->" ++ node.id,
      sourceNodeId := previousNodeId, targetNodeId := node.id,
      sourceHandle := none, targetHandle := none,
      condition := [], dataMapping := [] } :: mkLinearEdges node.id rest

def isTriggerType (t : String) : Bool :=
  t = START_NODE_TYPE || t = TIME_BLOCK_NODE_TYPE

/-- workflow-compiler.ts validateCompiledWorkflow. -/
def validateCompiledWorkflow (workflow : CompiledWorkflow) :
    Except CompileError Unit := do
  if workflow.nodes.length = 0 then
    throw .noNodes
  let triggerNodes := workflow.nodes.filter (fun n => isTriggerType n.type)
  if triggerNodes.length ≠ 1 then
    throw (.badTriggerCount triggerNodes.length)
  match workflow.triggerNodeId with
  | none => throw .missingTriggerNodeId
  | some tid =>
    if !workflow.nodes.any (fun n => n.id == tid) then
      throw .missingTriggerNodeId
    let nonTriggerNodes := workflow.nodes.filter (fun n => !isTriggerType n.type)
    if nonTriggerNodes.length = 0 then
      throw .noNonTriggerNodes
    if workflow.edges.length < nonTriggerNodes.length then
      throw .edgesNotLinear
    return ()

/-- JS falsy-or on strings: a || b. -/
def jsStrOr (a b : String) : String := if a = "" then b else a

/-! ## workflow-compiler.ts: compilePlannerResultToWorkflow -/

def compilePlannerResultToWorkflow (options : CompileWorkflowOptions) :
    Except CompileError CompileWorkflowResult := do
  let plan := options.plan
  if plan.steps.length = 0 then
    throw .emptyPlan
  let firstStep? := plan.steps.head?
  let hasTimeBlockTrigger : Bool :=
    match firstStep? with
    | some s => s.blockId = "time-block"
    | none => false
  let stepsToCompile := if hasTimeBlockTrigger then plan.steps.drop 1 else plan.steps
  if stepsToCompile.length = 0 then
    throw .noActionableSteps
  let warnings0 : List String := []
  let triggerNodeId := uuidOf 0
  let (triggerNode, schedule, warnings1) :
      CompiledNode × Option ScheduleInfo × List String :=
    if hasTimeBlockTrigger then
      let firstStep := plan.steps.headD ⟨"", "", none⟩
      let (extracted, w) := extractScheduleFromTimeBlockStep firstStep warnings0
      ({ id := triggerNodeId, type := TIME_BLOCK_NODE_TYPE, name := "Time Block",
         description := jsStrOr firstStep.purpose "Scheduled trigger for this workflow.",
         config := [("recurrence", .obj extracted.recurrence),
                    ("stopConditions", .obj extracted.stopConditions)],
         posX := 0, posY := 0,
         metadata := [("blockId", .str firstStep.blockId),
                      ("plannerLabel", .str "Scheduled Trigger")] },
       some ⟨extracted.intervalSeconds, extracted.durationSeconds⟩, w)
    else
      ({ id := triggerNodeId, type := START_NODE_TYPE, name := "Start",
         description := "Manual trigger for this workflow.",
         config := [("triggerType", .str "MANUAL")],
         posX := 0, posY := 0, metadata := [] },
       none, warnings0)
  let (stepNodesRaw, warnings2) ← compileSteps options.chatId
    options.telegramConnectionId stepsToCompile 0 warnings1
  let stepNodes := telegramOraclePass none stepNodesRaw
  let nodes := triggerNode :: stepNodes
  let edges := mkLinearEdges triggerNodeId stepNodes
  let workflow : CompiledWorkflow :=
    { name := jsStrOr plan.workflowName "Untitled Workflow",
      description := jsStrOr plan.description "Generated from natural language request.",
      nodes := nodes, edges := edges, triggerNodeId := some triggerNodeId,
      category := options.category.getD DEFAULT_CATEGORY,
      tags := options.tags.getD [], isPublic := false }
  validateCompiledWorkflow workflow
  return { workflow := workflow, warnings := warnings2, schedule := schedule }

/-! ## Raw JSON values and the planner-output sanitizer (planner-client) -/

/-- An arbitrary parsed JSON / JS value reaching the sanitizer. Object field
lists model JS objects, whose keys are unique. -/
inductive JVal where
  | str (s : String)
  | num (q : ℚ)
  | bool (b : Bool)
  | null
  | arr (items : List JVal)
  | obj (fields : List (String × JVal))

/-- JS property read v[k] for a non-numeric key (undefined on non-objects and
on arrays, which carry no such keys here). -/
def jGet (v : JVal) (k : String) : Option JVal :=
  match v with
  | .obj fields => (fields.find? (fun p => p.1 == k)).map (·.2)
  | _ => none

/-- Truthy value of typeof object (a non-null object or an array). -/
def jIsObjLike : JVal → Bool
  | .obj _ => true
  | .arr _ => true
  | _ => false

/-- JS object property write for string records (update in place or append). -/
def recordSet (l : List (String × String)) (k v : String) : List (String × String) :=
  if List.any l (fun p => p.1 == k) then
    List.map (fun p => if p.1 == k then (k, v) else p) l
  else l ++ [(k, v)]

/-- planner-client normalizePlannerBlockId. -/
def normalizePlannerBlockId (rawBlockId : String) : Option String :=
  let trimmed := jsTrim rawBlockId
  if trimmed = "" then none
  else if validBlockId trimmed then some trimmed
  else
    let normalized : String := ⟨squashWsHyphen (jsToLower trimmed).data⟩
    let aliasMap : List (String × String) :=
      [("swap", "uniswap"), ("lifi_swap", "lifi"), ("oneinch_swap", "oneinch"),
       ("uniswap_swap", "uniswap"), ("pyth_price_oracle", "pyth"),
       ("chainlink_price_oracle", "chainlink"),
       ("llm_transform", "ai-openai-chatgpt"), ("email", "mail")]
    let mappedOk :=
      match assocGet aliasMap normalized with
      | some mapped => if validBlockId mapped then some mapped else none
      | none => none
    match mappedOk with
    | some mapped => some mapped
    | none =>
      let compact : String :=
        ⟨normalized.data.map (fun c => if c = '_' then '-' else c)⟩
      if validBlockId compact then some compact else none

/-- The trim-or-default string field pattern used by the sanitizer:
typeof x === string and x.trim() nonempty, then x.trim().slice(0, cap),
else the default. -/
def sanitizeTextField (o : Option JVal) (cap : ℕ) (dflt : String) : String :=
  match o with
  | some (.str s) => if jsTrim s ≠ "" then jsSliceTo (jsTrim s) cap else dflt
  | _ => dflt

/-- The optional variant (notes field): undefined when missing or blank. -/
def sanitizeOptTextField (o : Option JVal) (cap : ℕ) : Option String :=
  match o with
  | some (.str f) => if jsTrim f ≠ "" then some (jsSliceTo (jsTrim f) cap) else none
  | _ => none

/-- Loop body of sanitizeStringRecord over Object.entries. -/
def hintFoldStep (acc : List (String × String)) (p : String × JVal) :
    List (String × String) :=
  match p.2 with
  | .str v =>
    let trimmedKey := jsTrim p.1
    let trimmedValue := jsTrim v
    if trimmedKey = "" ∨ trimmedValue = "" then acc
    else recordSet acc (jsSliceTo trimmedKey 100) (jsSliceTo trimmedValue 200)
  | _ => acc

/-- planner-client sanitizeStringRecord. -/
def sanitizeStringRecord (input : Option JVal) : Option (List (String × String)) :=
  match input with
  | some (.obj fields) =>
    let output := fields.foldl hintFoldStep []
    if output.length > 0 then some output else none
  | _ => none

/-- planner-client sanitizeSteps (the loop body over candidate steps). -/
def sanitizeStepsLoop : List JVal → List PlannerStep
  | [] => []
  | v :: rest =>
    if !jIsObjLike v then sanitizeStepsLoop rest
    else
      match jGet v "blockId" with
      | some (.str rawBlockId) =>
        (match normalizePlannerBlockId rawBlockId with
         | none => sanitizeStepsLoop rest
         | some blockId =>
           let purpose :=
             sanitizeTextField (jGet v "purpose") 240 "Execute this workflow step."
           let configHints := sanitizeStringRecord (jGet v "configHints")
           ⟨blockId, purpose, configHints⟩ :: sanitizeStepsLoop rest)
      | _ => sanitizeStepsLoop rest

/-- planner-client sanitizeSteps. -/
def sanitizeSteps (input : Option JVal) : List PlannerStep :=
  match input with
  | some (.arr items) => (sanitizeStepsLoop items).take 20
  | _ => []

/-- planner-client sanitizeMissingInputs. -/
def sanitizeMissingInputsLoop : List JVal → List PlannerMissingInput
  | [] => []
  | v :: rest =>
    if !jIsObjLike v then sanitizeMissingInputsLoop rest
    else
      match jGet v "field", jGet v "question" with
      | some (.str f), some (.str q) =>
        let field := jsTrim f
        let question := jsTrim q
        if field = "" ∨ question = "" then sanitizeMissingInputsLoop rest
        else ⟨jsSliceTo field 120, jsSliceTo question 240⟩ :: sanitizeMissingInputsLoop rest
      | _, _ => sanitizeMissingInputsLoop rest

def sanitizeMissingInputs (input : Option JVal) : List PlannerMissingInput :=
  match input with
  | some (.arr items) => (sanitizeMissingInputsLoop items).take 10
  | _ => []

def allowedNoteTypes : List String :=
  ["missing_data", "assumption", "risk", "preference", "other"]

/-- planner-client sanitizeNotes. -/
def sanitizeNotesLoop : List JVal → List PlannerNote
  | [] => []
  | v :: rest =>
    if !jIsObjLike v then sanitizeNotesLoop rest
    else
      match jGet v "type", jGet v "message" with
      | some (.str ty), some (.str msg) =>
        if !allowedNoteTypes.contains ty then sanitizeNotesLoop rest
        else
          let message := jsTrim msg
          if message = "" then sanitizeNotesLoop rest
          else
            let noteField : Option String := sanitizeOptTextField (jGet v "field") 120
            ⟨ty, jsSliceTo message 280, noteField⟩ :: sanitizeNotesLoop rest
      | _, _ => sanitizeNotesLoop rest

def sanitizeNotes (input : Option JVal) : List PlannerNote :=
  match input with
  | some (.arr items) => (sanitizeNotesLoop items).take 12
  | _ => []

/-- planner-client sanitizePlannerResult. -/
def sanitizePlannerResult (input : JVal) : Except String PlannerResult :=
  if !jIsObjLike input then .error "Planner response is not an object"
  else
    let candidate := input
    let workflowSection :=
      match jGet candidate "heading1_workflow" with
      | some v => if jIsObjLike v then v else candidate
      | none => candidate
    let notesSection :=
      match jGet candidate "heading2_notes" with
      | some v => if jIsObjLike v then v else candidate
      | none => candidate
    let workflowName :=
      sanitizeTextField (jGet workflowSection "workflowName") 200 "Untitled Workflow"
    let description :=
      sanitizeTextField (jGet workflowSection "description") 500 "Generated workflow plan"
    let steps := sanitizeSteps (jGet workflowSection "steps")
    let missingInputs := sanitizeMissingInputs
      (match jGet notesSection "missingInputs" with
       | some v => some v
       | none => jGet candidate "missingInputs")
    let notes := sanitizeNotes (jGet notesSection "notes")
    if steps.length = 0 then .error "Planner returned no valid steps"
    else
      .ok { workflowName := workflowName, description := description,
            steps := steps, missingInputs := missingInputs,
            notes := if notes.length > 0 then some notes else none }

/-- A sanitized Plan fed back to the sanitizer through its own flat shape
(the JS object that the Plan value is). -/
def stepToJVal (s : PlannerStep) : JVal :=
  .obj ([("blockId", .str s.blockId), ("purpose", .str s.purpose)] ++
    (match s.configHints with
     | some h => [("configHints", .obj (h.map (fun p => (p.1, JVal.str p.2))))]
     | none => []))

def missingInputToJVal (m : PlannerMissingInput) : JVal :=
  .obj [("field", .str m.field), ("question", .str m.question)]

def noteToJVal (n : PlannerNote) : JVal :=
  .obj ([("type", .str n.type), ("message", .str n.message)] ++
    (match n.field with
     | some f => [("field", .str f)]
     | none => []))

def planToJVal (p : PlannerResult) : JVal :=
  .obj ([("workflowName", .str p.workflowName),
         ("description", .str p.description),
         ("steps", .arr (p.steps.map stepToJVal)),
         ("missingInputs", .arr (p.missingInputs.map missingInputToJVal))] ++
    (match p.notes with
     | some ns => [("notes", .arr (ns.map noteToJVal))]
     | none => []))

/-! ## Execution monitors (execution-monitor) -/

structure NodeExecution where
  node_type : String
  status : String
deriving DecidableEq

/-- An execution status returned by the workflow backend. The started_at and
finished_at ISO timestamp strings are modelled as already-parsed epoch
milliseconds (none covers both an absent field and an unparsable string,
which the source treats alike). -/
structure WorkflowExecutionStatus where
  id : String
  status : String
  errorMessage : Option String
  nodeExecutions : List NodeExecution
  started_at : Option ℤ
  finished_at : Option ℤ
deriving DecidableEq

/-- One poll of getExecutionStatus: a status, or a thrown transient error. -/
abbrev PollOutcome := Except Unit WorkflowExecutionStatus

/-- The notifications and backend calls the monitors emit. Message text
construction (links, explorer URLs) is presentational and not modelled;
each constructor stands for one sendMessage / cancelTimeBlock call. -/
inductive MonitorEvent where
  | signingRequired (executionId : String)
  | workflowCompleted
  | workflowFailed (errorMessage : Option String)
  | scheduledRunFailed (errorMessage : Option String)
  | swapDoneStop
  | cancelTimeBlock (timeBlockId : String)
  | windowTimeout
deriving DecidableEq

def isTerminalStatus (s : String) : Bool := s = "SUCCESS" || s = "FAILED"

/-- execution-monitor waitForSingleExecutionTerminal, run against the finite
list of successive poll outcomes: the events emitted (tagged with the poll
tick at which they fire, counting from tick) and the terminal status, none
when the poll list is exhausted while the loop would still be running. -/
def waitForSingleExecutionTerminal (executionId : String) :
    Bool → ℕ → List PollOutcome →
    List (ℕ × MonitorEvent) × Option WorkflowExecutionStatus
  | _, _, [] => ([], none)
  | signingSent, tick, .error _ :: rest =>
    waitForSingleExecutionTerminal executionId signingSent (tick + 1) rest
  | signingSent, tick, .ok status :: rest =>
    let fireSigning := status.status = "WAITING_FOR_SIGNATURE" ∧ signingSent = false
    let evs0 : List (ℕ × MonitorEvent) :=
      if fireSigning then [(tick, .signingRequired executionId)] else []
    let sent := signingSent || (status.status == "WAITING_FOR_SIGNATURE")
    if status.status = "SUCCESS" then
      (evs0 ++ [(tick, .workflowCompleted)], some status)
    else if status.status = "FAILED" then
      (evs0 ++ [(tick, .workflowFailed status.errorMessage)], some status)
    else
      let (evs, res) := waitForSingleExecutionTerminal executionId sent (tick + 1) rest
      (evs0 ++ evs, res)

/-- execution-monitor didSwapExecute. -/
def didSwapExecute (execution : WorkflowExecutionStatus) : Bool :=
  if execution.nodeExecutions.any
      (fun n => n.node_type == "SWAP" && n.status == "SUCCESS") then true
  else
    match execution.started_at, execution.finished_at with
    | some started, some finished => decide (finished - started > 10000)
    | _, _ => false

/-- The environment one scheduled-monitor iteration interacts with:
the listExecutions call outcome, the nested poll stream consumed when a
waiting execution is delegated to the single-execution monitor, the
safeGetExecutionStatus outcome per execution id, and the wall-clock time the
iteration body spends in its awaited calls. -/
structure SchedTick where
  listing : Except Unit (List WorkflowExecutionStatus)
  innerPolls : String → List PollOutcome
  details : String → Except Unit WorkflowExecutionStatus
  bodyMs : ℕ

inductive BatchStep where
  | continueMonitoring (seen signingSentFor : List String) (events : List MonitorEvent)
  | goalReached (events : List MonitorEvent)

/-- The for-loop body of monitorScheduledWorkflow over one freshly listed
batch of executions. Returning goalReached corresponds to the return
statements that cancel the time block and stop monitoring. -/
def processBatch (timeBlockId : String) (env : SchedTick) :
    List WorkflowExecutionStatus → List String → List String →
    List MonitorEvent → BatchStep
  | [], seen, signingSentFor, evs => .continueMonitoring seen signingSentFor evs
  | e :: rest, seen, signingSentFor, evs =>
    if e.id ∈ seen then processBatch timeBlockId env rest seen signingSentFor evs
    else
      let seen1 := seen ++ [e.id]
      if e.status = "WAITING_FOR_SIGNATURE" then
        let ssf1 := signingSentFor ++ [e.id]
        let evs1 := evs ++ [.signingRequired e.id]
        let (innerEvs, finalStatus) :=
          waitForSingleExecutionTerminal e.id true 0 (env.innerPolls e.id)
        let evs2 := evs1 ++ innerEvs.map (·.2)
        match finalStatus with
        | some st =>
          if st.status = "SUCCESS" then
            .goalReached (evs2 ++ [.cancelTimeBlock timeBlockId, .swapDoneStop])
          else processBatch timeBlockId env rest seen1 ssf1 evs2
        | none => processBatch timeBlockId env rest seen1 ssf1 evs2
      else
        let detOf : Option WorkflowExecutionStatus :=
          match env.details e.id with
          | .ok d => some d
          | .error _ => none
        if e.status = "SUCCESS" ∧ didSwapExecute (detOf.getD e) then
          .goalReached (evs ++ [.cancelTimeBlock timeBlockId, .swapDoneStop])
        else
          let evs1 :=
            if e.status = "FAILED" then
              evs ++ [.scheduledRunFailed
                (match detOf.bind (·.errorMessage) with
                 | some m => some m
                 | none => e.errorMessage)]
            else evs
          -- trailing re-check of WAITING_FOR_SIGNATURE in the source is dead
          -- code on this path (that status was handled above with continue)
          let ssf1 :=
            if e.status = "WAITING_FOR_SIGNATURE" ∧ e.id ∉ signingSentFor then
              signingSentFor ++ [e.id]
            else signingSentFor
          processBatch timeBlockId env rest seen1 ssf1 evs1

inductive SchedOutcome where
  | timeoutReached (atMs : ℕ)
  | goalAchieved (atMs : ℕ)
  | fuelExhausted
deriving DecidableEq

/-- execution-monitor monitorScheduledWorkflow as a fuelled loop over a
stream of per-iteration environments. Each iteration checks the window guard
(Date.now under timeoutAt), runs one listExecutions poll (a thrown poll is
caught and retried next tick), and sleeps 30000 ms; its awaited body time is
env.bodyMs. Events are tagged with the clock value at the iteration start;
leaving the loop emits the window-timeout notification. -/
def monitorScheduledLoop (timeoutAt : ℕ) (timeBlockId : String)
    (ticks : ℕ → SchedTick) :
    ℕ → ℕ → ℕ → List String → List String →
    List (ℕ × MonitorEvent) × SchedOutcome
  | fuel, now, i, seen, signingSentFor =>
    if now < timeoutAt then
      match fuel with
      | 0 => ([], .fuelExhausted)
      | fuel' + 1 =>
        let env := ticks i
        let stepRes :=
          match env.listing with
          | .ok executions =>
            processBatch timeBlockId env executions seen signingSentFor []
          | .error _ => .continueMonitoring seen signingSentFor []
        match stepRes with
        | .goalReached evs =>
          (evs.map (fun ev => (now, ev)), .goalAchieved now)
        | .continueMonitoring seen1 ssf1 evs =>
          let (evsRest, outcome) := monitorScheduledLoop timeoutAt timeBlockId
            ticks fuel' (now + env.bodyMs + 30000) (i + 1) seen1 ssf1
          (evs.map (fun ev => (now, ev)) ++ evsRest, outcome)
    else
      ([(now, .windowTimeout)], .timeoutReached now)

/-- execution-monitor monitorScheduledWorkflow: the window is durationSeconds
long starting at startedAt (timeoutAt = startedAt + durationSeconds * 1000). -/
def monitorScheduledWorkflow (timeBlockId : String) (durationSeconds : ℕ)
    (startedAt : ℕ) (ticks : ℕ → SchedTick) (fuel : ℕ) :
    List (ℕ × MonitorEvent) × SchedOutcome :=
  monitorScheduledLoop (startedAt + durationSeconds * 1000) timeBlockId ticks
    fuel startedAt 0 [] []

/-! ## JSON.parse (used by the connectionId validation-error recovery) -/

def jsonWsChar (c : Char) : Bool :=
  c = ' ' || c = '\t' || c = '\n' || c = '\r'

def skipJsonWs (l : List Char) : List Char := l.dropWhile jsonWsChar

/-- Parse a JSON string body after the opening quote. Escaped \uXXXX code
points go through Char.ofNat (lone surrogates, which Lean chars cannot hold,
would degrade to NUL; none occur in the data handled here). -/
def parseJsonStringBody (fuel : ℕ) (l : List Char) : Option (List Char × List Char) :=
  match fuel with
  | 0 => none
  | fuel' + 1 =>
    match l with
    | [] => none
    | '"' :: rest => some ([], rest)
    | '\\' :: esc :: rest =>
      let continueWith : Char → List Char → Option (List Char × List Char) :=
        fun c r =>
          match parseJsonStringBody fuel' r with
          | some (s, r2) => some (c :: s, r2)
          | none => none
      match esc with
      | '"' => continueWith '"' rest
      | '\\' => continueWith '\\' rest
      | '/' => continueWith '/' rest
      | 'b' => continueWith (Char.ofNat 8) rest
      | 'f' => continueWith (Char.ofNat 12) rest
      | 'n' => continueWith '\n' rest
      | 'r' => continueWith '\r' rest
      | 't' => continueWith '\t' rest
      | 'u' =>
        (match rest with
         | h1 :: h2 :: h3 :: h4 :: rest2 =>
           if [h1, h2, h3, h4].all isHexDigitChar then
             continueWith
               (Char.ofNat (((hexDigitVal h1 * 16 + hexDigitVal h2) * 16 +
                 hexDigitVal h3) * 16 + hexDigitVal h4)) rest2
           else none
         | _ => none)
      | _ => none
    | c :: rest =>
      if c.toNat < 32 then none
      else
        match parseJsonStringBody fuel' rest with
        | some (s, r2) => some (c :: s, r2)
        | none => none

/-- Parse a JSON number (JSON grammar: no leading zeros, mandatory integer
part), returning its exact value. -/
def parseJsonNumber (l : List Char) : Option (ℚ × List Char) :=
  let (neg, l1) := match l with
    | '-' :: r => (true, r)
    | r => (false, r)
  let intPart : Option (List Char × List Char) :=
    match l1 with
    | '0' :: r => some (['0'], r)
    | c :: r =>
      if c.isDigit && c ≠ '0' then
        some (c :: r.takeWhile Char.isDigit, r.dropWhile Char.isDigit)
      else none
    | [] => none
  match intPart with
  | none => none
  | some (I, r2) =>
    let fracPart : Option (List Char × List Char) :=
      match r2 with
      | '.' :: rf =>
        let ds := rf.takeWhile Char.isDigit
        if ds = [] then none else some (ds, rf.dropWhile Char.isDigit)
      | _ => some ([], r2)
    match fracPart with
    | none => none
    | some (F, r3) =>
      let (e, r4) := parseExpPart r3
      let mag := mantissaVal I F * zpow10Q e
      some (if neg then -mag else mag, r4)

mutual

/-- JSON.parse value parser (fuelled recursive descent). -/
def parseJsonValue : ℕ → List Char → Option (JVal × List Char)
  | 0, _ => none
  | fuel + 1, l =>
    match skipJsonWs l with
    | 't' :: 'r' :: 'u' :: 'e' :: r => some (.bool true, r)
    | 'f' :: 'a' :: 'l' :: 's' :: 'e' :: r => some (.bool false, r)
    | 'n' :: 'u' :: 'l' :: 'l' :: r => some (.null, r)
    | '"' :: r =>
      (match parseJsonStringBody (r.length + 1) r with
       | some (s, r2) => some (.str ⟨s⟩, r2)
       | none => none)
    | '[' :: r =>
      (match skipJsonWs r with
       | ']' :: r2 => some (.arr [], r2)
       | _ => parseJsonElements fuel r [])
    | '{' :: r =>
      (match skipJsonWs r with
       | '}' :: r2 => some (.obj [], r2)
       | _ => parseJsonMembers fuel r [])
    | r => (parseJsonNumber r).map (fun p => (.num p.1, p.2))

/-- Comma-separated array elements, accumulated in order. -/
def parseJsonElements : ℕ → List Char → List JVal → Option (JVal × List Char)
  | 0, _, _ => none
  | fuel + 1, l, acc =>
    match parseJsonValue fuel l with
    | none => none
    | some (v, r) =>
      match skipJsonWs r with
      | ',' :: r2 => parseJsonElements fuel r2 (acc ++ [v])
      | ']' :: r2 => some (.arr (acc ++ [v]), r2)
      | _ => none

/-- Comma-separated object members, accumulated in order (later duplicate
keys of a parsed text override earlier ones, as JSON.parse does). -/
def parseJsonMembers : ℕ → List Char → List (String × JVal) → Option (JVal × List Char)
  | 0, _, _ => none
  | fuel + 1, l, acc =>
    match skipJsonWs l with
    | '"' :: r =>
      (match parseJsonStringBody (r.length + 1) r with
       | none => none
       | some (k, r2) =>
         match skipJsonWs r2 with
         | ':' :: r3 =>
           (match parseJsonValue fuel r3 with
            | none => none
            | some (v, r4) =>
              let acc1 :=
                if List.any acc (fun p => p.1 == (⟨k⟩ : String)) then
                  List.map (fun p => if p.1 == (⟨k⟩ : String) then (⟨k⟩, v) else p) acc
                else acc ++ [(⟨k⟩, v)]
              match skipJsonWs r4 with
              | ',' :: r5 => parseJsonMembers fuel r5 acc1
              | '}' :: r5 => some (.obj acc1, r5)
              | _ => none)
         | _ => none)
    | _ => none

end

/-- JSON.parse: parse one value and require only whitespace after it. -/
def jsonParse (s : String) : Option JVal :=
  match parseJsonValue (s.data.length + 1) s.data with
  | some (v, rest) => if skipJsonWs rest = [] then some v else none
  | none => none

/-! ## agent-service.ts: the connectionId validation-error recovery -/

def failedCreateLead : List Char := "Failed to create workflow:".data

/-- Continuation of the regex after the literal lead: \s*400\s+(.+) with the s
flag. Returns the captured group (greedy up to the end of the string, giving
back one whitespace character when nothing else remains). -/
def capture400After (l : List Char) : Option String :=
  match l.dropWhile jsWsChar with
  | '4' :: '0' :: '0' :: rest =>
    let ws := rest.takeWhile jsWsChar
    let tailPart := rest.dropWhile jsWsChar
    if ws = [] then none
    else if tailPart ≠ [] then some ⟨tailPart⟩
    else if 2 ≤ ws.length then some ⟨[' ']⟩
    else none
  | _ => none

/-- Leftmost match of /Failed to create workflow:\s*400\s+(.+)/s over the
message, scanning successive occurrences of the literal lead. -/
def find400Capture : ℕ → List Char → Option String
  | 0, _ => none
  | fuel + 1, l =>
    match findOccurrence failedCreateLead l with
    | none => none
    | some (_, after) =>
      match capture400After after with
      | some cap => some cap
      | none => find400Capture fuel after

/-- Containment test of the unanchored pattern nodes\.\d+\.config\.connectionId. -/
def connPatternAt (l : List Char) : Bool :=
  if "nodes.".data.isPrefixOf l then
    let afterLead := l.drop 6
    let digits := afterLead.takeWhile Char.isDigit
    decide (digits ≠ []) &&
      ".config.connectionId".data.isPrefixOf (afterLead.dropWhile Char.isDigit)
  else false

def containsConnPattern : List Char → Bool
  | [] => false
  | c :: r => connPatternAt (c :: r) || containsConnPattern r

/-- Does the creation error message carry the 400-validation shape whose
structured details name a nodes.i.config.connectionId field? (agent-service
tryPatchWorkflowPayloadFromValidationError, error-analysis part.) -/
def errorNamesConnectionIdField (raw : String) : Bool :=
  match find400Capture (raw.data.length + 1) raw.data with
  | none => false
  | some captured =>
    match jsonParse (jsTrim captured) with
    | none => false
    | some body =>
      match (jGet body "error").bind (fun e => jGet e "details") with
      | some (.arr details) =>
        details.any (fun d =>
          match jGet d "field" with
          | some (.str f) => containsConnPattern f.data
          | _ => false)
      | _ => false

/-- A node of the createWorkflow payload as the recovery sees it. -/
structure WorkflowPayloadNode where
  type : String
  config : Option Config

/-- agent-service.ts tryPatchWorkflowPayloadFromValidationError: when a
Telegram connection id is known and the error names a connectionId field,
patch connectionId on every TELEGRAM node; reports whether it patched. -/
def tryPatchWorkflowPayloadFromValidationError (error : String)
    (payload : List WorkflowPayloadNode)
    (telegramConnectionId : Option String) :
    Bool × List WorkflowPayloadNode :=
  match telegramConnectionId with
  | none => (false, payload)
  | some cid =>
    if cid = "" then (false, payload)
    else if errorNamesConnectionIdField error then
      (true, payload.map (fun n =>
        if n.type = "TELEGRAM" ∧ n.config.isSome then
          { n with config := n.config.map (fun c => cfgSet c "connectionId" (.str cid)) }
        else n))
    else (false, payload)

/-- The createWorkflow try/catch of AgentService.execute: one attempt, and on
failure exactly one patched retry when the recovery applies, else rethrow.
attempts gives the backend outcome of the k-th creation call; the result
carries the number of creation calls made and the payload in force. -/
def createWorkflowWithRetry (attempts : ℕ → Except String String)
    (payload : List WorkflowPayloadNode)
    (telegramConnectionId : Option String) :
    Except String String × ℕ × List WorkflowPayloadNode :=
  match attempts 0 with
  | .ok workflowId => (.ok workflowId, 1, payload)
  | .error firstError =>
    let (patched, payload1) :=
      tryPatchWorkflowPayloadFromValidationError firstError payload
        telegramConnectionId
    if patched then (attempts 1, 2, payload1)
    else (.error firstError, 1, payload)

/-! ## agent-service.ts: session store and the plan flow -/

structure AgentSession where
  userId : String
  lastPlan : Option PlannerResult
  lastWorkflowId : Option String
  lastExecutionId : Option String
  lastTimeBlockId : Option String
deriving DecidableEq

/-- core/session-store.ts: the in-memory keyed map. -/
abbrev SessionStore := String → Option AgentSession

def storeSet (store : SessionStore) (key : String) (session : AgentSession) :
    SessionStore :=
  fun k => if k = key then some session else store k

/-- core/types.ts sessionKey. -/
def sessionKey (channel channelId : String) : String := channel ++ ":" ++ channelId

structure PlanRequest where
  prompt : String
  userId : String
  channelId : Option String
  channel : Option String

structure FetchContextArgs where
  userId : String
  telegramUserId : Option String
  chatId : String
  requestedFields : List String
  prompt : String

structure GeneratePlanInput where
  prompt : String
  userId : String
  supplementalContext : List (String × CVal)

/-- The two external collaborators AgentService.plan calls: the best-effort
context endpoint (never throws; none is no context) and the planner client
(may fail). -/
structure AgentPlanDeps where
  fetchPlannerContext : FetchContextArgs → Option (List (String × CVal))
  generateWorkflowPlan : GeneratePlanInput → Except String PlannerResult

def REQUESTED_FIELDS_FOR_CONTEXT : List String :=
  ["telegramChatId", "privyUserId", "userAddress", "preferredChains",
   "preferredTokens"]

/-- userId.replace of the anchored pattern telegram-(user|chat)- with the
empty string. -/
def dropTelegramIdLead (userId : String) : String :=
  if "telegram-user-".data.isPrefixOf userId.data then ⟨userId.data.drop 14⟩
  else if "telegram-chat-".data.isPrefixOf userId.data then ⟨userId.data.drop 14⟩
  else userId

/-- JS object spread merge of two context records (later keys override). -/
def ctxMerge (a b : List (String × CVal)) : List (String × CVal) :=
  b.foldl (fun acc p => cfgSet acc p.1 p.2) a

/-- agent-service.ts AgentService.plan: fetch best-effort context, call the
planner, make one refinement attempt when inputs are missing and a targeted
context fetch yields data, then update the session for the conversation key
preserving the stored workflow/execution/time-block identifiers. Returns the
plan and the updated store. -/
def agentPlan (deps : AgentPlanDeps) (store : SessionStore)
    (request : PlanRequest) : Except String (PlannerResult × SessionStore) := do
  let ch := request.channel.getD "a2a"
  let key :=
    match request.channelId with
    | some c => if c = "" then sessionKey ch request.userId else sessionKey ch c
    | none => sessionKey ch request.userId
  let chatIdStr := request.channelId.getD request.userId
  let telegramUserId :=
    if ch = "telegram" then some (dropTelegramIdLead request.userId) else none
  let backendContext := deps.fetchPlannerContext
    ⟨request.userId, telegramUserId, chatIdStr, REQUESTED_FIELDS_FOR_CONTEXT,
     request.prompt⟩
  let userContext := ctxMerge (backendContext.getD [])
    [("telegramChatId", .str chatIdStr)]
  let firstResult ← deps.generateWorkflowPlan
    ⟨request.prompt, request.userId, userContext⟩
  let plannerResult ←
    if firstResult.missingInputs.length > 0 then
      let requestedFields := firstResult.missingInputs.map (·.field)
      match deps.fetchPlannerContext
        ⟨request.userId, telegramUserId, chatIdStr, requestedFields,
         request.prompt⟩ with
      | some refineContext =>
        if refineContext.length > 0 then
          deps.generateWorkflowPlan
            ⟨request.prompt, request.userId, ctxMerge userContext refineContext⟩
        else pure firstResult
      | none => pure firstResult
    else pure firstResult
  let existing := store key
  let updated : AgentSession :=
    { userId := request.userId, lastPlan := some plannerResult,
      lastWorkflowId := existing.bind (·.lastWorkflowId),
      lastExecutionId := existing.bind (·.lastExecutionId),
      lastTimeBlockId := existing.bind (·.lastTimeBlockId) }
  return (plannerResult, storeSet store key updated)

/-- The conversation key agentPlan writes to, exposed for the statements. -/
def agentPlanKey (request : PlanRequest) : String :=
  let ch := request.channel.getD "a2a"
  match request.channelId with
  | some c => if c = "" then sessionKey ch request.userId else sessionKey ch c
  | none => sessionKey ch request.userId

/-! ## Statement-support definitions -/

/-- The integer number of smallest units a non-negative amount q denotes at d
decimals under round-to-nearest (larger on ties), the rounding performed by
toFixed. -/
def roundedUnits (q : ℚ) (d : ℕ) : ℕ := (ratFloorZ (q * pow10Q d + 1 / 2)).toNat

/-- The numeric value of a digit string such as the one toWeiString returns. -/
def weiValue (s : String) : ℕ := digitsToNatList s.data

/-- String-valued field of an object-valued config entry. -/
def cvalFieldStr (v : CVal) (k : String) : Option String :=
  match cvalField v k with
  | some (.str s) => some s
  | _ => none

/-- The amount string of the inputConfig a SWAP node config carries. -/
def swapInputAmount (cfg : Config) : Option String :=
  (cfgGet cfg "inputConfig").bind (fun v => cvalFieldStr v "amount")

/-- The string surgery toWeiString performs on the toFixed output, isolated
(split on the dot, pad the fractional part, drop a bare zero head). -/
def weiSurgery (m d : ℕ) : List Char :=
  let s := decimalString m d
  let parts := jsSplitChar '.' s.data
  let head := parts.headD []
  let tail := (parts.drop 1).headD []
  let frac := (padEndList tail d '0').take d
  (if head = ['0'] then [] else head) ++ frac

/-- The blockId recorded in a compiled node metadata. -/
def nodeBlockIdMeta (n : CompiledNode) : Option String := cfgGetStr n.metadata "blockId"

/-- Amount strings on which the swap conversion has no usable value: the
parse is NaN or an infinity, or the parsed number is negative. -/
def badAmountString (s : String) : Bool :=
  match jsParseFloat s with
  | .finite q => decide (q.num < 0)
  | _ => true

/-- All string fields of a Plan are unchanged by trim (no leading or trailing
whitespace). -/
def planTrimStable (p : PlannerResult) : Bool :=
  jsTrim p.workflowName == p.workflowName &&
  jsTrim p.description == p.description &&
  p.steps.all (fun s =>
    jsTrim s.purpose == s.purpose &&
    (s.configHints.getD []).all (fun h =>
      jsTrim h.1 == h.1 && jsTrim h.2 == h.2)) &&
  p.missingInputs.all (fun m =>
    jsTrim m.field == m.field && jsTrim m.question == m.question) &&
  (p.notes.getD []).all (fun n =>
    jsTrim n.message == n.message &&
    (match n.field with
     | some f => jsTrim f == f
     | none => true))

/-- A nonempty string of at most cap characters. -/
def strCapOK (s : String) (cap : ℕ) : Bool :=
  !(s == "") && decide (s.length ≤ cap)

def hintEntryOK (p : String × String) : Bool :=
  strCapOK p.1 100 && strCapOK p.2 200

/-- No string of the list repeats later in it. -/
def keyListDistinct : List String → Bool
  | [] => true
  | k :: rest => !(rest.any (fun q => q == k)) && keyListDistinct rest

/-- The keys of a string record are pairwise distinct (a JS object never
carries two entries with the same key). -/
def keysDistinct (l : List (String × String)) : Bool :=
  keyListDistinct (l.map Prod.fst)

def hintsOK : Option (List (String × String)) → Bool
  | none => true
  | some h => !h.isEmpty && h.all hintEntryOK && keysDistinct h

def stepOK (s : PlannerStep) : Bool :=
  validBlockId s.blockId && strCapOK s.purpose 240 && hintsOK s.configHints

def missingOK (m : PlannerMissingInput) : Bool :=
  strCapOK m.field 120 && strCapOK m.question 240

def noteOK (n : PlannerNote) : Bool :=
  allowedNoteTypes.contains n.type && strCapOK n.message 280 &&
  (match n.field with
   | some f => strCapOK f 120
   | none => true)

/-- The structural facts every Plan produced by sanitizePlannerResult
satisfies: nonempty name and description within their caps, one to twenty
steps with catalog block ids and capped purposes and hints, at most ten
missing inputs and at most twelve notes, each within its caps. -/
def sanitizedShape (p : PlannerResult) : Bool :=
  strCapOK p.workflowName 200 && strCapOK p.description 500 &&
  !p.steps.isEmpty && decide (p.steps.length ≤ 20) && p.steps.all stepOK &&
  decide (p.missingInputs.length ≤ 10) && p.missingInputs.all missingOK &&
  (match p.notes with
   | some ns => !ns.isEmpty && decide (ns.length ≤ 12) && ns.all noteOK
   | none => true)

/-- A 101-character config-hint key: slicing it to 100 characters keeps a
trailing run of spaces which a second sanitization trims away. -/
def longHintKey : String := "a" ++ ⟨List.replicate 99 ' '⟩ ++ "b"

/-- A raw planner payload whose sanitized hint key ends in whitespace. -/
def rawPlanC5 : JVal :=
  .obj [("workflowName", .str "W"), ("description", .str "D"),
        ("steps", .arr [.obj
          [("blockId", .str "telegram"), ("purpose", .str "p"),
           ("configHints", .obj [(longHintKey, .str "v")])]])]

/-- What sanitizing rawPlanC5 produces: the hint key keeps 99 trailing
spaces. -/
def planC5 : PlannerResult :=
  ⟨"W", "D", [⟨"telegram", "p", some [("a" ++ ⟨List.replicate 99 ' '⟩, "v")]⟩],
   [], none⟩

/-- What sanitizing planC5 again produces: the hint key is trimmed to a. -/
def planC5' : PlannerResult :=
  ⟨"W", "D", [⟨"telegram", "p", some [("a", "v")]⟩], [], none⟩

def isWaitingOutcome : PollOutcome → Bool
  | .ok st => st.status == "WAITING_FOR_SIGNATURE"
  | .error _ => false

def isTerminalOutcome : PollOutcome → Bool
  | .ok st => isTerminalStatus st.status
  | .error _ => false

def isSigningEvent : MonitorEvent → Bool
  | .signingRequired _ => true
  | _ => false

/-- Whether processing the freshly observed execution e within the given
iteration environment reaches a goal-achieving terminal state (the scheduled
monitor would cancel the trigger and stop). -/
def executionAchievesGoal (env : SchedTick) (e : WorkflowExecutionStatus) : Bool :=
  if e.status = "WAITING_FOR_SIGNATURE" then
    match (waitForSingleExecutionTerminal e.id true 0 (env.innerPolls e.id)).2 with
    | some st => st.status == "SUCCESS"
    | none => false
  else if e.status = "SUCCESS" then
    didSwapExecute
      ((match env.details e.id with
        | .ok d => some d
        | .error _ => none).getD e)
  else false

/-- No execution listed by any iteration reaches a goal-achieving terminal
state (the window will run out). -/
def noGoalWithin (ticks : ℕ → SchedTick) : Prop :=
  ∀ i l, (ticks i).listing = .ok l →
    ∀ e ∈ l, executionAchievesGoal (ticks i) e = false

/-! # Theorems

Helper lemmas first, then one theorem per claim (with witnesses and
counterexamples where required). -/

/-! ## Decimal digit lemmas -/

theorem pow10Q_eq (n : ℕ) : pow10Q n = (10 : ℚ) ^ n := by
  unfold pow10Q
  push_cast
  ring

theorem ratFloorZ_eq (q : ℚ) : ratFloorZ q = Int.floor q :=
  Rat.floor_def.symm

theorem digitsToNatList_foldl (acc : ℕ) (l : List Char) :
    l.foldl (fun a c => a * 10 + digitVal c) acc =
      acc * 10 ^ l.length + digitsToNatList l := by
  induction l generalizing acc with
  | nil => simp [digitsToNatList]
  | cons c r ih =>
    simp only [List.foldl_cons, digitsToNatList] at *
    rw [ih (acc * 10 + digitVal c), ih (0 * 10 + digitVal c)]
    simp [List.length_cons, pow_succ]
    ring

theorem digitsToNatList_append (a b : List Char) :
    digitsToNatList (a ++ b) =
      digitsToNatList a * 10 ^ b.length + digitsToNatList b := by
  unfold digitsToNatList
  rw [List.foldl_append]
  exact digitsToNatList_foldl _ b

theorem digitVal_digitChar (r : ℕ) (h : r < 10) :
    digitVal (digitChar r) = r := by
  interval_cases r <;> decide

theorem digitChar_isDigit (r : ℕ) (h : r < 10) :
    (digitChar r).isDigit = true := by
  interval_cases r <;> decide

theorem natToDigitsLEAux_stable (n : ℕ) :
    ∀ f1 f2, n < f1 → n < f2 → natToDigitsLEAux f1 n = natToDigitsLEAux f2 n := by
  induction n using Nat.strong_induction_on with
  | _ n ih =>
    intro f1 f2 h1 h2
    match f1, f2 with
    | g1 + 1, g2 + 1 =>
      match n with
      | 0 => rfl
      | m + 1 =>
        show digitChar _ :: natToDigitsLEAux g1 ((m + 1) / 10) =
          digitChar _ :: natToDigitsLEAux g2 ((m + 1) / 10)
        have hdiv : (m + 1) / 10 < m + 1 := Nat.div_lt_self (Nat.succ_pos m) (by decide)
        rw [ih _ hdiv g1 g2 (by omega) (by omega)]

theorem natToDigitsLE_zero : natToDigitsLE 0 = [] := rfl

theorem natToDigitsLE_succ (m : ℕ) :
    natToDigitsLE (m + 1) =
      digitChar ((m + 1) % 10) :: natToDigitsLE ((m + 1) / 10) := by
  show natToDigitsLEAux (m + 2) (m + 1) = _
  have hdiv : (m + 1) / 10 < m + 1 := Nat.div_lt_self (Nat.succ_pos m) (by decide)
  show digitChar _ :: natToDigitsLEAux (m + 1) ((m + 1) / 10) = _
  rw [natToDigitsLEAux_stable _ (m + 1) ((m + 1) / 10 + 1) (by omega) (by omega)]
  rfl

theorem natToDigitsLE_val (n : ℕ) :
    digitsToNatList (natToDigitsLE n).reverse = n := by
  induction n using Nat.strong_induction_on with
  | _ n ih =>
    match n with
    | 0 => simp [natToDigitsLE_zero, digitsToNatList]
    | m + 1 =>
      rw [natToDigitsLE_succ]
      rw [List.reverse_cons, digitsToNatList_append]
      have hdiv : (m + 1) / 10 < m + 1 := Nat.div_lt_self (Nat.succ_pos m) (by decide)
      rw [ih _ hdiv]
      have hmod : (m + 1) % 10 < 10 := Nat.mod_lt _ (by decide)
      simp [digitsToNatList, digitVal_digitChar _ hmod]
      omega

theorem natToDigitsLE_digits (n : ℕ) :
    (natToDigitsLE n).all Char.isDigit = true := by
  induction n using Nat.strong_induction_on with
  | _ n ih =>
    match n with
    | 0 => simp [natToDigitsLE_zero]
    | m + 1 =>
      rw [natToDigitsLE_succ]
      have hdiv : (m + 1) / 10 < m + 1 := Nat.div_lt_self (Nat.succ_pos m) (by decide)
      have hmod : (m + 1) % 10 < 10 := Nat.mod_lt _ (by decide)
      simp [List.all_cons, digitChar_isDigit _ hmod, ih _ hdiv]

theorem natToDigitsLE_length_le (k n : ℕ) (h : n < 10 ^ k) :
    (natToDigitsLE n).length ≤ k := by
  induction k generalizing n with
  | zero =>
    simp only [pow_zero, Nat.lt_one_iff] at h
    subst h
    simp [natToDigitsLE_zero]
  | succ k ih =>
    match n with
    | 0 => simp [natToDigitsLE_zero]
    | m + 1 =>
      rw [natToDigitsLE_succ]
      have hdiv : (m + 1) / 10 < 10 ^ k := by
        rw [Nat.div_lt_iff_lt_mul (by decide : 0 < 10)]
        calc m + 1 < 10 ^ (k + 1) := h
        _ = 10 ^ k * 10 := by ring
      simpa using ih _ hdiv

theorem natToString_data_val (n : ℕ) :
    digitsToNatList (natToString n).data = n := by
  unfold natToString
  by_cases h : n = 0
  · subst h; decide
  · simp only [h, if_false]
    exact natToDigitsLE_val n

theorem natToString_data_digits (n : ℕ) :
    (natToString n).data.all Char.isDigit = true := by
  unfold natToString
  by_cases h : n = 0
  · subst h; decide
  · simp only [h, if_false]
    have h2 := natToDigitsLE_digits n
    rw [List.all_eq_true] at h2 ⊢
    intro c hc
    exact h2 c (List.mem_reverse.mp hc)

theorem natToString_data_eq_zero_iff (n : ℕ) :
    (natToString n).data = ['0'] ↔ n = 0 := by
  constructor
  · intro h
    have := natToString_data_val n
    rw [h] at this
    simpa [digitsToNatList, digitVal] using this.symm
  · intro h; subst h; decide

/-! ## Split and padding lemmas -/

theorem jsSplitChar_no_sep (sep : Char) (l : List Char)
    (h : sep ∉ l) : jsSplitChar sep l = [l] := by
  induction l with
  | nil => simp [jsSplitChar]
  | cons c r ih =>
    have hc : ¬ c = sep := fun he => h (he ▸ List.mem_cons_self c r)
    have hr : sep ∉ r := fun hm => h (List.mem_cons_of_mem c hm)
    simp [jsSplitChar, hc, ih hr]

theorem jsSplitChar_sep_append (sep : Char) (I F : List Char)
    (hI : sep ∉ I) : jsSplitChar sep (I ++ sep :: F) = I :: jsSplitChar sep F := by
  induction I with
  | nil => simp [jsSplitChar]
  | cons c r ih =>
    have hc : ¬ c = sep := fun he => hI (he ▸ List.mem_cons_self c r)
    have hr : sep ∉ r := fun hm => hI (List.mem_cons_of_mem c hm)
    have hne : jsSplitChar sep (r ++ sep :: F) = r :: jsSplitChar sep F := ih hr
    simp [jsSplitChar, hc, hne]

theorem digits_no_dot (l : List Char) (h : l.all Char.isDigit = true) :
    '.' ∉ l := by
  intro hm
  rw [List.all_eq_true] at h
  have := h '.' hm
  simp [Char.isDigit] at this

theorem digitsToNatList_replicate_zero (k : ℕ) (l : List Char) :
    digitsToNatList (List.replicate k '0' ++ l) = digitsToNatList l := by
  rw [digitsToNatList_append]
  have hz : digitsToNatList (List.replicate k '0') = 0 := by
    induction k with
    | zero => rfl
    | succ k ih =>
      rw [List.replicate_succ]
      have : digitsToNatList ('0' :: List.replicate k '0') =
          digitsToNatList (['0'] ++ List.replicate k '0') := rfl
      rw [this, digitsToNatList_append, ih]
      simp [digitsToNatList, digitVal]
  rw [hz]
  ring

/-- The fractional-part digit list of decimalString has length exactly d and
value m mod 10^d, and consists of digits. -/
theorem decimal_frac_spec (m d : ℕ) :
    let P := List.replicate (d - (natToDigitsLE (m % 10 ^ d)).length) '0' ++
      (natToDigitsLE (m % 10 ^ d)).reverse
    P.length = d ∧ digitsToNatList P = m % 10 ^ d ∧ P.all Char.isDigit = true := by
  intro P
  have hlt : m % 10 ^ d < 10 ^ d := Nat.mod_lt _ (Nat.pos_pow_of_pos d (by decide))
  have hlen : (natToDigitsLE (m % 10 ^ d)).length ≤ d :=
    natToDigitsLE_length_le d _ hlt
  refine ⟨?_, ?_, ?_⟩
  · simp only [P, List.length_append, List.length_replicate, List.length_reverse]
    omega
  · simpa only [P, digitsToNatList_replicate_zero] using natToDigitsLE_val (m % 10 ^ d)
  · simp only [P, List.all_append, Bool.and_eq_true, List.all_eq_true]
    constructor
    · intro c hc
      rw [List.eq_of_mem_replicate hc]
      decide
    · intro c hc
      have h2 := natToDigitsLE_digits (m % 10 ^ d)
      rw [List.all_eq_true] at h2
      exact h2 c (List.mem_reverse.mp hc)

theorem weiSurgery_zero_d (m : ℕ) :
    weiSurgery m 0 = if (natToString m).data = ['0'] then [] else (natToString m).data := by
  have hnd : '.' ∉ (natToString m).data :=
    digits_no_dot _ (natToString_data_digits m)
  simp [weiSurgery, decimalString, jsSplitChar_no_sep '.' _ hnd, padEndList]

theorem weiSurgery_pos_d (m d : ℕ) (hd : d ≠ 0) :
    weiSurgery m d =
      (if (natToString (m / 10 ^ d)).data = ['0'] then []
       else (natToString (m / 10 ^ d)).data) ++
      (List.replicate (d - (natToDigitsLE (m % 10 ^ d)).length) '0' ++
        (natToDigitsLE (m % 10 ^ d)).reverse) := by
  have hnd : '.' ∉ (natToString (m / 10 ^ d)).data :=
    digits_no_dot _ (natToString_data_digits (m / 10 ^ d))
  obtain ⟨hPlen, _hPval, hPdig⟩ := decimal_frac_spec m d
  set P := List.replicate (d - (natToDigitsLE (m % 10 ^ d)).length) '0' ++
    (natToDigitsLE (m % 10 ^ d)).reverse with hP
  have hndP : '.' ∉ P := digits_no_dot _ hPdig
  have hsplit : jsSplitChar '.' (decimalString m d).data =
      [(natToString (m / 10 ^ d)).data, P] := by
    have hdata : (decimalString m d).data =
        (natToString (m / 10 ^ d)).data ++ '.' :: P := by
      simp [decimalString, hd, hP]
    rw [hdata, jsSplitChar_sep_append '.' _ _ hnd, jsSplitChar_no_sep '.' _ hndP]
  have hpad : (padEndList P d '0').take d = P := by
    unfold padEndList
    rw [hPlen, Nat.sub_self, List.replicate_zero, List.append_nil]
    conv_lhs => rw [← hPlen]
    exact List.take_length P
  simp [weiSurgery, hsplit, hpad]

/-- The surgery yields the digit string of m. -/
theorem weiSurgery_val (m d : ℕ) : digitsToNatList (weiSurgery m d) = m := by
  by_cases hd : d = 0
  · subst hd
    rw [weiSurgery_zero_d]
    by_cases hz : (natToString m).data = ['0']
    · have hm : m = 0 := (natToString_data_eq_zero_iff m).mp hz
      rw [if_pos hz, hm]
      rfl
    · simpa [hz] using natToString_data_val m
  · rw [weiSurgery_pos_d m d hd]
    obtain ⟨hPlen, hPval, _⟩ := decimal_frac_spec m d
    set P := List.replicate (d - (natToDigitsLE (m % 10 ^ d)).length) '0' ++
      (natToDigitsLE (m % 10 ^ d)).reverse with hP
    by_cases hz : (natToString (m / 10 ^ d)).data = ['0']
    · have hq : m / 10 ^ d = 0 := (natToString_data_eq_zero_iff _).mp hz
      have hm : m < 10 ^ d := by
        rcases Nat.lt_or_ge m (10 ^ d) with h | h
        · exact h
        · exact absurd hq (by
            have := Nat.one_le_div_iff (Nat.pos_pow_of_pos d (by decide : 0 < 10)) |>.mpr h
            omega)
      rw [if_pos hz, List.nil_append, hPval, Nat.mod_eq_of_lt hm]
    · rw [if_neg hz, digitsToNatList_append, hPlen, hPval, natToString_data_val]
      rw [Nat.mul_comm]
      exact Nat.div_add_mod m (10 ^ d)

/-- The surgery yields only decimal digits. -/
theorem weiSurgery_digits (m d : ℕ) :
    (weiSurgery m d).all Char.isDigit = true := by
  by_cases hd : d = 0
  · subst hd
    rw [weiSurgery_zero_d]
    by_cases hz : (natToString m).data = ['0']
    · simp [hz]
    · simpa [hz] using natToString_data_digits m
  · rw [weiSurgery_pos_d m d hd]
    obtain ⟨_, _, hPdig⟩ := decimal_frac_spec m d
    rw [List.all_append]
    have h1 : (if (natToString (m / 10 ^ d)).data = ['0'] then []
        else (natToString (m / 10 ^ d)).data).all Char.isDigit = true := by
      by_cases hz : (natToString (m / 10 ^ d)).data = ['0']
      · simp [hz]
      · simpa [hz] using natToString_data_digits (m / 10 ^ d)
    simp [h1, hPdig]

/-- On a successfully parsed non-negative amount, toWeiString is the surgery
on the rounded-units digit string. -/
theorem toWeiString_eq_surgery (s : String) (d : ℕ) (q : ℚ)
    (hp : jsParseFloat s = .finite q) (hq : 0 ≤ q) :
    toWeiString s d = ⟨weiSurgery (roundedUnits q d) d⟩ := by
  unfold toWeiString
  rw [hp]
  dsimp only
  rw [if_neg (not_lt.mpr (Rat.num_nonneg.mpr hq))]
  rfl

theorem toWeiString_of_bad (s : String) (d : ℕ)
    (h : badAmountString s = true) : toWeiString s d = "0" := by
  unfold toWeiString
  unfold badAmountString at h
  rcases hp : jsParseFloat s with _ | _ | _ | q
  · rfl
  · rfl
  · rfl
  · rw [hp] at h
    simp only [decide_eq_true_eq] at h
    simp [h]

/-! ## Claim C10 -/

/-- C10: the swap amount conversion is total and never yields a negative
value: toWeiString always returns a plain digit string (hence a non-negative
numeral), and whenever the parsed amount is NaN, an infinity, or negative
(empty, non-numeric, or malformed input), it returns the string 0, so a bad
amount hint degrades to a zero amount instead of aborting compilation. -/
theorem C10_toWeiString_never_negative (s : String) (d : ℕ) :
    (toWeiString s d).data.all Char.isDigit = true ∧
    (badAmountString s = true → toWeiString s d = "0") := by
  constructor
  · by_cases hb : badAmountString s = true
    · rw [toWeiString_of_bad s d hb]; decide
    · unfold badAmountString at hb
      rcases hp : jsParseFloat s with _ | _ | _ | q
      · rw [hp] at hb; simp at hb
      · rw [hp] at hb; simp at hb
      · rw [hp] at hb; simp at hb
      · rw [hp] at hb
        simp only [decide_eq_true_eq] at hb
        have hq : 0 ≤ q := Rat.num_nonneg.mp (le_of_not_lt hb)
        rw [toWeiString_eq_surgery s d q hp hq]
        exact weiSurgery_digits _ d
  · exact toWeiString_of_bad s d

/-- Witness for C10 at the concrete non-numeric amount string abc. -/
theorem C10_witness :
    badAmountString "abc" = true ∧ toWeiString "abc" 6 = "0" :=
  ⟨by decide, (C10_toWeiString_never_negative "abc" 6).2 (by decide)⟩

/-! ## Claim C4 -/

/-- C4 counterexample: the conversion rounds instead of truncating. With 6
source-token decimals (USDC on ARBITRUM), amount 1.0000009 compiles to
1000001 — the claim says it compiles to 1000000. Shown both on toWeiString
itself and on the full SWAP config built by the compiler. -/
theorem C4_counterexample :
    toWeiString "1.0000009" 6 = "1000001" ∧
    swapInputAmount (buildBaseConfigForBlock "SWAP"
      ⟨"swap usdc to weth", some [("chain", "ARBITRUM"), ("fromToken", "USDC"),
        ("toToken", "WETH"), ("amount", "1.0000009")], none, none⟩ []).1 =
      some "1000001" ∧
    ("1000001" : String) ≠ "1000000" := by
  refine ⟨by decide, by decide, by decide⟩

/-- C4 (amended): for every SWAP amount string whose parse is a finite
non-negative value q (below the 1e21 threshold where toFixed switches to
exponential form, and with the token decimal count in the valid toFixed
range), the conversion yields the digit string whose value is q scaled by
10^decimals rounded to the nearest integer (ties upward) — rounding, not
truncation, of the excess fractional precision. -/
theorem C4_swap_amount_rounds (s : String) (d : ℕ) (q : ℚ)
    (hp : jsParseFloat s = .finite q) (h0 : 0 ≤ q)
    (_hbig : q < pow10Q 21) (_hd : d ≤ 100) :
    weiValue (toWeiString s d) = (Int.floor (q * (10 : ℚ) ^ d + 1 / 2)).toNat := by
  rw [toWeiString_eq_surgery s d q hp h0]
  rw [show (10 : ℚ) ^ d = pow10Q d from (pow10Q_eq d).symm, ← ratFloorZ_eq]
  exact weiSurgery_val (roundedUnits q d) d

/-- Witness for C4 at amount 1.0000009 with 6 decimals: the parsed value is
10000009/10000000 and the conversion yields 1000001. -/
theorem C4_witness :
    jsParseFloat "1.0000009" = .finite (10000009 / 10000000 : ℚ) ∧
    weiValue (toWeiString "1.0000009" 6) = 1000001 := by
  constructor
  · decide
  · rw [C4_swap_amount_rounds "1.0000009" 6 (10000009 / 10000000 : ℚ)
      (by decide) (by decide) (by decide) (by decide)]
    rw [show (10 : ℚ) ^ (6 : ℕ) = pow10Q 6 from (pow10Q_eq 6).symm]
    decide

/-! ## Claim C2 -/

/-- C2: compilation of a Plan with an empty steps list fails with the
EmptyPlan error, and compilation of a Plan whose sole step is the
schedule-trigger block fails with the NoActionableSteps error; in both cases
an error is thrown and no workflow is returned. -/
theorem C2_empty_and_trigger_only_fail (options : CompileWorkflowOptions) :
    (options.plan.steps = [] →
      compilePlannerResultToWorkflow options = .error .emptyPlan) ∧
    (∀ tb : PlannerStep, options.plan.steps = [tb] → tb.blockId = "time-block" →
      compilePlannerResultToWorkflow options = .error .noActionableSteps) := by
  constructor
  · intro h
    simp only [compilePlannerResultToWorkflow, h]
    rfl
  · intro tb h hid
    obtain ⟨bid, purp, hints⟩ := tb
    simp only at hid
    subst hid
    simp only [compilePlannerResultToWorkflow, h]
    rfl

/-- Witness for C2 at two concrete plans: the empty plan and the plan whose
only step is the time-block trigger. -/
theorem C2_witness :
    compilePlannerResultToWorkflow
      ⟨⟨"w", "d", [], [], none⟩, none, none, none, none⟩ = .error .emptyPlan ∧
    compilePlannerResultToWorkflow
      ⟨⟨"w", "d", [⟨"time-block", "schedule", none⟩], [], none⟩,
        none, none, none, none⟩ = .error .noActionableSteps :=
  ⟨(C2_empty_and_trigger_only_fail _).1 rfl,
   (C2_empty_and_trigger_only_fail _).2 ⟨"time-block", "schedule", none⟩ rfl rfl⟩

/-! ## Claim C3 -/

theorem opHeadMatch_some_mem (l : List Char) (h : opHeadMatch l ≠ none) :
    ∃ ch ∈ l, ch = '<' ∨ ch = '>' ∨ ch = '=' := by
  unfold opHeadMatch at h
  split at h
  · exact ⟨'<', by simp, Or.inl rfl⟩
  · exact ⟨'>', by simp, Or.inr (Or.inl rfl)⟩
  · exact ⟨'=', by simp, Or.inr (Or.inr rfl)⟩
  · exact ⟨'=', by simp, Or.inr (Or.inr rfl)⟩
  · exact ⟨'<', by simp, Or.inl rfl⟩
  · exact ⟨'>', by simp, Or.inr (Or.inl rfl)⟩
  · exact ⟨'=', by simp, Or.inr (Or.inr rfl)⟩
  · exact absurd rfl h

theorem findOpAux_none (l : List Char)
    (h : ∀ ch ∈ l, ch ≠ '<' ∧ ch ≠ '>' ∧ ch ≠ '=') :
    ∀ revPre, findOpAux revPre l = none := by
  induction l with
  | nil => intro revPre; rfl
  | cons c r ih =>
    intro revPre
    have hop : opHeadMatch (c :: r) = none := by
      by_contra hne
      obtain ⟨ch, hmem, hch⟩ := opHeadMatch_some_mem _ hne
      obtain ⟨h1, h2, h3⟩ := h ch hmem
      rcases hch with h' | h' | h' <;> [exact h1 h'; exact h2 h'; exact h3 h']
    unfold findOpAux
    rw [hop]
    exact ih (fun ch hm => h ch (List.mem_cons_of_mem c hm)) (c :: revPre)

theorem jsTrim_chars_subset (s : String) (ch : Char)
    (h : ch ∈ (jsTrim s).data) : ch ∈ s.data := by
  unfold jsTrim trimLeadList trimTrailList at h
  have h1 := (List.dropWhile_sublist _).mem h
  have h2 := (List.dropWhile_sublist (l := s.data.reverse) (p := jsWsChar)).mem
    (List.mem_reverse.mp h1)
  exact List.mem_reverse.mp h2

theorem parseIfConditionString_none_of_no_ops (c : String)
    (h : ∀ ch ∈ c.data, ch ≠ '<' ∧ ch ≠ '>' ∧ ch ≠ '=') :
    parseIfConditionString c = none := by
  unfold parseIfConditionString
  dsimp only
  rw [findOpAux_none _ (fun ch hm => h ch (jsTrim_chars_subset c ch hm)) []]

theorem buildIfConfig_unparseable (c : String)
    (hparse : parseIfConditionString (jsTrim c) = none) :
    cfgGetStr (buildIfConfig [("condition", .str c)]) "leftPath" = some "" ∧
    cfgGetStr (buildIfConfig [("condition", .str c)]) "operator" = some "equals" ∧
    cfgGetStr (buildIfConfig [("condition", .str c)]) "rightValue" = some "" := by
  by_cases ht : jsTrim c = ""
  · have hval : buildIfConfig [("condition", CVal.str c)] =
        [("condition", CVal.str c), ("leftPath", CVal.str ""),
         ("operator", CVal.str "equals"), ("rightValue", CVal.str "")] := by
      unfold buildIfConfig
      rw [show (match cfgGet [("condition", CVal.str c)] "condition" with
          | some (CVal.str s) => jsTrim s
          | _ => "") = jsTrim c from rfl, ht]
      rfl
    rw [hval]
    exact ⟨rfl, rfl, rfl⟩
  · have hval : buildIfConfig [("condition", CVal.str c)] =
        [("leftPath", CVal.str ""), ("operator", CVal.str "equals"),
         ("rightValue", CVal.str "")] := by
      unfold buildIfConfig
      rw [show (match cfgGet [("condition", CVal.str c)] "condition" with
          | some (CVal.str s) => jsTrim s
          | _ => "") = jsTrim c from rfl]
      dsimp only
      rw [if_pos ht, hparse]
      rfl
    rw [hval]
    exact ⟨rfl, rfl, rfl⟩

/-- C3 counterexample: compiling an IF step whose condition hint is
price >= 10 does not yield leftPath price. The parser returns price, but the
IF normalization recognizes the bare word price as a price-feed style path
and replaces it with the oracle output key, so the compiled config carries
leftPath formattedAnswer. -/
theorem C3_counterexample :
    cfgGetStr (buildBaseConfigForBlock "IF"
      ⟨"check threshold", some [("condition", "price >= 10")], none, none⟩ []).1
      "leftPath" = some "formattedAnswer" ∧
    some "formattedAnswer" ≠ some "price" := by
  refine ⟨by decide, by decide⟩

/-- C3 (amended): compiling an IF step with condition hint ETH/USD < 1750
yields leftPath formattedAnswer, operator lt, rightValue 1750; compiling one
with condition hint price >= 10 yields leftPath formattedAnswer (the parser
itself returns price, which the normalization maps to the oracle output key),
operator gte, rightValue 10; and for every condition hint containing no
comparison-operator character the compiled config carries the empty-but-valid
triple (leftPath empty, operator equals, rightValue empty) — compilation of
the IF config never throws. -/
theorem C3_if_condition_compilation :
    (let cfg := (buildBaseConfigForBlock "IF"
        ⟨"p", some [("condition", "ETH/USD < 1750")], none, none⟩ []).1
     cfgGetStr cfg "leftPath" = some "formattedAnswer" ∧
     cfgGetStr cfg "operator" = some "lt" ∧
     cfgGetStr cfg "rightValue" = some "1750") ∧
    (let cfg := (buildBaseConfigForBlock "IF"
        ⟨"p", some [("condition", "price >= 10")], none, none⟩ []).1
     cfgGetStr cfg "leftPath" = some "formattedAnswer" ∧
     cfgGetStr cfg "operator" = some "gte" ∧
     cfgGetStr cfg "rightValue" = some "10") ∧
    (parseIfConditionString "price >= 10" = some ("price", "gte", "10")) ∧
    (∀ c : String,
      c.data.all (fun ch => decide (ch ≠ '<' ∧ ch ≠ '>' ∧ ch ≠ '=')) = true →
      let cfg := (buildBaseConfigForBlock "IF"
        ⟨"p", some [("condition", c)], none, none⟩ []).1
      cfgGetStr cfg "leftPath" = some "" ∧
      cfgGetStr cfg "operator" = some "equals" ∧
      cfgGetStr cfg "rightValue" = some "") := by
  refine ⟨⟨by decide, by decide, by decide⟩, ⟨by decide, by decide, by decide⟩,
    by decide, ?_⟩
  intro c hc
  have hchars : ∀ ch ∈ c.data, ch ≠ '<' ∧ ch ≠ '>' ∧ ch ≠ '=' := by
    intro ch hm
    have := List.all_eq_true.mp hc ch hm
    simpa using this
  have hparse : parseIfConditionString (jsTrim c) = none :=
    parseIfConditionString_none_of_no_ops _
      (fun ch hm => hchars ch (jsTrim_chars_subset c ch hm))
  have hcfg : (buildBaseConfigForBlock "IF"
      ⟨"p", some [("condition", c)], none, none⟩ []).1 =
      buildIfConfig [("condition", .str c)] := by
    simp [buildBaseConfigForBlock, cfgSet]
  intro cfg
  show cfgGetStr cfg "leftPath" = some "" ∧ cfgGetStr cfg "operator" = some "equals" ∧
    cfgGetStr cfg "rightValue" = some ""
  rw [show cfg = buildIfConfig [("condition", .str c)] from hcfg]
  exact buildIfConfig_unparseable c hparse

/-! ## Claim C1: helper lemmas -/

theorem toPositiveInt_pos (rawValue : Option String) (defaultValue : ℤ)
    (fieldName : String) (warnings : List String) (hd : 0 < defaultValue) :
    0 < (toPositiveInt rawValue defaultValue fieldName warnings).1 := by
  unfold toPositiveInt
  set asNumber : JsNum :=
    match rawValue with
    | some s => jsStringToNumber s
    | none => .nan with ha
  by_cases h : jsNumIsPosInt asNumber = true
  · rw [if_pos h]
    match hn : asNumber with
    | .finite q =>
      unfold jsNumIsPosInt at h
      simp only [Bool.and_eq_true, decide_eq_true_eq] at h
      simpa using h.2
    | .nan => simp [jsNumIsPosInt] at h
    | .posInf => simp [jsNumIsPosInt] at h
    | .negInf => simp [jsNumIsPosInt] at h
  · rw [if_neg h]
    match rawValue with
    | some s => exact hd
    | none => exact hd

theorem find_block_of_valid (bid : String) (h : validBlockId bid = true) :
    ∃ bd, PLANNER_BLOCKS.find? (fun b => b.id == bid) = some bd ∧ bd.id = bid := by
  unfold validBlockId VALID_PLANNER_BLOCK_IDS at h
  have hmem : bid ∈ PLANNER_BLOCKS.map (fun b => b.id) :=
    List.mem_of_elem_eq_true h
  obtain ⟨bd, hbd, hid⟩ := List.mem_map.mp hmem
  have hsome : (PLANNER_BLOCKS.find? (fun b => b.id == bid)).isSome :=
    List.find?_isSome.mpr ⟨bd, hbd, by simp [hid]⟩
  obtain ⟨bd', hfind⟩ := Option.isSome_iff_exists.mp hsome
  refine ⟨bd', hfind, ?_⟩
  have := List.find?_some hfind
  simpa using this

theorem catalog_nonTrigger_backendType :
    ∀ bd ∈ PLANNER_BLOCKS, bd.id ≠ "time-block" →
      isTriggerType bd.backendType = false := by
  have hall : PLANNER_BLOCKS.all
      (fun bd => (bd.id == "time-block") || !isTriggerType bd.backendType) = true := by
    decide
  intro bd hmem hid
  have := List.all_eq_true.mp hall bd hmem
  simp only [Bool.or_eq_true, beq_iff_eq, Bool.not_eq_true'] at this
  rcases this with h | h
  · exact absurd h hid
  · exact h

theorem compileStepToNode_ok (step : PlannerStep) (index : ℕ)
    (chatId : Option String) (warnings : List String)
    (telegramConnectionId : Option String) (nodeId : String)
    (h : validBlockId step.blockId = true) :
    ∃ node warnings1,
      compileStepToNode step index chatId warnings telegramConnectionId nodeId =
        .ok (node, warnings1) ∧
      node.id = nodeId ∧
      nodeBlockIdMeta node = some step.blockId ∧
      ∃ bd ∈ PLANNER_BLOCKS, bd.id = step.blockId ∧ node.type = bd.backendType := by
  obtain ⟨bd, hfind, hid⟩ := find_block_of_valid step.blockId h
  unfold compileStepToNode
  rw [h]
  simp only [Bool.not_true]
  rw [if_neg (by simp)]
  rw [hfind]
  refine ⟨_, _, rfl, rfl, ?_, bd, List.mem_of_find?_eq_some hfind, hid, rfl⟩
  simp [nodeBlockIdMeta, cfgGetStr, cfgGet]

theorem compileSteps_ok (chatId telegramConnectionId : Option String)
    (steps : List PlannerStep)
    (hvalid : ∀ s ∈ steps, validBlockId s.blockId = true) :
    ∀ idx warnings, ∃ nodes warnings2,
      compileSteps chatId telegramConnectionId steps idx warnings =
        .ok (nodes, warnings2) ∧
      nodes.length = steps.length ∧
      nodes.map nodeBlockIdMeta = steps.map (fun s => some s.blockId) ∧
      ∀ n ∈ nodes, ∃ s ∈ steps, ∃ bd ∈ PLANNER_BLOCKS,
        bd.id = s.blockId ∧ n.type = bd.backendType := by
  induction steps with
  | nil =>
    intro idx warnings
    exact ⟨[], warnings, rfl, rfl, rfl, by simp⟩
  | cons step rest ih =>
    intro idx warnings
    obtain ⟨node, w1, hnode, _hnid, hmeta, hbd⟩ :=
      compileStepToNode_ok step idx chatId warnings telegramConnectionId
        (uuidOf (idx + 1)) (hvalid step (List.mem_cons_self _ _))
    obtain ⟨nodes, w2, hrest, hlen, hmetas, htypes⟩ :=
      ih (fun s hs => hvalid s (List.mem_cons_of_mem _ hs)) (idx + 1) w1
    refine ⟨node :: nodes, w2, ?_, by simp [hlen], by simp [hmeta, hmetas], ?_⟩
    · show (do
        let r1 ← compileStepToNode step idx chatId warnings telegramConnectionId
          (uuidOf (idx + 1))
        let r2 ← compileSteps chatId telegramConnectionId rest (idx + 1) r1.2
        Except.ok (r1.1 :: r2.1, r2.2)) = Except.ok (node :: nodes, w2)
      rw [hnode]
      show (do
        let r2 ← compileSteps chatId telegramConnectionId rest (idx + 1) w1
        Except.ok (node :: r2.1, r2.2)) = Except.ok (node :: nodes, w2)
      rw [hrest]
      rfl
    · intro n hn
      rcases List.mem_cons.mp hn with h | h
      · subst h
        obtain ⟨bd, hbdmem, hbdid, hbdty⟩ := hbd
        exact ⟨step, List.mem_cons_self _ _, bd, hbdmem, hbdid, hbdty⟩
      · obtain ⟨s, hs, bd, hbdmem, hbdid, hbdty⟩ := htypes n h
        exact ⟨s, List.mem_cons_of_mem _ hs, bd, hbdmem, hbdid, hbdty⟩

theorem mkLinearEdges_spec (ns : List CompiledNode) : ∀ prev : String,
    (mkLinearEdges prev ns).length = ns.length ∧
    (mkLinearEdges prev ns).map (fun e => (e.sourceNodeId, e.targetNodeId)) =
      (prev :: ns.map (fun n => n.id)).zip (ns.map (fun n => n.id)) := by
  induction ns with
  | nil => intro prev; simp [mkLinearEdges]
  | cons n rest ih =>
    intro prev
    obtain ⟨ihlen, ihmap⟩ := ih n.id
    constructor
    · simp [mkLinearEdges, ihlen]
    · simp only [mkLinearEdges, List.map_cons, List.zip_cons_cons]
      rw [ihmap]

theorem telegramOraclePass_shape (ns : List CompiledNode) : ∀ prev,
    (telegramOraclePass prev ns).map (fun n => n.id) = ns.map (fun n => n.id) ∧
    (telegramOraclePass prev ns).map (fun n => n.type) = ns.map (fun n => n.type) ∧
    (telegramOraclePass prev ns).map nodeBlockIdMeta = ns.map nodeBlockIdMeta := by
  induction ns with
  | nil => intro prev; simp [telegramOraclePass]
  | cons n rest ih =>
    intro prev
    unfold telegramOraclePass
    obtain ⟨ih1, ih2, ih3⟩ := ih (some (n.type, n.id))
    have hkeep : ∀ node1 : CompiledNode, node1.id = n.id → node1.type = n.type →
        node1.metadata = n.metadata →
        ((node1 :: telegramOraclePass (some (n.type, n.id)) rest).map
            (fun n => n.id) = (n :: rest).map (fun n => n.id) ∧
         (node1 :: telegramOraclePass (some (n.type, n.id)) rest).map
            (fun n => n.type) = (n :: rest).map (fun n => n.type) ∧
         (node1 :: telegramOraclePass (some (n.type, n.id)) rest).map
            nodeBlockIdMeta = (n :: rest).map nodeBlockIdMeta) := by
      intro node1 h1 h2 h3
      refine ⟨?_, ?_, ?_⟩
      · simp [h1, ih1]
      · simp [h2, ih2]
      · simp [nodeBlockIdMeta, h3, ih3]
    rcases prev with _ | ⟨pt, pid⟩
    · exact hkeep n rfl rfl rfl
    · dsimp only
      split
      · split
        · exact hkeep _ rfl rfl rfl
        · exact hkeep n rfl rfl rfl
      · exact hkeep n rfl rfl rfl

theorem validateCompiledWorkflow_ok (wf : CompiledWorkflow)
    (trig : CompiledNode) (sns : List CompiledNode)
    (hnodes : wf.nodes = trig :: sns)
    (htrig : isTriggerType trig.type = true)
    (hsns : ∀ n ∈ sns, isTriggerType n.type = false)
    (htid : wf.triggerNodeId = some trig.id)
    (hne : sns ≠ [])
    (hedges : sns.length ≤ wf.edges.length) :
    validateCompiledWorkflow wf = .ok () := by
  have hfilter1 : List.filter (fun n => isTriggerType n.type) (trig :: sns) = [trig] := by
    rw [List.filter_cons, if_pos htrig]
    congr 1
    exact List.filter_eq_nil_iff.mpr (fun n hn => by simp [hsns n hn])
  have hfilter2 : List.filter (fun n => !isTriggerType n.type) (trig :: sns) = sns := by
    rw [List.filter_cons, if_neg (by simp [htrig])]
    exact List.filter_eq_self.mpr (fun n hn => by simp [hsns n hn])
  unfold validateCompiledWorkflow
  rw [hnodes, htid]
  simp only [hfilter1, hfilter2, List.length_cons]
  rw [if_neg (by simp)]
  rw [if_neg (by simp)]
  rw [if_neg (by simp)]
  rw [if_neg (fun h => hne (List.length_eq_zero.mp h))]
  rw [if_neg (not_lt.mpr hedges)]
  rfl

theorem extractSchedule_pos (step : PlannerStep) (ws : List String) :
    0 < (extractScheduleFromTimeBlockStep step ws).1.intervalSeconds ∧
    0 < (extractScheduleFromTimeBlockStep step ws).1.durationSeconds := by
  unfold extractScheduleFromTimeBlockStep
  rcases h1 : toPositiveInt ((step.configHints.getD []).find? (fun p => p.1 == "intervalSeconds") |>.map (·.2))
      DEFAULT_INTERVAL_SECONDS "time-block intervalSeconds" ws with ⟨i, w1⟩
  rcases h2 : toPositiveInt ((step.configHints.getD []).find? (fun p => p.1 == "durationSeconds") |>.map (·.2))
      DEFAULT_DURATION_SECONDS "time-block durationSeconds" w1 with ⟨d, w2⟩
  have hi := toPositiveInt_pos ((step.configHints.getD []).find? (fun p => p.1 == "intervalSeconds") |>.map (·.2))
    DEFAULT_INTERVAL_SECONDS "time-block intervalSeconds" ws (by decide)
  have hdur := toPositiveInt_pos ((step.configHints.getD []).find? (fun p => p.1 == "durationSeconds") |>.map (·.2))
    DEFAULT_DURATION_SECONDS "time-block durationSeconds" w1 (by decide)
  rw [h1] at hi
  rw [h2] at hdur
  simp only [h1, h2]
  exact ⟨hi, hdur⟩

theorem except_bind_ok {ε α β : Type} (a : α) (f : α → Except ε β) :
    (Except.ok a : Except ε α) >>= f = f a := rfl

theorem filter_trigger_cons (trig : CompiledNode) (pass : List CompiledNode)
    (h1 : isTriggerType trig.type = true)
    (h2 : ∀ n ∈ pass, isTriggerType n.type = false) :
    ((trig :: pass).filter (fun n => isTriggerType n.type)).length = 1 := by
  rw [List.filter_cons, if_pos h1,
    List.filter_eq_nil_iff.mpr (fun n hn => by simp [h2 n hn])]
  rfl

/-! ## Claim C1: main theorem -/

/-- C1: for every valid Plan whose first step is the time-block
schedule-trigger followed by N non-trigger catalog steps (N at least 1),
compilation succeeds and returns a workflow whose nodes are exactly one
scheduled trigger node followed by the N action nodes in step order (their
metadata records the step blockIds in order), whose edge list is the linear
chain trigger to step1 to ... to stepN of length N, and a schedule whose
intervalSeconds and durationSeconds are positive integers. -/
theorem C1_time_block_compilation
    (options : CompileWorkflowOptions) (tb : PlannerStep) (rest : List PlannerStep)
    (hsteps : options.plan.steps = tb :: rest)
    (htb : tb.blockId = "time-block")
    (hrest : rest ≠ [])
    (hvalid : ∀ s ∈ rest, validBlockId s.blockId = true ∧ s.blockId ≠ "time-block") :
    ∃ (res : CompileWorkflowResult) (trig : CompiledNode)
      (stepNodes : List CompiledNode),
      compilePlannerResultToWorkflow options = .ok res ∧
      res.workflow.nodes = trig :: stepNodes ∧
      trig.type = "TIME_BLOCK" ∧
      (res.workflow.nodes.filter (fun n => isTriggerType n.type)).length = 1 ∧
      stepNodes.length = rest.length ∧
      stepNodes.map nodeBlockIdMeta = rest.map (fun s => some s.blockId) ∧
      res.workflow.edges.length = rest.length ∧
      res.workflow.edges.map (fun e => (e.sourceNodeId, e.targetNodeId)) =
        (res.workflow.nodes.map (fun n => n.id)).zip
          (stepNodes.map (fun n => n.id)) ∧
      ∃ sch, res.schedule = some sch ∧
        0 < sch.intervalSeconds ∧ 0 < sch.durationSeconds := by
  obtain ⟨tbid, tbp, tbh⟩ := tb
  simp only at htb
  subst htb
  rcases hE : extractScheduleFromTimeBlockStep ⟨"time-block", tbp, tbh⟩ [] with ⟨ext1, w1⟩
  obtain ⟨nodesRaw, w2, hcs, hlen, hmetas, htypes⟩ :=
    compileSteps_ok options.chatId options.telegramConnectionId rest
      (fun s hs => (hvalid s hs).1) 0 w1
  obtain ⟨hpassId, hpassTy, hpassMeta⟩ := telegramOraclePass_shape nodesRaw none
  have hsl : (telegramOraclePass none nodesRaw).length = rest.length := by
    have h1 := congrArg List.length hpassId
    simpa using h1.trans (by simpa using congrArg id hlen)
  have hmeta3 : (telegramOraclePass none nodesRaw).map nodeBlockIdMeta =
      rest.map (fun s => some s.blockId) := hpassMeta.trans hmetas
  have hnontrig : ∀ n ∈ telegramOraclePass none nodesRaw,
      isTriggerType n.type = false := by
    intro n hn
    have hmem : n.type ∈ (telegramOraclePass none nodesRaw).map (fun n => n.type) :=
      List.mem_map_of_mem _ hn
    rw [hpassTy] at hmem
    obtain ⟨n', hn', hety⟩ := List.mem_map.mp hmem
    obtain ⟨s, hs, bd, hbdmem, hbdid, hbdty⟩ := htypes n' hn'
    rw [← hety, hbdty]
    exact catalog_nonTrigger_backendType bd hbdmem
      (hbdid ▸ (hvalid s hs).2)
  obtain ⟨helen, hemap⟩ := mkLinearEdges_spec (telegramOraclePass none nodesRaw) (uuidOf 0)
  have hsne : telegramOraclePass none nodesRaw ≠ [] := by
    intro hcon
    rw [hcon] at hsl
    exact hrest (List.length_eq_zero.mp hsl.symm)
  have hpos := extractSchedule_pos ⟨"time-block", tbp, tbh⟩ []
  rw [hE] at hpos
  refine ⟨⟨{ name := jsStrOr options.plan.workflowName "Untitled Workflow",
             description := jsStrOr options.plan.description
               "Generated from natural language request.",
             nodes :=
               ({ id := uuidOf 0, type := TIME_BLOCK_NODE_TYPE,
                  name := "Time Block",
                  description := jsStrOr tbp "Scheduled trigger for this workflow.",
                  config := [("recurrence", CVal.obj ext1.recurrence),
                             ("stopConditions", CVal.obj ext1.stopConditions)],
                  posX := 0, posY := 0,
                  metadata := [("blockId", CVal.str "time-block"),
                               ("plannerLabel", CVal.str "Scheduled Trigger")] } :
                 CompiledNode) ::
               telegramOraclePass none nodesRaw,
             edges := mkLinearEdges (uuidOf 0) (telegramOraclePass none nodesRaw),
             triggerNodeId := some (uuidOf 0),
             category := options.category.getD DEFAULT_CATEGORY,
             tags := options.tags.getD [],
             isPublic := false },
           w2, some ⟨ext1.intervalSeconds, ext1.durationSeconds⟩⟩,
         _, telegramOraclePass none nodesRaw, ?_, rfl, rfl, ?_, hsl, hmeta3,
         helen.trans hsl, ?_,
         ⟨ext1.intervalSeconds, ext1.durationSeconds⟩, rfl, hpos.1, hpos.2⟩
  · -- the compile call evaluates to exactly this result
    have hval : validateCompiledWorkflow
        { name := jsStrOr options.plan.workflowName "Untitled Workflow",
          description := jsStrOr options.plan.description
            "Generated from natural language request.",
          nodes :=
            ({ id := uuidOf 0, type := TIME_BLOCK_NODE_TYPE,
               name := "Time Block",
               description := jsStrOr tbp "Scheduled trigger for this workflow.",
               config := [("recurrence", CVal.obj ext1.recurrence),
                          ("stopConditions", CVal.obj ext1.stopConditions)],
               posX := 0, posY := 0,
               metadata := [("blockId", CVal.str "time-block"),
                            ("plannerLabel", CVal.str "Scheduled Trigger")] } :
              CompiledNode) ::
            telegramOraclePass none nodesRaw,
          edges := mkLinearEdges (uuidOf 0) (telegramOraclePass none nodesRaw),
          triggerNodeId := some (uuidOf 0),
          category := options.category.getD DEFAULT_CATEGORY,
          tags := options.tags.getD [],
          isPublic := false } = .ok () :=
      validateCompiledWorkflow_ok _ _ _ rfl rfl hnontrig rfl hsne
        (le_of_eq helen.symm)
    simp only [compilePlannerResultToWorkflow, hsteps, List.length_cons,
      List.head?_cons, List.headD_cons]
    rw [if_neg (by omega)]
    simp only [decide_eq_true_eq, if_true, List.drop_succ_cons, List.drop_zero]
    rw [if_neg (fun h => hrest (List.length_eq_zero.mp h))]
    rw [hE]
    rw [hcs]
    rw [except_bind_ok]
    dsimp only
    rw [hval]
    rfl
  · -- exactly one trigger node
    exact filter_trigger_cons _ _ rfl hnontrig
  · -- linear edges
    exact hemap

/-- Witness for C1 at a concrete plan: time-block trigger (interval hint 60)
followed by a chainlink step and a telegram step. -/
theorem C1_witness :
    ∃ (res : CompileWorkflowResult) (trig : CompiledNode)
      (stepNodes : List CompiledNode),
      compilePlannerResultToWorkflow
        ⟨⟨"Price alert", "d",
          [⟨"time-block", "tick", some [("intervalSeconds", "60")]⟩,
           ⟨"chainlink", "read price", some [("feed", "ETH/USD")]⟩,
           ⟨"telegram", "alert", none⟩], [], none⟩,
          some "12345", none, none, some "conn-1"⟩ = .ok res ∧
      res.workflow.nodes = trig :: stepNodes ∧
      trig.type = "TIME_BLOCK" ∧
      (res.workflow.nodes.filter (fun n => isTriggerType n.type)).length = 1 ∧
      stepNodes.length =
        ([⟨"chainlink", "read price", some [("feed", "ETH/USD")]⟩,
          ⟨"telegram", "alert", none⟩] : List PlannerStep).length ∧
      stepNodes.map nodeBlockIdMeta =
        ([⟨"chainlink", "read price", some [("feed", "ETH/USD")]⟩,
          ⟨"telegram", "alert", none⟩] : List PlannerStep).map
          (fun s => some s.blockId) ∧
      res.workflow.edges.length =
        ([⟨"chainlink", "read price", some [("feed", "ETH/USD")]⟩,
          ⟨"telegram", "alert", none⟩] : List PlannerStep).length ∧
      res.workflow.edges.map (fun e => (e.sourceNodeId, e.targetNodeId)) =
        (res.workflow.nodes.map (fun n => n.id)).zip
          (stepNodes.map (fun n => n.id)) ∧
      ∃ sch, res.schedule = some sch ∧
        0 < sch.intervalSeconds ∧ 0 < sch.durationSeconds :=
  C1_time_block_compilation
    ⟨⟨"Price alert", "d",
      [⟨"time-block", "tick", some [("intervalSeconds", "60")]⟩,
       ⟨"chainlink", "read price", some [("feed", "ETH/USD")]⟩,
       ⟨"telegram", "alert", none⟩], [], none⟩,
      some "12345", none, none, some "conn-1"⟩
    ⟨"time-block", "tick", some [("intervalSeconds", "60")]⟩
    [⟨"chainlink", "read price", some [("feed", "ETH/USD")]⟩,
     ⟨"telegram", "alert", none⟩]
    rfl rfl (by decide) (by decide)

/-- Witness for C3 at the concrete unparseable condition hint hello world. -/
theorem C3_witness :
    cfgGetStr (buildBaseConfigForBlock "IF"
      ⟨"p", some [("condition", "hello world")], none, none⟩ []).1
      "leftPath" = some "" ∧
    cfgGetStr (buildBaseConfigForBlock "IF"
      ⟨"p", some [("condition", "hello world")], none, none⟩ []).1
      "operator" = some "equals" :=
  ⟨(C3_if_condition_compilation.2.2.2 "hello world" (by decide)).1,
   (C3_if_condition_compilation.2.2.2 "hello world" (by decide)).2.1⟩

/-! ## The sanitizer: structural soundness, trim-stable idempotence (C5) -/

theorem jsSliceTo_length_le (s : String) (n : ℕ) : (jsSliceTo s n).length ≤ n := by
  show (s.data.take n).length ≤ n
  simp [List.length_take]

theorem jsSliceTo_of_le (s : String) (n : ℕ) (h : s.length ≤ n) :
    jsSliceTo s n = s := by
  apply String.ext
  show s.data.take n = s.data
  exact List.take_of_length_le h

theorem string_eq_empty_iff (s : String) : s = "" ↔ s.data = [] := by
  constructor
  · intro h; rw [h]
  · intro h; apply String.ext; exact h

theorem jsSliceTo_ne_empty (s : String) (n : ℕ) (hs : s ≠ "") (hn : 0 < n) :
    jsSliceTo s n ≠ "" := by
  intro h
  have h' : s.data.take n = [] := congrArg String.data h
  rcases List.take_eq_nil_iff.mp h' with h0 | h0 <;>
    first
      | omega
      | exact hs ((string_eq_empty_iff s).2 h0)

theorem strCapOK_iff (s : String) (cap : ℕ) :
    strCapOK s cap = true ↔ s ≠ "" ∧ s.length ≤ cap := by
  simp [strCapOK]

theorem strCapOK_slice (s : String) (cap : ℕ) (hs : s ≠ "") (hc : 0 < cap) :
    strCapOK (jsSliceTo s cap) cap = true :=
  (strCapOK_iff _ _).2 ⟨jsSliceTo_ne_empty s cap hs hc, jsSliceTo_length_le s cap⟩

theorem sanitizeTextField_capOK (o : Option JVal) (cap : ℕ) (d : String)
    (hd : strCapOK d cap = true) (hc : 0 < cap) :
    strCapOK (sanitizeTextField o cap d) cap = true := by
  rcases o with _ | v
  · exact hd
  cases v
  case str s =>
    show strCapOK (if jsTrim s ≠ "" then jsSliceTo (jsTrim s) cap else d) cap = true
    split
    · next h => exact strCapOK_slice _ _ h hc
    · exact hd
  all_goals exact hd

theorem sanitizeTextField_stable (s : String) (cap : ℕ) (d : String)
    (hts : jsTrim s = s) (hs : s ≠ "") (hlen : s.length ≤ cap) :
    sanitizeTextField (some (.str s)) cap d = s := by
  show (if jsTrim s ≠ "" then jsSliceTo (jsTrim s) cap else d) = s
  rw [hts, if_pos hs]
  exact jsSliceTo_of_le s cap hlen

theorem sanitizeOptTextField_capOK (o : Option JVal) (cap : ℕ) (hc : 0 < cap) :
    (match sanitizeOptTextField o cap with
     | some f => strCapOK f cap
     | none => true) = true := by
  rcases o with _ | v
  · rfl
  cases v
  case str s =>
    by_cases h : jsTrim s ≠ ""
    · show (match (if jsTrim s ≠ "" then some (jsSliceTo (jsTrim s) cap) else none) with
            | some f => strCapOK f cap
            | none => true) = true
      rw [if_pos h]
      exact strCapOK_slice _ _ h hc
    · show (match (if jsTrim s ≠ "" then some (jsSliceTo (jsTrim s) cap) else none) with
            | some f => strCapOK f cap
            | none => true) = true
      rw [if_neg h]
  all_goals rfl

theorem sanitizeOptTextField_stable (f : String) (cap : ℕ)
    (hts : jsTrim f = f) (hf : f ≠ "") (hlen : f.length ≤ cap) :
    sanitizeOptTextField (some (.str f)) cap = some f := by
  show (if jsTrim f ≠ "" then some (jsSliceTo (jsTrim f) cap) else none) = some f
  rw [hts, if_pos hf, jsSliceTo_of_le f cap hlen]

theorem validBlockId_fix (b : String) (h : validBlockId b = true) :
    jsTrim b = b ∧ b ≠ "" := by
  have hb : b ∈ VALID_PLANNER_BLOCK_IDS := by
    unfold validBlockId at h
    exact List.mem_of_elem_eq_true h
  fin_cases hb <;> exact ⟨rfl, by decide⟩

theorem normalizePlannerBlockId_of_valid (b : String) (h : validBlockId b = true) :
    normalizePlannerBlockId b = some b := by
  obtain ⟨hts, hne⟩ := validBlockId_fix b h
  simp only [normalizePlannerBlockId, hts, if_neg hne, h, if_true]

theorem normalizePlannerBlockId_valid (raw b : String)
    (h : normalizePlannerBlockId raw = some b) : validBlockId b = true := by
  simp only [normalizePlannerBlockId] at h
  split at h
  · exact absurd h (by simp)
  split at h
  · next hv => cases h; exact hv
  · split at h
    · next mapped heq =>
      cases h
      split at heq
      · next m hm =>
        split at heq
        · next hvm => cases heq; exact hvm
        · exact absurd heq (by simp)
      · exact absurd heq (by simp)
    · next heq =>
      split at h
      · next hvc => cases h; assumption
      · exact absurd h (by simp)
theorem recordSet_append_of_no_key (l : List (String × String)) (k v : String)
    (h : l.any (fun p => p.1 == k) = false) :
    recordSet l k v = l ++ [(k, v)] := by
  simp only [recordSet, h]
  rfl

theorem mapfst_update (l : List (String × String)) (k v : String) :
    (l.map (fun p => if p.1 == k then (k, v) else p)).map Prod.fst =
      l.map Prod.fst := by
  induction l with
  | nil => rfl
  | cons p rest ih =>
    simp only [List.map_cons, ih]
    congr 1
    by_cases hp : p.1 == k
    · simp only [hp, if_true]
      exact (beq_iff_eq.mp hp).symm
    · simp only [hp, Bool.false_eq_true, if_false]

theorem recordSet_keys_of_hit (l : List (String × String)) (k v : String)
    (h : l.any (fun p => p.1 == k) = true) :
    (recordSet l k v).map Prod.fst = l.map Prod.fst := by
  simp only [recordSet, h, if_true]
  exact mapfst_update l k v

theorem recordSet_all (l : List (String × String)) (k v : String)
    (P : String × String → Bool)
    (hl : l.all P = true) (hkv : P (k, v) = true) :
    (recordSet l k v).all P = true := by
  simp only [recordSet]
  split
  · simp only [List.all_eq_true] at hl ⊢
    intro p hp
    rw [List.mem_map] at hp
    obtain ⟨q, hq, hpq⟩ := hp
    by_cases hqk : q.1 == k
    · simp only [hqk, if_true] at hpq
      rw [← hpq]; exact hkv
    · simp only [hqk, Bool.false_eq_true, if_false] at hpq
      rw [← hpq]; exact hl q hq
  · simp only [List.all_append, hl, Bool.true_and, List.all_cons, List.all_nil,
      Bool.and_true]
    exact hkv

theorem keyListDistinct_append_one (ks : List String) (k : String)
    (h1 : keyListDistinct ks = true) (h2 : ks.any (fun q => q == k) = false) :
    keyListDistinct (ks ++ [k]) = true := by
  induction ks with
  | nil => rfl
  | cons a rest ih =>
    rw [List.any_cons, Bool.or_eq_false_iff] at h2
    rw [keyListDistinct, Bool.and_eq_true] at h1
    rw [List.cons_append, keyListDistinct, Bool.and_eq_true]
    constructor
    · rw [Bool.not_eq_true']
      rw [List.any_append, Bool.or_eq_false_iff]
      constructor
      · have h1a := h1.1
        rwa [Bool.not_eq_true'] at h1a
      · rw [List.any_cons, List.any_nil, Bool.or_false]
        have h2a := h2.1
        rw [beq_eq_false_iff_ne] at h2a ⊢
        exact fun he => h2a he.symm
    · exact ih h1.2 h2.2

theorem keys_any_of_pairs (l : List (String × String)) (k : String)
    (h : (l.any fun p => p.1 == k) = false) :
    ((List.map Prod.fst l).any fun q => q == k) = false := by
  induction l with
  | nil => rfl
  | cons p rest ih =>
    rw [List.any_cons, Bool.or_eq_false_iff] at h
    rw [List.map_cons, List.any_cons, Bool.or_eq_false_iff]
    exact ⟨h.1, ih h.2⟩

theorem recordSet_keysDistinct (l : List (String × String)) (k v : String)
    (h : keysDistinct l = true) :
    keysDistinct (recordSet l k v) = true := by
  by_cases hany : (l.any fun p => p.1 == k) = true
  · unfold keysDistinct
    rw [recordSet_keys_of_hit l k v hany]
    exact h
  · rw [Bool.not_eq_true] at hany
    rw [recordSet_append_of_no_key l k v hany]
    unfold keysDistinct at h ⊢
    have hmap : List.map Prod.fst (l ++ [(k, v)]) = List.map Prod.fst l ++ [k] := by
      rw [List.map_append]
      rfl
    rw [hmap]
    exact keyListDistinct_append_one _ _ h (keys_any_of_pairs l k hany)
theorem keys_any_pairs (l : List (String × String)) (k : String) :
    ((List.map Prod.fst l).any fun q => q == k) = (l.any fun p => p.1 == k) := by
  induction l with
  | nil => rfl
  | cons p rest ih => rw [List.map_cons, List.any_cons, List.any_cons, ih]

theorem any_eq_false_of_mem {α : Type} (l : List α) (f : α → Bool) (x : α)
    (h : l.any f = false) (hx : x ∈ l) : f x = false := by
  by_contra hc
  rw [Bool.not_eq_false] at hc
  have ht : l.any f = true := List.any_eq_true.2 ⟨x, hx, hc⟩
  rw [h] at ht
  exact Bool.noConfusion ht

theorem hintFoldStep_invariant (acc : List (String × String)) (p : String × JVal)
    (h1 : acc.all hintEntryOK = true) (h2 : keysDistinct acc = true) :
    (hintFoldStep acc p).all hintEntryOK = true ∧
    keysDistinct (hintFoldStep acc p) = true := by
  obtain ⟨k, w⟩ := p
  cases w
  case str v =>
    by_cases hg : jsTrim k = "" ∨ jsTrim v = ""
    · have hstep : hintFoldStep acc (k, .str v) = acc := by
        show (if jsTrim k = "" ∨ jsTrim v = "" then acc
              else recordSet acc (jsSliceTo (jsTrim k) 100) (jsSliceTo (jsTrim v) 200)) = acc
        rw [if_pos hg]
      rw [hstep]; exact ⟨h1, h2⟩
    · have hstep : hintFoldStep acc (k, .str v) =
          recordSet acc (jsSliceTo (jsTrim k) 100) (jsSliceTo (jsTrim v) 200) := by
        show (if jsTrim k = "" ∨ jsTrim v = "" then acc
              else recordSet acc (jsSliceTo (jsTrim k) 100) (jsSliceTo (jsTrim v) 200)) =
          recordSet acc (jsSliceTo (jsTrim k) 100) (jsSliceTo (jsTrim v) 200)
        rw [if_neg hg]
      push_neg at hg
      rw [hstep]
      refine ⟨recordSet_all _ _ _ _ h1 ?_, recordSet_keysDistinct _ _ _ h2⟩
      show hintEntryOK (jsSliceTo (jsTrim k) 100, jsSliceTo (jsTrim v) 200) = true
      simp only [hintEntryOK, Bool.and_eq_true]
      exact ⟨strCapOK_slice _ _ hg.1 (by decide), strCapOK_slice _ _ hg.2 (by decide)⟩
  all_goals exact ⟨h1, h2⟩

theorem hintFold_invariant (fields : List (String × JVal)) :
    ∀ acc, acc.all hintEntryOK = true → keysDistinct acc = true →
    (fields.foldl hintFoldStep acc).all hintEntryOK = true ∧
    keysDistinct (fields.foldl hintFoldStep acc) = true := by
  induction fields with
  | nil => intro acc h1 h2; exact ⟨h1, h2⟩
  | cons p rest ih =>
    intro acc h1 h2
    rw [List.foldl_cons]
    obtain ⟨h1', h2'⟩ := hintFoldStep_invariant acc p h1 h2
    exact ih _ h1' h2'

theorem sanitizeStringRecord_shape (o : Option JVal) (h : List (String × String))
    (hs : sanitizeStringRecord o = some h) :
    h.isEmpty = false ∧ h.all hintEntryOK = true ∧ keysDistinct h = true := by
  rcases o with _ | v
  · exact Option.noConfusion hs
  cases v
  case obj fields =>
    have hred : sanitizeStringRecord (some (.obj fields)) =
        (if (fields.foldl hintFoldStep []).length > 0
         then some (fields.foldl hintFoldStep []) else none) := rfl
    rw [hred] at hs
    split at hs
    · next hlen =>
      obtain ⟨h1, h2⟩ := hintFold_invariant fields [] rfl rfl
      cases hs
      rcases hL : fields.foldl hintFoldStep [] with _ | ⟨q, L⟩
      · rw [hL] at hlen
        exact absurd hlen (by simp)
      · rw [hL] at h1 h2
        exact ⟨rfl, h1, h2⟩
    · exact Option.noConfusion hs
  all_goals exact Option.noConfusion hs

theorem hintFold_refold (h : List (String × String)) :
    ∀ acc : List (String × String),
    h.all (fun p => jsTrim p.1 == p.1 && jsTrim p.2 == p.2) = true →
    h.all hintEntryOK = true →
    keysDistinct h = true →
    h.all (fun p => !(acc.any (fun q => q.1 == p.1))) = true →
    List.foldl hintFoldStep acc (h.map (fun p => (p.1, JVal.str p.2))) = acc ++ h := by
  induction h with
  | nil =>
    intro acc _ _ _ _
    rw [List.map_nil, List.foldl_nil, List.append_nil]
  | cons p rest ih =>
    intro acc hTS hOK hND hAV
    rw [List.all_cons, Bool.and_eq_true] at hTS hOK hAV
    obtain ⟨hTSp, hTSr⟩ := hTS
    obtain ⟨hOKp, hOKr⟩ := hOK
    obtain ⟨hAVp, hAVr⟩ := hAV
    simp only [Bool.and_eq_true, beq_iff_eq] at hTSp
    simp only [hintEntryOK, Bool.and_eq_true, strCapOK_iff] at hOKp
    simp only [Bool.not_eq_true'] at hAVp
    have hND' := hND
    unfold keysDistinct at hND'
    rw [List.map_cons, keyListDistinct, Bool.and_eq_true] at hND'
    have hNDrest : keysDistinct rest = true := hND'.2
    have hNDhead : (rest.any fun q => q.1 == p.1) = false := by
      have h0 := hND'.1
      rw [Bool.not_eq_true'] at h0
      rwa [keys_any_pairs] at h0
    have hAV2 : rest.all (fun x => !((acc ++ [p]).any fun q => q.1 == x.1)) = true := by
      rw [List.all_eq_true] at hAVr ⊢
      intro x hx
      have h1 := hAVr x hx
      simp only [Bool.not_eq_true'] at h1 ⊢
      rw [List.any_append, Bool.or_eq_false_iff]
      refine ⟨h1, ?_⟩
      rw [List.any_cons, List.any_nil, Bool.or_false]
      have h2 : (x.1 == p.1) = false :=
        any_eq_false_of_mem rest _ x hNDhead hx
      rw [beq_eq_false_iff_ne] at h2 ⊢
      exact fun he => h2 he.symm
    have hstep : hintFoldStep acc (p.1, JVal.str p.2) = acc ++ [p] := by
      show (if jsTrim p.1 = "" ∨ jsTrim p.2 = "" then acc
            else recordSet acc (jsSliceTo (jsTrim p.1) 100) (jsSliceTo (jsTrim p.2) 200)) =
        acc ++ [p]
      rw [hTSp.1, hTSp.2, if_neg (by push_neg; exact ⟨hOKp.1.1, hOKp.2.1⟩)]
      rw [jsSliceTo_of_le _ _ hOKp.1.2, jsSliceTo_of_le _ _ hOKp.2.2]
      rw [recordSet_append_of_no_key _ _ _ hAVp]
    rw [List.map_cons, List.foldl_cons, hstep,
      ih (acc ++ [p]) hTSr hOKr hNDrest hAV2, List.append_assoc]
    rfl

theorem sanitizeStringRecord_refold (h : List (String × String))
    (hTS : h.all (fun p => jsTrim p.1 == p.1 && jsTrim p.2 == p.2) = true)
    (hOK : h.all hintEntryOK = true)
    (hND : keysDistinct h = true)
    (hne : h.isEmpty = false) :
    sanitizeStringRecord (some (.obj (h.map (fun p => (p.1, JVal.str p.2))))) = some h := by
  have hred : sanitizeStringRecord (some (.obj (h.map (fun p => (p.1, JVal.str p.2))))) =
      (if ((h.map (fun p => (p.1, JVal.str p.2))).foldl hintFoldStep []).length > 0
       then some ((h.map (fun p => (p.1, JVal.str p.2))).foldl hintFoldStep [])
       else none) := rfl
  rw [hred, hintFold_refold h [] hTS hOK hND (by simp), List.nil_append]
  have hp : h.length > 0 := by
    cases h
    · exact absurd hne (by simp)
    · simp
  rw [if_pos hp]
theorem sanitizeStepsLoop_skip (v : JVal) (rest : List JVal)
    (hobj : jIsObjLike v = false) :
    sanitizeStepsLoop (v :: rest) = sanitizeStepsLoop rest := by
  simp only [sanitizeStepsLoop, hobj]
  rfl

theorem sanitizeStepsLoop_obj (v : JVal) (rest : List JVal)
    (hobj : jIsObjLike v = true) :
    sanitizeStepsLoop (v :: rest) =
      (match jGet v "blockId" with
       | some (.str rawBlockId) =>
         (match normalizePlannerBlockId rawBlockId with
          | none => sanitizeStepsLoop rest
          | some blockId =>
            (⟨blockId,
              sanitizeTextField (jGet v "purpose") 240 "Execute this workflow step.",
              sanitizeStringRecord (jGet v "configHints")⟩ : PlannerStep) ::
              sanitizeStepsLoop rest)
       | _ => sanitizeStepsLoop rest) := by
  simp only [sanitizeStepsLoop, hobj]
  rfl

theorem sanitizeStepsLoop_all (items : List JVal) :
    (sanitizeStepsLoop items).all stepOK = true := by
  induction items with
  | nil => rfl
  | cons v rest ih =>
    cases hobj : jIsObjLike v
    · rw [sanitizeStepsLoop_skip v rest hobj]; exact ih
    · rw [sanitizeStepsLoop_obj v rest hobj]
      rcases hbid : jGet v "blockId" with _ | w
      · exact ih
      cases w
      case str rawBlockId =>
        show ((match normalizePlannerBlockId rawBlockId with
               | none => sanitizeStepsLoop rest
               | some blockId =>
                 (⟨blockId,
                   sanitizeTextField (jGet v "purpose") 240 "Execute this workflow step.",
                   sanitizeStringRecord (jGet v "configHints")⟩ : PlannerStep) ::
                   sanitizeStepsLoop rest).all stepOK) = true
        rcases hnorm : normalizePlannerBlockId rawBlockId with _ | b
        · exact ih
        · show (((⟨b,
              sanitizeTextField (jGet v "purpose") 240 "Execute this workflow step.",
              sanitizeStringRecord (jGet v "configHints")⟩ : PlannerStep) ::
              sanitizeStepsLoop rest).all stepOK) = true
          rw [List.all_cons, Bool.and_eq_true]
          refine ⟨?_, ih⟩
          simp only [stepOK, Bool.and_eq_true]
          refine ⟨⟨normalizePlannerBlockId_valid _ _ hnorm,
            sanitizeTextField_capOK _ _ _ (by decide) (by decide)⟩, ?_⟩
          rcases hsr : sanitizeStringRecord (jGet v "configHints") with _ | hrec
          · rfl
          · obtain ⟨e1, e2, e3⟩ := sanitizeStringRecord_shape _ _ hsr
            simp only [hintsOK, Bool.and_eq_true]
            exact ⟨⟨by rw [e1]; rfl, e2⟩, e3⟩
      all_goals exact ih

theorem sanitizeSteps_all (o : Option JVal) : (sanitizeSteps o).all stepOK = true := by
  rcases o with _ | v
  · rfl
  cases v
  case arr items =>
    show ((sanitizeStepsLoop items).take 20).all stepOK = true
    have h := sanitizeStepsLoop_all items
    rw [List.all_eq_true] at h ⊢
    intro x hx
    exact h x (List.take_subset _ _ hx)
  all_goals rfl

theorem sanitizeSteps_len (o : Option JVal) : (sanitizeSteps o).length ≤ 20 := by
  rcases o with _ | v
  · decide
  cases v
  case arr items =>
    show ((sanitizeStepsLoop items).take 20).length ≤ 20
    rw [List.length_take]
    exact min_le_left _ _
  all_goals (show (0 : ℕ) ≤ 20; decide)

theorem sanitizeMissingInputsLoop_skip (v : JVal) (rest : List JVal)
    (hobj : jIsObjLike v = false) :
    sanitizeMissingInputsLoop (v :: rest) = sanitizeMissingInputsLoop rest := by
  simp only [sanitizeMissingInputsLoop, hobj]
  rfl

theorem sanitizeMissingInputsLoop_obj (v : JVal) (rest : List JVal)
    (hobj : jIsObjLike v = true) :
    sanitizeMissingInputsLoop (v :: rest) =
      (match jGet v "field", jGet v "question" with
       | some (.str f), some (.str q) =>
         if jsTrim f = "" ∨ jsTrim q = "" then sanitizeMissingInputsLoop rest
         else (⟨jsSliceTo (jsTrim f) 120, jsSliceTo (jsTrim q) 240⟩ :
             PlannerMissingInput) :: sanitizeMissingInputsLoop rest
       | _, _ => sanitizeMissingInputsLoop rest) := by
  simp only [sanitizeMissingInputsLoop, hobj]
  rfl

theorem sanitizeMissingInputsLoop_all (items : List JVal) :
    (sanitizeMissingInputsLoop items).all missingOK = true := by
  induction items with
  | nil => rfl
  | cons v rest ih =>
    cases hobj : jIsObjLike v
    · rw [sanitizeMissingInputsLoop_skip v rest hobj]; exact ih
    · rw [sanitizeMissingInputsLoop_obj v rest hobj]
      rcases hf : jGet v "field" with _ | w1
      · exact ih
      rcases hq : jGet v "question" with _ | w2
      · cases w1 <;> exact ih
      cases w1
      case str f =>
        cases w2
        case str q =>
          show ((if jsTrim f = "" ∨ jsTrim q = "" then
                  sanitizeMissingInputsLoop rest
                else (⟨jsSliceTo (jsTrim f) 120, jsSliceTo (jsTrim q) 240⟩ :
                    PlannerMissingInput) :: sanitizeMissingInputsLoop rest).all
              missingOK) = true
          by_cases hg : jsTrim f = "" ∨ jsTrim q = ""
          · rw [if_pos hg]; exact ih
          · rw [if_neg hg]
            push_neg at hg
            rw [List.all_cons, Bool.and_eq_true]
            refine ⟨?_, ih⟩
            simp only [missingOK, Bool.and_eq_true]
            exact ⟨strCapOK_slice _ _ hg.1 (by decide),
              strCapOK_slice _ _ hg.2 (by decide)⟩
        all_goals exact ih
      all_goals cases w2 <;> exact ih

theorem sanitizeMissingInputs_all (o : Option JVal) :
    (sanitizeMissingInputs o).all missingOK = true := by
  rcases o with _ | v
  · rfl
  cases v
  case arr items =>
    show ((sanitizeMissingInputsLoop items).take 10).all missingOK = true
    have h := sanitizeMissingInputsLoop_all items
    rw [List.all_eq_true] at h ⊢
    intro x hx
    exact h x (List.take_subset _ _ hx)
  all_goals rfl

theorem sanitizeMissingInputs_len (o : Option JVal) :
    (sanitizeMissingInputs o).length ≤ 10 := by
  rcases o with _ | v
  · decide
  cases v
  case arr items =>
    show ((sanitizeMissingInputsLoop items).take 10).length ≤ 10
    rw [List.length_take]
    exact min_le_left _ _
  all_goals (show (0 : ℕ) ≤ 10; decide)

theorem sanitizeNotesLoop_skip (v : JVal) (rest : List JVal)
    (hobj : jIsObjLike v = false) :
    sanitizeNotesLoop (v :: rest) = sanitizeNotesLoop rest := by
  simp only [sanitizeNotesLoop, hobj]
  rfl

theorem sanitizeNotesLoop_obj (v : JVal) (rest : List JVal)
    (hobj : jIsObjLike v = true) :
    sanitizeNotesLoop (v :: rest) =
      (match jGet v "type", jGet v "message" with
       | some (.str ty), some (.str msg) =>
         if !allowedNoteTypes.contains ty then sanitizeNotesLoop rest
         else if jsTrim msg = "" then sanitizeNotesLoop rest
         else (⟨ty, jsSliceTo (jsTrim msg) 280,
             sanitizeOptTextField (jGet v "field") 120⟩ : PlannerNote) ::
           sanitizeNotesLoop rest
       | _, _ => sanitizeNotesLoop rest) := by
  simp only [sanitizeNotesLoop, hobj]
  rfl

theorem sanitizeNotesLoop_all (items : List JVal) :
    (sanitizeNotesLoop items).all noteOK = true := by
  induction items with
  | nil => rfl
  | cons v rest ih =>
    cases hobj : jIsObjLike v
    · rw [sanitizeNotesLoop_skip v rest hobj]; exact ih
    · rw [sanitizeNotesLoop_obj v rest hobj]
      rcases hty : jGet v "type" with _ | w1
      · exact ih
      rcases hmsg : jGet v "message" with _ | w2
      · cases w1 <;> exact ih
      cases w1
      case str ty =>
        cases w2
        case str msg =>
          show ((if !allowedNoteTypes.contains ty then sanitizeNotesLoop rest
                 else if jsTrim msg = "" then sanitizeNotesLoop rest
                 else (⟨ty, jsSliceTo (jsTrim msg) 280,
                     sanitizeOptTextField (jGet v "field") 120⟩ : PlannerNote) ::
                   sanitizeNotesLoop rest).all noteOK) = true
          cases hc : allowedNoteTypes.contains ty
          · exact ih
          · show ((if jsTrim msg = "" then sanitizeNotesLoop rest
                   else (⟨ty, jsSliceTo (jsTrim msg) 280,
                       sanitizeOptTextField (jGet v "field") 120⟩ : PlannerNote) ::
                     sanitizeNotesLoop rest).all noteOK) = true
            by_cases hm : jsTrim msg = ""
            · rw [if_pos hm]; exact ih
            · rw [if_neg hm]
              rw [List.all_cons, Bool.and_eq_true]
              refine ⟨?_, ih⟩
              simp only [noteOK, Bool.and_eq_true]
              refine ⟨⟨hc, strCapOK_slice _ _ hm (by decide)⟩, ?_⟩
              exact sanitizeOptTextField_capOK _ _ (by decide)
        all_goals exact ih
      all_goals cases w2 <;> exact ih

theorem sanitizeNotes_all (o : Option JVal) :
    (sanitizeNotes o).all noteOK = true := by
  rcases o with _ | v
  · rfl
  cases v
  case arr items =>
    show ((sanitizeNotesLoop items).take 12).all noteOK = true
    have h := sanitizeNotesLoop_all items
    rw [List.all_eq_true] at h ⊢
    intro x hx
    exact h x (List.take_subset _ _ hx)
  all_goals rfl

theorem sanitizeNotes_len (o : Option JVal) : (sanitizeNotes o).length ≤ 12 := by
  rcases o with _ | v
  · decide
  cases v
  case arr items =>
    show ((sanitizeNotesLoop items).take 12).length ≤ 12
    rw [List.length_take]
    exact min_le_left _ _
  all_goals (show (0 : ℕ) ≤ 12; decide)
theorem sanitizeStepsLoop_cons (bid purp : String)
    (hints : Option (List (String × String))) (l : List JVal) :
    sanitizeStepsLoop (stepToJVal ⟨bid, purp, hints⟩ :: l) =
      (match normalizePlannerBlockId bid with
       | none => sanitizeStepsLoop l
       | some b =>
         (⟨b, sanitizeTextField (some (.str purp)) 240 "Execute this workflow step.",
           sanitizeStringRecord (hints.map (fun h =>
             JVal.obj (h.map (fun p => (p.1, JVal.str p.2)))))⟩ : PlannerStep) ::
           sanitizeStepsLoop l) := by
  cases hints <;> rfl

theorem sanitizeStepsLoop_refold (steps : List PlannerStep) :
    steps.all stepOK = true →
    steps.all (fun s => jsTrim s.purpose == s.purpose &&
      (s.configHints.getD []).all (fun h =>
        jsTrim h.1 == h.1 && jsTrim h.2 == h.2)) = true →
    sanitizeStepsLoop (steps.map stepToJVal) = steps := by
  induction steps with
  | nil => intro _ _; rfl
  | cons s rest ih =>
    intro hOK hTS
    rw [List.all_cons, Bool.and_eq_true] at hOK hTS
    obtain ⟨hOKs, hOKr⟩ := hOK
    obtain ⟨hTSs, hTSr⟩ := hTS
    obtain ⟨bid, purp, hints⟩ := s
    simp only [stepOK, Bool.and_eq_true, strCapOK_iff] at hOKs
    simp only [Bool.and_eq_true, beq_iff_eq] at hTSs
    rw [List.map_cons, sanitizeStepsLoop_cons,
      normalizePlannerBlockId_of_valid bid hOKs.1.1]
    show (⟨bid, sanitizeTextField (some (.str purp)) 240 "Execute this workflow step.",
          sanitizeStringRecord (hints.map (fun h =>
            JVal.obj (h.map (fun p => (p.1, JVal.str p.2)))))⟩ : PlannerStep) ::
        sanitizeStepsLoop (rest.map stepToJVal) =
      ⟨bid, purp, hints⟩ :: rest
    rw [sanitizeTextField_stable purp 240 _ hTSs.1 hOKs.1.2.1 hOKs.1.2.2,
      ih hOKr hTSr]
    rcases hints with _ | h
    · rfl
    · have hOKh := hOKs.2
      simp only [hintsOK, Bool.and_eq_true, Bool.not_eq_true'] at hOKh
      rw [show (Option.map (fun h => JVal.obj (h.map (fun p => (p.1, JVal.str p.2))))
            (some h)) = some (JVal.obj (h.map (fun p => (p.1, JVal.str p.2)))) from rfl]
      rw [sanitizeStringRecord_refold h hTSs.2 hOKh.1.2 hOKh.2 hOKh.1.1]
theorem sanitizeMissingInputsLoop_refold (mi : List PlannerMissingInput) :
    mi.all missingOK = true →
    mi.all (fun m => jsTrim m.field == m.field &&
      jsTrim m.question == m.question) = true →
    sanitizeMissingInputsLoop (mi.map missingInputToJVal) = mi := by
  induction mi with
  | nil => intro _ _; rfl
  | cons m rest ih =>
    intro hOK hTS
    rw [List.all_cons, Bool.and_eq_true] at hOK hTS
    obtain ⟨hOKm, hOKr⟩ := hOK
    obtain ⟨hTSm, hTSr⟩ := hTS
    obtain ⟨f, q⟩ := m
    simp only [missingOK, Bool.and_eq_true, strCapOK_iff] at hOKm
    simp only [Bool.and_eq_true, beq_iff_eq] at hTSm
    rw [List.map_cons]
    have hred : sanitizeMissingInputsLoop
        (missingInputToJVal ⟨f, q⟩ :: rest.map missingInputToJVal) =
        (if jsTrim f = "" ∨ jsTrim q = "" then
          sanitizeMissingInputsLoop (rest.map missingInputToJVal)
         else (⟨jsSliceTo (jsTrim f) 120, jsSliceTo (jsTrim q) 240⟩ :
             PlannerMissingInput) ::
           sanitizeMissingInputsLoop (rest.map missingInputToJVal)) := rfl
    rw [hred, hTSm.1, hTSm.2, if_neg (by push_neg; exact ⟨hOKm.1.1, hOKm.2.1⟩)]
    rw [jsSliceTo_of_le _ _ hOKm.1.2, jsSliceTo_of_le _ _ hOKm.2.2, ih hOKr hTSr]

theorem sanitizeNotesLoop_refold (ns : List PlannerNote) :
    ns.all noteOK = true →
    ns.all (fun n => jsTrim n.message == n.message &&
      (match n.field with
       | some f => jsTrim f == f
       | none => true)) = true →
    sanitizeNotesLoop (ns.map noteToJVal) = ns := by
  induction ns with
  | nil => intro _ _; rfl
  | cons n rest ih =>
    intro hOK hTS
    rw [List.all_cons, Bool.and_eq_true] at hOK hTS
    obtain ⟨hOKn, hOKr⟩ := hOK
    obtain ⟨hTSn, hTSr⟩ := hTS
    obtain ⟨ty, msg, fld⟩ := n
    rw [List.map_cons]
    cases fld with
    | none =>
      simp only [noteOK, Bool.and_eq_true, strCapOK_iff] at hOKn
      simp only [Bool.and_eq_true, beq_iff_eq] at hTSn
      have hred : sanitizeNotesLoop
          (noteToJVal ⟨ty, msg, none⟩ :: rest.map noteToJVal) =
          (if !allowedNoteTypes.contains ty then
            sanitizeNotesLoop (rest.map noteToJVal)
           else if jsTrim msg = "" then sanitizeNotesLoop (rest.map noteToJVal)
           else (⟨ty, jsSliceTo (jsTrim msg) 280, none⟩ : PlannerNote) ::
             sanitizeNotesLoop (rest.map noteToJVal)) := rfl
      rw [hred, hOKn.1.1]
      show (if jsTrim msg = "" then sanitizeNotesLoop (rest.map noteToJVal)
            else (⟨ty, jsSliceTo (jsTrim msg) 280, none⟩ : PlannerNote) ::
              sanitizeNotesLoop (rest.map noteToJVal)) = _
      rw [hTSn.1, if_neg hOKn.1.2.1, jsSliceTo_of_le _ _ hOKn.1.2.2, ih hOKr hTSr]
    | some fv =>
      simp only [noteOK, Bool.and_eq_true, strCapOK_iff] at hOKn
      simp only [Bool.and_eq_true, beq_iff_eq] at hTSn
      have hred : sanitizeNotesLoop
          (noteToJVal ⟨ty, msg, some fv⟩ :: rest.map noteToJVal) =
          (if !allowedNoteTypes.contains ty then
            sanitizeNotesLoop (rest.map noteToJVal)
           else if jsTrim msg = "" then sanitizeNotesLoop (rest.map noteToJVal)
           else (⟨ty, jsSliceTo (jsTrim msg) 280,
               sanitizeOptTextField (some (.str fv)) 120⟩ : PlannerNote) ::
             sanitizeNotesLoop (rest.map noteToJVal)) := rfl
      rw [hred, hOKn.1.1]
      show (if jsTrim msg = "" then sanitizeNotesLoop (rest.map noteToJVal)
            else (⟨ty, jsSliceTo (jsTrim msg) 280,
                sanitizeOptTextField (some (.str fv)) 120⟩ : PlannerNote) ::
              sanitizeNotesLoop (rest.map noteToJVal)) = _
      rw [hTSn.1, if_neg hOKn.1.2.1, jsSliceTo_of_le _ _ hOKn.1.2.2,
        sanitizeOptTextField_stable fv 120 hTSn.2 hOKn.2.1 hOKn.2.2,
        ih hOKr hTSr]
theorem not_isEmpty_of_ne_zero {α : Type} (L : List α) (h : ¬(L.length = 0)) :
    (!L.isEmpty) = true := by
  cases L
  · exact absurd rfl h
  · rfl

theorem not_isEmpty_of_pos {α : Type} (L : List α) (h : L.length > 0) :
    (!L.isEmpty) = true := by
  cases L
  · exact absurd h (Nat.lt_irrefl 0)
  · rfl

theorem sanitize_shape (raw : JVal) (P : PlannerResult)
    (h : sanitizePlannerResult raw = .ok P) : sanitizedShape P = true := by
  simp only [sanitizePlannerResult] at h
  split at h
  · exact Except.noConfusion h
  · split at h
    · exact Except.noConfusion h
    · next hlen =>
      cases Except.ok.inj h
      simp only [sanitizedShape, Bool.and_eq_true, decide_eq_true_eq]
      refine ⟨⟨⟨⟨⟨⟨⟨?_, ?_⟩, ?_⟩, ?_⟩, ?_⟩, ?_⟩, ?_⟩, ?_⟩
      · exact sanitizeTextField_capOK _ _ _ (by decide) (by decide)
      · exact sanitizeTextField_capOK _ _ _ (by decide) (by decide)
      · exact not_isEmpty_of_ne_zero _ hlen
      · exact sanitizeSteps_len _
      · exact sanitizeSteps_all _
      · exact sanitizeMissingInputs_len _
      · exact sanitizeMissingInputs_all _
      · split
        · next ns hc =>
          split at hc
          · next hpos =>
            cases Option.some.inj hc
            simp only [Bool.and_eq_true, decide_eq_true_eq]
            exact ⟨⟨not_isEmpty_of_pos _ hpos, sanitizeNotes_len _⟩,
              sanitizeNotes_all _⟩
          · exact Option.noConfusion hc
        · rfl
theorem sanitize_refold (P : PlannerResult)
    (hsh : sanitizedShape P = true) (hts : planTrimStable P = true) :
    sanitizePlannerResult (planToJVal P) = .ok P := by
  obtain ⟨wn, d, steps, mi, notes⟩ := P
  cases notes with
  | none =>
    simp only [sanitizedShape, Bool.and_eq_true, decide_eq_true_eq, and_true] at hsh
    simp only [planTrimStable, Bool.and_eq_true, beq_iff_eq] at hts
    obtain ⟨⟨⟨⟨⟨⟨hwn, hd⟩, hne⟩, h20⟩, hallS⟩, h10⟩, hallM⟩ := hsh
    obtain ⟨⟨⟨⟨htwn, htd⟩, htS⟩, htM⟩, -⟩ := hts
    rw [strCapOK_iff] at hwn hd
    have hne0 : ¬(steps.length = 0) := by
      cases steps
      · exact absurd hne (by decide)
      · simp
    have hSteps : sanitizeSteps (some (.arr (steps.map stepToJVal))) = steps := by
      show (sanitizeStepsLoop (steps.map stepToJVal)).take 20 = steps
      rw [sanitizeStepsLoop_refold steps hallS htS, List.take_of_length_le h20]
    have hMi : sanitizeMissingInputs (some (.arr (mi.map missingInputToJVal))) = mi := by
      show (sanitizeMissingInputsLoop (mi.map missingInputToJVal)).take 10 = mi
      rw [sanitizeMissingInputsLoop_refold mi hallM htM, List.take_of_length_le h10]
    show (if (sanitizeSteps (some (.arr (steps.map stepToJVal)))).length = 0 then
           (Except.error "Planner returned no valid steps" : Except String PlannerResult)
         else .ok ⟨sanitizeTextField (some (.str wn)) 200 "Untitled Workflow",
                   sanitizeTextField (some (.str d)) 500 "Generated workflow plan",
                   sanitizeSteps (some (.arr (steps.map stepToJVal))),
                   sanitizeMissingInputs (some (.arr (mi.map missingInputToJVal))),
                   if (sanitizeNotes none).length > 0 then some (sanitizeNotes none)
                   else none⟩) =
      .ok ⟨wn, d, steps, mi, none⟩
    rw [hSteps, hMi, if_neg hne0,
      sanitizeTextField_stable wn 200 _ htwn hwn.1 hwn.2,
      sanitizeTextField_stable d 500 _ htd hd.1 hd.2]
    rfl
  | some ns =>
    simp only [sanitizedShape, Bool.and_eq_true, decide_eq_true_eq] at hsh
    simp only [planTrimStable, Bool.and_eq_true, beq_iff_eq] at hts
    obtain ⟨⟨⟨⟨⟨⟨⟨hwn, hd⟩, hne⟩, h20⟩, hallS⟩, h10⟩, hallM⟩,
      ⟨⟨hnsne, hns12⟩, hnsall⟩⟩ := hsh
    obtain ⟨⟨⟨⟨htwn, htd⟩, htS⟩, htM⟩, htN⟩ := hts
    rw [strCapOK_iff] at hwn hd
    have hne0 : ¬(steps.length = 0) := by
      cases steps
      · exact absurd hne (by decide)
      · simp
    have hpos : (ns.length > 0) := by
      cases ns
      · exact absurd hnsne (by decide)
      · simp
    have hSteps : sanitizeSteps (some (.arr (steps.map stepToJVal))) = steps := by
      show (sanitizeStepsLoop (steps.map stepToJVal)).take 20 = steps
      rw [sanitizeStepsLoop_refold steps hallS htS, List.take_of_length_le h20]
    have hMi : sanitizeMissingInputs (some (.arr (mi.map missingInputToJVal))) = mi := by
      show (sanitizeMissingInputsLoop (mi.map missingInputToJVal)).take 10 = mi
      rw [sanitizeMissingInputsLoop_refold mi hallM htM, List.take_of_length_le h10]
    have hNs : sanitizeNotes (some (.arr (ns.map noteToJVal))) = ns := by
      show (sanitizeNotesLoop (ns.map noteToJVal)).take 12 = ns
      rw [sanitizeNotesLoop_refold ns hnsall htN, List.take_of_length_le hns12]
    show (if (sanitizeSteps (some (.arr (steps.map stepToJVal)))).length = 0 then
           (Except.error "Planner returned no valid steps" : Except String PlannerResult)
         else .ok ⟨sanitizeTextField (some (.str wn)) 200 "Untitled Workflow",
                   sanitizeTextField (some (.str d)) 500 "Generated workflow plan",
                   sanitizeSteps (some (.arr (steps.map stepToJVal))),
                   sanitizeMissingInputs (some (.arr (mi.map missingInputToJVal))),
                   if (sanitizeNotes (some (.arr (ns.map noteToJVal)))).length > 0 then
                     some (sanitizeNotes (some (.arr (ns.map noteToJVal))))
                   else none⟩) =
      .ok ⟨wn, d, steps, mi, some ns⟩
    rw [hSteps, hMi, hNs, if_neg hne0, if_pos hpos,
      sanitizeTextField_stable wn 200 _ htwn hwn.1 hwn.2,
      sanitizeTextField_stable d 500 _ htd hd.1 hd.2]
/-- C5 counterexample: the claimed unconditional idempotence fails. A raw
payload whose config-hint key is 101 characters long sanitizes to a Plan
planC5 whose hint key keeps 99 trailing spaces (trim happens before the
100-character slice); sanitizing planC5 again trims that key down to a, so
the second pass returns a different Plan. -/
theorem C5_counterexample :
    sanitizePlannerResult rawPlanC5 = .ok planC5 ∧
    planC5 ≠ planC5' ∧
    sanitizePlannerResult (planToJVal planC5) = .ok planC5' :=
  ⟨by decide, by decide, by decide⟩

/-- C5 (corrected): the sanitizer is idempotent on every output Plan whose
string fields are trim-stable. If sanitization of a raw payload succeeds
with Plan P and no string field of P carries leading or trailing
whitespace, then sanitizing P again through its own flat shape returns
exactly P. (Without trim stability this fails: see the counterexample.) -/
theorem C5_sanitize_idempotent (raw : JVal) (P : PlannerResult)
    (hsan : sanitizePlannerResult raw = .ok P)
    (hts : planTrimStable P = true) :
    sanitizePlannerResult (planToJVal P) = .ok P :=
  sanitize_refold P (sanitize_shape raw P hsan) hts

/-- Witness for C5 at a concrete two-field plan with one telegram step. -/
theorem C5_witness :
    sanitizePlannerResult (.obj [("workflowName", .str "W"),
      ("description", .str "D"),
      ("steps", .arr [.obj [("blockId", .str "telegram"),
        ("purpose", .str "Send update")]])]) =
      .ok ⟨"W", "D", [⟨"telegram", "Send update", none⟩], [], none⟩ ∧
    planTrimStable ⟨"W", "D", [⟨"telegram", "Send update", none⟩], [], none⟩ = true ∧
    sanitizePlannerResult
        (planToJVal ⟨"W", "D", [⟨"telegram", "Send update", none⟩], [], none⟩) =
      .ok ⟨"W", "D", [⟨"telegram", "Send update", none⟩], [], none⟩ :=
  ⟨by decide, by decide,
   C5_sanitize_idempotent
     (.obj [("workflowName", .str "W"), ("description", .str "D"),
       ("steps", .arr [.obj [("blockId", .str "telegram"),
         ("purpose", .str "Send update")]])])
     ⟨"W", "D", [⟨"telegram", "Send update", none⟩], [], none⟩
     (by decide) (by decide)⟩

/-! ## Single-execution tracking (C6) -/

theorem singleStep_err (id : String) (ss : Bool) (tick : ℕ) (e : Unit)
    (rest : List PollOutcome) :
    waitForSingleExecutionTerminal id ss tick (.error e :: rest) =
      waitForSingleExecutionTerminal id ss (tick + 1) rest := rfl

theorem singleStep_ok (id : String) (ss : Bool) (tick : ℕ)
    (st : WorkflowExecutionStatus) (rest : List PollOutcome) :
    waitForSingleExecutionTerminal id ss tick (.ok st :: rest) =
      (if st.status = "SUCCESS" then
        ((if st.status = "WAITING_FOR_SIGNATURE" ∧ ss = false then
            [(tick, MonitorEvent.signingRequired id)] else []) ++
          [(tick, MonitorEvent.workflowCompleted)], some st)
       else if st.status = "FAILED" then
        ((if st.status = "WAITING_FOR_SIGNATURE" ∧ ss = false then
            [(tick, MonitorEvent.signingRequired id)] else []) ++
          [(tick, MonitorEvent.workflowFailed st.errorMessage)], some st)
       else
        ((if st.status = "WAITING_FOR_SIGNATURE" ∧ ss = false then
            [(tick, MonitorEvent.signingRequired id)] else []) ++
          (waitForSingleExecutionTerminal id
            (ss || (st.status == "WAITING_FOR_SIGNATURE")) (tick + 1) rest).1,
         (waitForSingleExecutionTerminal id
           (ss || (st.status == "WAITING_FOR_SIGNATURE")) (tick + 1) rest).2)) := rfl

theorem singleRun_signing_none (id : String) (L : List PollOutcome) :
    ∀ tick, ((waitForSingleExecutionTerminal id true tick L).1.filter
      (fun e => isSigningEvent e.2)) = [] := by
  induction L with
  | nil => intro tick; rfl
  | cons o rest ih =>
    intro tick
    rcases o with e | st
    · exact ih (tick + 1)
    · have hfs : ¬(st.status = "WAITING_FOR_SIGNATURE" ∧ (true : Bool) = false) :=
        fun hc => Bool.noConfusion hc.2
      rw [singleStep_ok, if_neg hfs]
      by_cases hS : st.status = "SUCCESS"
      · rw [if_pos hS]; rfl
      · rw [if_neg hS]
        by_cases hF : st.status = "FAILED"
        · rw [if_pos hF]; rfl
        · rw [if_neg hF]
          show ((waitForSingleExecutionTerminal id
            (true || (st.status == "WAITING_FOR_SIGNATURE")) (tick + 1) rest).1.filter
              (fun e => isSigningEvent e.2)) = []
          exact ih (tick + 1)
theorem terminal_cases (t : WorkflowExecutionStatus)
    (ht : isTerminalStatus t.status = true) :
    t.status = "SUCCESS" ∨ t.status = "FAILED" := by
  have h2 : (decide (t.status = "SUCCESS") || decide (t.status = "FAILED")) = true := ht
  rcases Bool.or_eq_true_iff.mp h2 with h | h
  · exact Or.inl (of_decide_eq_true h)
  · exact Or.inr (of_decide_eq_true h)

theorem nonterminal_cases (st : WorkflowExecutionStatus)
    (h : isTerminalOutcome (.ok st) = false) :
    ¬(st.status = "SUCCESS") ∧ ¬(st.status = "FAILED") := by
  have h2 : (decide (st.status = "SUCCESS") || decide (st.status = "FAILED")) = false := h
  rw [Bool.or_eq_false_iff] at h2
  exact ⟨of_decide_eq_false h2.1, of_decide_eq_false h2.2⟩

theorem singleRun_stops (id : String) (B : List PollOutcome)
    (t : WorkflowExecutionStatus) (ht : isTerminalStatus t.status = true) :
    ∀ (A : List PollOutcome) (ss : Bool) (tick : ℕ),
    A.all (fun o => !isTerminalOutcome o) = true →
    waitForSingleExecutionTerminal id ss tick (A ++ .ok t :: B) =
      waitForSingleExecutionTerminal id ss tick (A ++ [.ok t]) ∧
    (waitForSingleExecutionTerminal id ss tick (A ++ .ok t :: B)).2 = some t := by
  intro A
  induction A with
  | nil =>
    intro ss tick _
    rw [List.nil_append, List.nil_append, singleStep_ok, singleStep_ok]
    rcases terminal_cases t ht with hS | hF
    · rw [if_pos hS, if_pos hS]
      exact ⟨rfl, rfl⟩
    · have hS : ¬(t.status = "SUCCESS") := by rw [hF]; decide
      rw [if_neg hS, if_neg hS, if_pos hF, if_pos hF]
      exact ⟨rfl, rfl⟩
  | cons o rest ih =>
    intro ss tick hall
    rw [List.all_cons, Bool.and_eq_true] at hall
    rcases o with e | st
    · rw [List.cons_append, List.cons_append, singleStep_err, singleStep_err]
      exact ih ss (tick + 1) hall.2
    · have h1 := hall.1
      simp only [Bool.not_eq_true'] at h1
      obtain ⟨hS, hF⟩ := nonterminal_cases st h1
      obtain ⟨ihEq, ihRes⟩ :=
        ih (ss || (st.status == "WAITING_FOR_SIGNATURE")) (tick + 1) hall.2
      rw [List.cons_append, List.cons_append, singleStep_ok, singleStep_ok,
        if_neg hS, if_neg hS, if_neg hF, if_neg hF, ihEq]
      exact ⟨rfl, ihEq ▸ ihRes⟩
theorem isWaiting_err (e : Unit) : isWaitingOutcome (.error e) = false := rfl

theorem singleRun_signing_first (id : String) (B : List PollOutcome)
    (t : WorkflowExecutionStatus) :
    ∀ (A : List PollOutcome) (tick : ℕ),
    A.all (fun o => !isTerminalOutcome o) = true →
    A.any isWaitingOutcome = true →
    ((waitForSingleExecutionTerminal id false tick (A ++ .ok t :: B)).1.filter
      (fun e => isSigningEvent e.2)) =
      [(tick + A.findIdx isWaitingOutcome, MonitorEvent.signingRequired id)] := by
  intro A
  induction A with
  | nil =>
    intro tick _ hW
    exact absurd hW (by decide)
  | cons o rest ih =>
    intro tick hall hW
    rw [List.all_cons, Bool.and_eq_true] at hall
    rw [List.any_cons, Bool.or_eq_true_iff] at hW
    rcases o with e | st
    · have hWr : rest.any isWaitingOutcome = true := by
        rcases hW with h | h
        · exact Bool.noConfusion h
        · exact h
      rw [List.cons_append, singleStep_err, ih (tick + 1) hall.2 hWr]
      have hidx : (List.findIdx isWaitingOutcome (Except.error e :: rest)) =
          rest.findIdx isWaitingOutcome + 1 := by
        rw [List.findIdx_cons]
        rfl
      rw [hidx]
      have harith : tick + 1 + rest.findIdx isWaitingOutcome =
          tick + (rest.findIdx isWaitingOutcome + 1) := by omega
      rw [harith]
    · by_cases hw : st.status = "WAITING_FOR_SIGNATURE"
      · have hS : ¬(st.status = "SUCCESS") := by rw [hw]; decide
        have hF : ¬(st.status = "FAILED") := by rw [hw]; decide
        have hsent : (false || (st.status == "WAITING_FOR_SIGNATURE")) = true := by
          rw [hw]; decide
        rw [List.cons_append, singleStep_ok, if_neg hS, if_neg hF,
          if_pos ⟨hw, rfl⟩, hsent]
        show (List.filter (fun e => isSigningEvent e.2)
            ([(tick, MonitorEvent.signingRequired id)] ++
              (waitForSingleExecutionTerminal id true (tick + 1)
                (rest ++ .ok t :: B)).1)) = _
        rw [List.filter_append, singleRun_signing_none id _ (tick + 1),
          List.append_nil]
        have hWhead : isWaitingOutcome (.ok st) = true := by
          show (st.status == "WAITING_FOR_SIGNATURE") = true
          rw [hw]; decide
        have hidx : (List.findIdx isWaitingOutcome (Except.ok st :: rest)) = 0 := by
          rw [List.findIdx_cons, hWhead]
          rfl
        rw [hidx, Nat.add_zero]
        rfl
      · have h1 := hall.1
        simp only [Bool.not_eq_true'] at h1
        obtain ⟨hS, hF⟩ := nonterminal_cases st h1
        have hWhead : isWaitingOutcome (.ok st) = false := by
          show (st.status == "WAITING_FOR_SIGNATURE") = false
          rw [beq_eq_false_iff_ne]
          exact hw
        have hWr : rest.any isWaitingOutcome = true := by
          rcases hW with h | h
          · rw [hWhead] at h
            exact Bool.noConfusion h
          · exact h
        have hsent : (false || (st.status == "WAITING_FOR_SIGNATURE")) = false := by
          rw [Bool.false_or]
          exact hWhead
        rw [List.cons_append, singleStep_ok, if_neg hS, if_neg hF,
          if_neg (fun hc => hw hc.1), hsent]
        show (List.filter (fun e => isSigningEvent e.2)
            (([] : List (ℕ × MonitorEvent)) ++
              (waitForSingleExecutionTerminal id false (tick + 1)
                (rest ++ .ok t :: B)).1)) = _
        rw [List.nil_append, ih (tick + 1) hall.2 hWr]
        have hidx : (List.findIdx isWaitingOutcome (Except.ok st :: rest)) =
            rest.findIdx isWaitingOutcome + 1 := by
          rw [List.findIdx_cons, hWhead]
          rfl
        rw [hidx]
        have harith : tick + 1 + rest.findIdx isWaitingOutcome =
            tick + (rest.findIdx isWaitingOutcome + 1) := by omega
        rw [harith]
/-- C6: single-execution tracking. For every poll sequence consisting of
non-terminal observations A (at least one of them WAITING_FOR_SIGNATURE),
then a terminal status t, then anything else B: the loop stops at t (B is
never consumed), the returned terminal status is t, and exactly one signing
notification fires, at the tick of the first WAITING_FOR_SIGNATURE
observation. -/
theorem C6_single_execution_tracking (id : String) (A B : List PollOutcome)
    (t : WorkflowExecutionStatus)
    (hA : A.all (fun o => !isTerminalOutcome o) = true)
    (ht : isTerminalStatus t.status = true)
    (hW : A.any isWaitingOutcome = true) :
    (waitForSingleExecutionTerminal id false 0 (A ++ .ok t :: B)).2 = some t ∧
    waitForSingleExecutionTerminal id false 0 (A ++ .ok t :: B) =
      waitForSingleExecutionTerminal id false 0 (A ++ [.ok t]) ∧
    ((waitForSingleExecutionTerminal id false 0 (A ++ .ok t :: B)).1.filter
      (fun e => isSigningEvent e.2)) =
      [(A.findIdx isWaitingOutcome, MonitorEvent.signingRequired id)] := by
  obtain ⟨hEq, hRes⟩ := singleRun_stops id B t ht A false 0 hA
  refine ⟨hRes, hEq, ?_⟩
  rw [singleRun_signing_first id B t A 0 hA hW, Nat.zero_add]

/-- Witness for C6 on the status sequence PENDING, WAITING_FOR_SIGNATURE,
WAITING_FOR_SIGNATURE, SUCCESS (with a further FAILED poll afterwards that
is never consumed): terminal result SUCCESS, one signing event at tick 1. -/
theorem C6_witness :
    (waitForSingleExecutionTerminal "e1" false 0
      ([.ok ⟨"e1", "PENDING", none, [], none, none⟩,
        .ok ⟨"e1", "WAITING_FOR_SIGNATURE", none, [], none, none⟩,
        .ok ⟨"e1", "WAITING_FOR_SIGNATURE", none, [], none, none⟩] ++
        .ok ⟨"e1", "SUCCESS", none, [], none, none⟩ ::
        [.ok ⟨"e1", "FAILED", none, [], none, none⟩])).2 =
      some ⟨"e1", "SUCCESS", none, [], none, none⟩ ∧
    ((waitForSingleExecutionTerminal "e1" false 0
      ([.ok ⟨"e1", "PENDING", none, [], none, none⟩,
        .ok ⟨"e1", "WAITING_FOR_SIGNATURE", none, [], none, none⟩,
        .ok ⟨"e1", "WAITING_FOR_SIGNATURE", none, [], none, none⟩] ++
        .ok ⟨"e1", "SUCCESS", none, [], none, none⟩ ::
        [.ok ⟨"e1", "FAILED", none, [], none, none⟩])).1.filter
      (fun e => isSigningEvent e.2)) =
      [(1, MonitorEvent.signingRequired "e1")] := by
  obtain ⟨h1, h2, h3⟩ := C6_single_execution_tracking "e1"
    [.ok ⟨"e1", "PENDING", none, [], none, none⟩,
     .ok ⟨"e1", "WAITING_FOR_SIGNATURE", none, [], none, none⟩,
     .ok ⟨"e1", "WAITING_FOR_SIGNATURE", none, [], none, none⟩]
    [.ok ⟨"e1", "FAILED", none, [], none, none⟩]
    ⟨"e1", "SUCCESS", none, [], none, none⟩
    (by decide) (by decide) (by decide)
  refine ⟨h1, ?_⟩
  rw [h3]
  decide

/-! ## Scheduled-window tracking (C7) -/

theorem loop_exit (timeoutAt : ℕ) (tb : String) (g : ℕ → SchedTick)
    (fuel now i : ℕ) (seen ssf : List String) (h : ¬ now < timeoutAt) :
    monitorScheduledLoop timeoutAt tb g fuel now i seen ssf =
      ([(now, MonitorEvent.windowTimeout)], SchedOutcome.timeoutReached now) := by
  cases fuel with
  | zero =>
    rw [monitorScheduledLoop]
    rw [if_neg h]
  | succ fuel2 =>
    rw [monitorScheduledLoop]
    rw [if_neg h]

theorem loop_succ_cont (timeoutAt : ℕ) (tb : String) (g : ℕ → SchedTick)
    (fuel now i : ℕ) (seen ssf seen1 ssf1 : List String)
    (evs : List MonitorEvent) (hlt : now < timeoutAt)
    (hstep : (match (g i).listing with
              | .ok executions => processBatch tb (g i) executions seen ssf []
              | .error _ => BatchStep.continueMonitoring seen ssf []) =
      .continueMonitoring seen1 ssf1 evs) :
    monitorScheduledLoop timeoutAt tb g (fuel + 1) now i seen ssf =
      (evs.map (fun ev => (now, ev)) ++
        (monitorScheduledLoop timeoutAt tb g fuel
          (now + (g i).bodyMs + 30000) (i + 1) seen1 ssf1).1,
       (monitorScheduledLoop timeoutAt tb g fuel
         (now + (g i).bodyMs + 30000) (i + 1) seen1 ssf1).2) := by
  rw [monitorScheduledLoop, if_pos hlt]
  show (match (match (g i).listing with
        | Except.ok executions => processBatch tb (g i) executions seen ssf []
        | Except.error _ => BatchStep.continueMonitoring seen ssf []) with
    | BatchStep.goalReached evs2 =>
      (List.map (fun ev => (now, ev)) evs2, SchedOutcome.goalAchieved now)
    | BatchStep.continueMonitoring seen2 ssf2 evs2 =>
      (List.map (fun ev => (now, ev)) evs2 ++
        (monitorScheduledLoop timeoutAt tb g fuel
          (now + (g i).bodyMs + 30000) (i + 1) seen2 ssf2).1,
       (monitorScheduledLoop timeoutAt tb g fuel
         (now + (g i).bodyMs + 30000) (i + 1) seen2 ssf2).2)) = _
  rw [hstep]

theorem wait_no_timeout (id : String) :
    ∀ (L : List PollOutcome) (ss : Bool) (tick : ℕ),
    ∀ q ∈ (waitForSingleExecutionTerminal id ss tick L).1,
      q.2 ≠ MonitorEvent.windowTimeout := by
  intro L
  induction L with
  | nil =>
    intro ss tick q hq
    exact absurd hq (List.not_mem_nil q)
  | cons o rest ih =>
    intro ss tick q hq
    rcases o with e | st
    · exact ih ss (tick + 1) q hq
    · rw [singleStep_ok] at hq
      have hsig : ∀ h : q ∈ (if st.status = "WAITING_FOR_SIGNATURE" ∧ ss = false then
          [(tick, MonitorEvent.signingRequired id)] else []),
          q.2 ≠ MonitorEvent.windowTimeout := by
        intro h
        by_cases hfs : st.status = "WAITING_FOR_SIGNATURE" ∧ ss = false
        · rw [if_pos hfs, List.mem_singleton] at h
          rw [h]
          intro hc
          exact MonitorEvent.noConfusion hc
        · rw [if_neg hfs] at h
          exact absurd h (List.not_mem_nil q)
      by_cases hS : st.status = "SUCCESS"
      · rw [if_pos hS] at hq
        rw [List.mem_append] at hq
        rcases hq with h | h
        · exact hsig h
        · rw [List.mem_singleton] at h
          rw [h]
          intro hc
          exact MonitorEvent.noConfusion hc
      · rw [if_neg hS] at hq
        by_cases hF : st.status = "FAILED"
        · rw [if_pos hF] at hq
          rw [List.mem_append] at hq
          rcases hq with h | h
          · exact hsig h
          · rw [List.mem_singleton] at h
            rw [h]
            intro hc
            exact MonitorEvent.noConfusion hc
        · rw [if_neg hF] at hq
          rw [List.mem_append] at hq
          rcases hq with h | h
          · exact hsig h
          · exact ih _ (tick + 1) q h
theorem pb_cons_seen (tb : String) (env : SchedTick)
    (e : WorkflowExecutionStatus) (rest : List WorkflowExecutionStatus)
    (seen ssf : List String) (evs : List MonitorEvent) (h : e.id ∈ seen) :
    processBatch tb env (e :: rest) seen ssf evs =
      processBatch tb env rest seen ssf evs := by
  rw [processBatch]
  rw [if_pos h]

theorem pb_cons_waiting (tb : String) (env : SchedTick)
    (e : WorkflowExecutionStatus) (rest : List WorkflowExecutionStatus)
    (seen ssf : List String) (evs : List MonitorEvent)
    (h1 : e.id ∉ seen) (h2 : e.status = "WAITING_FOR_SIGNATURE") :
    processBatch tb env (e :: rest) seen ssf evs =
      (match (waitForSingleExecutionTerminal e.id true 0 (env.innerPolls e.id)).2 with
       | some st =>
         if st.status = "SUCCESS" then
           BatchStep.goalReached
             (((evs ++ [.signingRequired e.id]) ++
               (waitForSingleExecutionTerminal e.id true 0
                 (env.innerPolls e.id)).1.map (·.2)) ++
               [.cancelTimeBlock tb, .swapDoneStop])
         else processBatch tb env rest (seen ++ [e.id]) (ssf ++ [e.id])
           ((evs ++ [.signingRequired e.id]) ++
             (waitForSingleExecutionTerminal e.id true 0
               (env.innerPolls e.id)).1.map (·.2))
       | none => processBatch tb env rest (seen ++ [e.id]) (ssf ++ [e.id])
           ((evs ++ [.signingRequired e.id]) ++
             (waitForSingleExecutionTerminal e.id true 0
               (env.innerPolls e.id)).1.map (·.2))) := by
  rw [processBatch]
  rw [if_neg h1, if_pos h2]

theorem pb_cons_normal (tb : String) (env : SchedTick)
    (e : WorkflowExecutionStatus) (rest : List WorkflowExecutionStatus)
    (seen ssf : List String) (evs : List MonitorEvent)
    (h1 : e.id ∉ seen) (h2 : ¬ e.status = "WAITING_FOR_SIGNATURE") :
    processBatch tb env (e :: rest) seen ssf evs =
      (if e.status = "SUCCESS" ∧ didSwapExecute
          ((match env.details e.id with
            | .ok d => some d
            | .error _ => none).getD e) then
        BatchStep.goalReached (evs ++ [.cancelTimeBlock tb, .swapDoneStop])
       else processBatch tb env rest (seen ++ [e.id])
         (if e.status = "WAITING_FOR_SIGNATURE" ∧ e.id ∉ ssf then ssf ++ [e.id]
          else ssf)
         (if e.status = "FAILED" then
            evs ++ [.scheduledRunFailed
              (match ((match env.details e.id with
                       | .ok d => some d
                       | .error _ => none).bind (·.errorMessage)) with
               | some m => some m
               | none => e.errorMessage)]
          else evs)) := by
  rw [processBatch]
  rw [if_neg h1, if_neg h2]
theorem processBatch_cont (tb : String) (env : SchedTick) :
    ∀ (l : List WorkflowExecutionStatus) (seen ssf : List String)
      (evs : List MonitorEvent),
    (∀ e ∈ l, executionAchievesGoal env e = false) →
    (∀ q ∈ evs, q ≠ MonitorEvent.windowTimeout) →
    ∃ s2 f2 evs2, processBatch tb env l seen ssf evs =
      .continueMonitoring s2 f2 evs2 ∧
      ∀ q ∈ evs2, q ≠ MonitorEvent.windowTimeout := by
  intro l
  induction l with
  | nil =>
    intro seen ssf evs _ hq
    exact ⟨seen, ssf, evs, rfl, hq⟩
  | cons e rest ih =>
    intro seen ssf evs hg hq
    have hge := hg e (List.mem_cons_self e rest)
    have hgr : ∀ x ∈ rest, executionAchievesGoal env x = false :=
      fun x hx => hg x (List.mem_cons_of_mem _ hx)
    by_cases hseen : e.id ∈ seen
    · rw [pb_cons_seen tb env e rest seen ssf evs hseen]
      exact ih seen ssf evs hgr hq
    · by_cases hw : e.status = "WAITING_FOR_SIGNATURE"
      · rw [pb_cons_waiting tb env e rest seen ssf evs hseen hw]
        have hq2 : ∀ q ∈ (evs ++ [MonitorEvent.signingRequired e.id]) ++
            (waitForSingleExecutionTerminal e.id true 0
              (env.innerPolls e.id)).1.map (·.2),
            q ≠ MonitorEvent.windowTimeout := by
          intro q hqm
          rw [List.mem_append] at hqm
          rcases hqm with h | h
          · rw [List.mem_append] at h
            rcases h with h | h
            · exact hq q h
            · rw [List.mem_singleton] at h
              rw [h]
              intro hc
              exact MonitorEvent.noConfusion hc
          · rw [List.mem_map] at h
            obtain ⟨p, hp, hpq⟩ := h
            rw [← hpq]
            exact wait_no_timeout e.id _ true 0 p hp
        have hge2 : (match (waitForSingleExecutionTerminal e.id true 0
            (env.innerPolls e.id)).2 with
            | some st => st.status == "SUCCESS"
            | none => false) = false := by
          have h0 := hge
          unfold executionAchievesGoal at h0
          rw [if_pos hw] at h0
          exact h0
        rcases hst : (waitForSingleExecutionTerminal e.id true 0
            (env.innerPolls e.id)).2 with _ | st
        · exact ih _ _ _ hgr hq2
        · rw [hst] at hge2
          have hne : ¬(st.status = "SUCCESS") := by
            rw [beq_eq_false_iff_ne] at hge2
            exact hge2
          obtain ⟨s2, f2, evs2, hrec, hq3⟩ := ih (seen ++ [e.id]) (ssf ++ [e.id])
            ((evs ++ [MonitorEvent.signingRequired e.id]) ++
              (waitForSingleExecutionTerminal e.id true 0
                (env.innerPolls e.id)).1.map (·.2)) hgr hq2
          exact ⟨s2, f2, evs2, (if_neg hne).trans hrec, hq3⟩
      · rw [pb_cons_normal tb env e rest seen ssf evs hseen hw]
        have hand : ¬(e.status = "SUCCESS" ∧ didSwapExecute
            ((match env.details e.id with
              | .ok d => some d
              | .error _ => none).getD e)) := by
          by_cases hsu : e.status = "SUCCESS"
          · have hds : didSwapExecute ((match env.details e.id with
                | .ok d => some d
                | .error _ => none).getD e) = false := by
              have h0 := hge
              unfold executionAchievesGoal at h0
              rw [if_neg hw, if_pos hsu] at h0
              exact h0
            intro hc
            exact Bool.noConfusion (hds ▸ hc.2)
          · exact fun hc => hsu hc.1
        have hq2 : ∀ q ∈ (if e.status = "FAILED" then
            evs ++ [MonitorEvent.scheduledRunFailed
              (match ((match env.details e.id with
                       | .ok d => some d
                       | .error _ => none).bind (·.errorMessage)) with
               | some m => some m
               | none => e.errorMessage)]
            else evs), q ≠ MonitorEvent.windowTimeout := by
          intro q hqm
          by_cases hfail : e.status = "FAILED"
          · rw [if_pos hfail, List.mem_append] at hqm
            rcases hqm with h | h
            · exact hq q h
            · rw [List.mem_singleton] at h
              rw [h]
              intro hc
              exact MonitorEvent.noConfusion hc
          · rw [if_neg hfail] at hqm
            exact hq q hqm
        obtain ⟨s2, f2, evs2, hrec, hq3⟩ := ih (seen ++ [e.id])
          (if e.status = "WAITING_FOR_SIGNATURE" ∧ e.id ∉ ssf then ssf ++ [e.id]
           else ssf)
          (if e.status = "FAILED" then
            evs ++ [MonitorEvent.scheduledRunFailed
              (match ((match env.details e.id with
                       | .ok d => some d
                       | .error _ => none).bind (·.errorMessage)) with
               | some m => some m
               | none => e.errorMessage)]
           else evs) hgr hq2
        exact ⟨s2, f2, evs2, (if_neg hand).trans hrec, hq3⟩
theorem loop_timeout (timeoutAt : ℕ) (tb : String) (g : ℕ → SchedTick)
    (hng : noGoalWithin g) :
    ∀ (fuel now i : ℕ) (seen ssf : List String),
    timeoutAt ≤ now + 30000 * fuel →
    ∃ a pre, timeoutAt ≤ a ∧
      monitorScheduledLoop timeoutAt tb g fuel now i seen ssf =
        (pre ++ [(a, MonitorEvent.windowTimeout)], SchedOutcome.timeoutReached a) ∧
      ∀ p ∈ pre, p.2 ≠ MonitorEvent.windowTimeout := by
  intro fuel
  induction fuel with
  | zero =>
    intro now i seen ssf hf
    have h : ¬ now < timeoutAt := by omega
    refine ⟨now, [], by omega, ?_, ?_⟩
    · rw [loop_exit timeoutAt tb g 0 now i seen ssf h]
      rfl
    · intro p hp
      exact absurd hp (List.not_mem_nil p)
  | succ fuel ih =>
    intro now i seen ssf hf
    by_cases hlt : now < timeoutAt
    · rcases hl : (g i).listing with u | execs
      · have hstep : (match (g i).listing with
            | .ok executions => processBatch tb (g i) executions seen ssf []
            | .error _ => BatchStep.continueMonitoring seen ssf []) =
            .continueMonitoring seen ssf [] := by
          rw [hl]
        obtain ⟨a, pre, ha, heq, hpre⟩ := ih (now + (g i).bodyMs + 30000) (i + 1)
          seen ssf (by omega)
        refine ⟨a, pre, ha, ?_, hpre⟩
        rw [loop_succ_cont timeoutAt tb g fuel now i seen ssf seen ssf [] hlt hstep,
          heq]
        rfl
      · have hgoal : ∀ e ∈ execs, executionAchievesGoal (g i) e = false :=
          hng i execs hl
        obtain ⟨s2, f2, evs2, hpb, hq2⟩ :=
          processBatch_cont tb (g i) execs seen ssf []
            hgoal (fun q hq => absurd hq (List.not_mem_nil q))
        have hstep : (match (g i).listing with
            | .ok executions => processBatch tb (g i) executions seen ssf []
            | .error _ => BatchStep.continueMonitoring seen ssf []) =
            .continueMonitoring s2 f2 evs2 := by
          rw [hl]
          exact hpb
        obtain ⟨a, pre, ha, heq, hpre⟩ := ih (now + (g i).bodyMs + 30000) (i + 1)
          s2 f2 (by omega)
        refine ⟨a, evs2.map (fun ev => (now, ev)) ++ pre, ha, ?_, ?_⟩
        · rw [loop_succ_cont timeoutAt tb g fuel now i seen ssf s2 f2 evs2 hlt hstep,
            heq, ← List.append_assoc]
        · intro p hp
          rw [List.mem_append] at hp
          rcases hp with h | h
          · rw [List.mem_map] at h
            obtain ⟨ev, hev, hevp⟩ := h
            rw [← hevp]
            exact hq2 ev hev
          · exact hpre p h
    · refine ⟨now, [], by omega, ?_, ?_⟩
      · rw [loop_exit timeoutAt tb g (fuel + 1) now i seen ssf hlt]
        rfl
      · intro p hp
        exact absurd hp (List.not_mem_nil p)

/-- C7: the scheduled tracker's window. If no listed execution ever reaches a
goal-achieving terminal state and the loop has enough fuel to cover the
window (each iteration advances the clock by at least the 30000 ms sleep),
the tracker stops with the timeout outcome at a time a no earlier than
startedAt plus durationSeconds seconds, its event stream ends with the
window-timeout notification stamped a, and no earlier event is a
window-timeout notification. -/
theorem C7_window_timeout (tb : String) (durationSeconds startedAt : ℕ)
    (ticks : ℕ → SchedTick) (fuel : ℕ)
    (hng : noGoalWithin ticks)
    (hfuel : durationSeconds * 1000 ≤ 30000 * fuel) :
    ∃ a pre, startedAt + durationSeconds * 1000 ≤ a ∧
      monitorScheduledWorkflow tb durationSeconds startedAt ticks fuel =
        (pre ++ [(a, MonitorEvent.windowTimeout)], SchedOutcome.timeoutReached a) ∧
      ∀ p ∈ pre, p.2 ≠ MonitorEvent.windowTimeout := by
  obtain ⟨a, pre, ha, heq, hpre⟩ :=
    loop_timeout (startedAt + durationSeconds * 1000) tb ticks hng fuel startedAt
      0 [] [] (by omega)
  exact ⟨a, pre, ha, heq, hpre⟩
/-- Witness for C7: two empty listing iterations with a 60 second window
starting at time 0 end in the timeout outcome at or after 60000 ms. -/
theorem C7_witness :
    ∃ a pre, 0 + 60 * 1000 ≤ a ∧
      monitorScheduledWorkflow "tb" 60 0
        (fun _ => ⟨.ok [], fun _ => [], fun _ => .error (), 0⟩) 2 =
        (pre ++ [(a, MonitorEvent.windowTimeout)], SchedOutcome.timeoutReached a) ∧
      ∀ p ∈ pre, p.2 ≠ MonitorEvent.windowTimeout :=
  C7_window_timeout "tb" 60 0
    (fun _ => ⟨.ok [], fun _ => [], fun _ => .error (), 0⟩) 2
    (by
      intro i l hl e he
      injection hl with h
      subst h
      exact absurd he (List.not_mem_nil e))
    (by decide)

/-! ## Workflow-creation retry (C8) -/

theorem cwr_ok (attempts : ℕ → Except String String)
    (payload : List WorkflowPayloadNode) (tc : Option String) (wid : String)
    (h0 : attempts 0 = .ok wid) :
    createWorkflowWithRetry attempts payload tc = (.ok wid, 1, payload) := by
  unfold createWorkflowWithRetry
  rw [h0]

theorem cwr_error (attempts : ℕ → Except String String)
    (payload : List WorkflowPayloadNode) (tc : Option String) (e : String)
    (h0 : attempts 0 = .error e) :
    createWorkflowWithRetry attempts payload tc =
      (if (tryPatchWorkflowPayloadFromValidationError e payload tc).1 then
        (attempts 1, 2, (tryPatchWorkflowPayloadFromValidationError e payload tc).2)
       else (.error e, 1, payload)) := by
  unfold createWorkflowWithRetry
  rw [h0]

/-- C8: the creation retry. When the first createWorkflow call fails with an
error whose 400 validation details name a nodes.i.config.connectionId field
and a nonempty Telegram connection id was resolved, the payload is patched
(connectionId set on every TELEGRAM node carrying a config) and creation is
retried exactly once (two calls); on any other failure the first error is
returned with no retry; and no run of the retry wrapper ever makes a third
creation call. -/
theorem C8_retry_once (attempts : ℕ → Except String String)
    (payload : List WorkflowPayloadNode) (cid : String) (firstError : String)
    (hfail : attempts 0 = .error firstError) (hcid : cid ≠ "") :
    (errorNamesConnectionIdField firstError = true →
      createWorkflowWithRetry attempts payload (some cid) =
        (attempts 1, 2, payload.map (fun n =>
          if n.type = "TELEGRAM" ∧ n.config.isSome then
            { n with config :=
              n.config.map (fun c => cfgSet c "connectionId" (.str cid)) }
          else n))) ∧
    (errorNamesConnectionIdField firstError = false →
      createWorkflowWithRetry attempts payload (some cid) =
        (.error firstError, 1, payload)) ∧
    (∀ (att : ℕ → Except String String) (pl : List WorkflowPayloadNode)
       (tc : Option String), (createWorkflowWithRetry att pl tc).2.1 ≤ 2) := by
  refine ⟨?_, ?_, ?_⟩
  · intro hname
    rw [cwr_error attempts payload (some cid) firstError hfail]
    have h2 : tryPatchWorkflowPayloadFromValidationError firstError payload
        (some cid) =
        (true, payload.map (fun n =>
          if n.type = "TELEGRAM" ∧ n.config.isSome then
            { n with config :=
              n.config.map (fun c => cfgSet c "connectionId" (.str cid)) }
          else n)) := by
      show (if cid = "" then ((false, payload) : Bool × List WorkflowPayloadNode)
            else if errorNamesConnectionIdField firstError then
              (true, payload.map (fun n =>
                if n.type = "TELEGRAM" ∧ n.config.isSome then
                  { n with config :=
                    n.config.map (fun c => cfgSet c "connectionId" (.str cid)) }
                else n))
            else (false, payload)) = _
      rw [if_neg hcid, if_pos hname]
    rw [h2]
    rfl
  · intro hname
    rw [cwr_error attempts payload (some cid) firstError hfail]
    have hname2 : ¬(errorNamesConnectionIdField firstError = true) := by
      rw [hname]
      decide
    have h2 : tryPatchWorkflowPayloadFromValidationError firstError payload
        (some cid) = (false, payload) := by
      show (if cid = "" then ((false, payload) : Bool × List WorkflowPayloadNode)
            else if errorNamesConnectionIdField firstError then
              (true, payload.map (fun n =>
                if n.type = "TELEGRAM" ∧ n.config.isSome then
                  { n with config :=
                    n.config.map (fun c => cfgSet c "connectionId" (.str cid)) }
                else n))
            else (false, payload)) = _
      rw [if_neg hcid, if_neg hname2]
    rw [h2]
    rfl
  · intro att pl tc
    rcases h0 : att 0 with e | wid
    · rw [cwr_error att pl tc e h0]
      by_cases hb : (tryPatchWorkflowPayloadFromValidationError e pl tc).1 = true
      · rw [if_pos hb]
      · rw [if_neg hb]
        exact Nat.le_succ 1
    · rw [cwr_ok att pl tc wid h0]
      exact Nat.le_succ 1
/-- Witness for C8: a first creation call failing with a 400 naming
nodes.2.config.connectionId, a resolved connection id, and a second call that
succeeds: the run patches the TELEGRAM node and uses exactly two calls. -/
theorem C8_witness :
    createWorkflowWithRetry
      (fun k => if k = 0 then
        .error "Failed to create workflow: 400 \x7b\"error\":\x7b\"details\":[\x7b\"field\":\"nodes.2.config.connectionId\"\x7d]\x7d\x7d"
       else .ok "wf-2")
      [⟨"TIME_BLOCK", some []⟩, ⟨"TELEGRAM", some [("chatId", .str "42")]⟩]
      (some "conn-1") =
      (.ok "wf-2", 2,
       [⟨"TIME_BLOCK", some []⟩,
        ⟨"TELEGRAM", some [("chatId", .str "42"),
          ("connectionId", .str "conn-1")]⟩]) := by
  have h := (C8_retry_once
    (fun k => if k = 0 then
      .error "Failed to create workflow: 400 \x7b\"error\":\x7b\"details\":[\x7b\"field\":\"nodes.2.config.connectionId\"\x7d]\x7d\x7d"
     else .ok "wf-2")
    [⟨"TIME_BLOCK", some []⟩, ⟨"TELEGRAM", some [("chatId", .str "42")]⟩]
    "conn-1"
    "Failed to create workflow: 400 \x7b\"error\":\x7b\"details\":[\x7b\"field\":\"nodes.2.config.connectionId\"\x7d]\x7d\x7d"
    (by decide) (by decide)).1 (by decide)
  exact h.trans (by rfl)

/-! ## Plan-call session update (C9) -/

theorem except_bind_eq_ok {ε α β : Type} (x : Except ε α) (f : α → Except ε β)
    (b : β) (h : x >>= f = .ok b) : ∃ a, x = .ok a ∧ f a = .ok b := by
  rcases x with e | a
  · exact Except.noConfusion h
  · exact ⟨a, rfl, h⟩

/-- C9: every successful plan call returns a store equal to the previous one
updated at exactly the conversation key, where the written record carries the
request userId and the freshly generated plan while the stored workflow,
execution and time-block identifiers of that key are carried over; all other
keys are untouched. -/
theorem C9_plan_session_update (deps : AgentPlanDeps) (store : SessionStore)
    (request : PlanRequest) (P : PlannerResult) (store2 : SessionStore)
    (hok : agentPlan deps store request = .ok (P, store2)) :
    store2 = storeSet store (agentPlanKey request)
      ⟨request.userId, some P,
       (store (agentPlanKey request)).bind (·.lastWorkflowId),
       (store (agentPlanKey request)).bind (·.lastExecutionId),
       (store (agentPlanKey request)).bind (·.lastTimeBlockId)⟩ ∧
    store2 (agentPlanKey request) =
      some ⟨request.userId, some P,
       (store (agentPlanKey request)).bind (·.lastWorkflowId),
       (store (agentPlanKey request)).bind (·.lastExecutionId),
       (store (agentPlanKey request)).bind (·.lastTimeBlockId)⟩ ∧
    ∀ k, k ≠ agentPlanKey request → store2 k = store k := by
  simp only [agentPlan] at hok
  obtain ⟨fr, h1, h2⟩ := except_bind_eq_ok _ _ _ hok
  clear hok h1
  split at h2
  · split at h2
    · split at h2
      · obtain ⟨pr, h3, h4⟩ := except_bind_eq_ok _ _ _ h2
        have h5 := Except.ok.inj h4
        rw [Prod.mk.injEq] at h5
        obtain ⟨hP, hS⟩ := h5
        subst hP
        subst hS
        exact ⟨rfl, if_pos rfl, fun k hk => if_neg hk⟩
      · obtain ⟨pr, h3, h4⟩ := except_bind_eq_ok _ _ _ h2
        have h5 := Except.ok.inj h4
        rw [Prod.mk.injEq] at h5
        obtain ⟨hP, hS⟩ := h5
        subst hP
        subst hS
        exact ⟨rfl, if_pos rfl, fun k hk => if_neg hk⟩
    · obtain ⟨pr, h3, h4⟩ := except_bind_eq_ok _ _ _ h2
      have h5 := Except.ok.inj h4
      rw [Prod.mk.injEq] at h5
      obtain ⟨hP, hS⟩ := h5
      subst hP
      subst hS
      exact ⟨rfl, if_pos rfl, fun k hk => if_neg hk⟩
  · obtain ⟨pr, h3, h4⟩ := except_bind_eq_ok _ _ _ h2
    have h5 := Except.ok.inj h4
    rw [Prod.mk.injEq] at h5
    obtain ⟨hP, hS⟩ := h5
    subst hP
    subst hS
    exact ⟨rfl, if_pos rfl, fun k hk => if_neg hk⟩
/-- Witness for C9: a telegram plan request against a store already holding
workflow, execution and time-block identifiers for the conversation key
telegram:chat-9; the write keeps all three identifiers, stores the new plan
under the new userId, and leaves another key untouched. -/
theorem C9_witness :
    ∃ store2,
      agentPlan
        ⟨fun _ => none,
         fun _ => .ok ⟨"W", "D", [⟨"telegram", "p", none⟩], [], none⟩⟩
        (fun k => if k = "telegram:chat-9" then
          some ⟨"old-user", none, some "wf-7", some "ex-3", some "tb-5"⟩
         else none)
        ⟨"hi", "user-1", some "chat-9", some "telegram"⟩ =
        .ok (⟨"W", "D", [⟨"telegram", "p", none⟩], [], none⟩, store2) ∧
      store2 "telegram:chat-9" =
        some ⟨"user-1", some ⟨"W", "D", [⟨"telegram", "p", none⟩], [], none⟩,
          some "wf-7", some "ex-3", some "tb-5"⟩ ∧
      store2 "telegram:chat-8" = none := by
  refine ⟨_, rfl, ?_, ?_⟩
  · exact (C9_plan_session_update
      ⟨fun _ => none,
       fun _ => .ok ⟨"W", "D", [⟨"telegram", "p", none⟩], [], none⟩⟩
      (fun k => if k = "telegram:chat-9" then
        some ⟨"old-user", none, some "wf-7", some "ex-3", some "tb-5"⟩
       else none)
      ⟨"hi", "user-1", some "chat-9", some "telegram"⟩
      ⟨"W", "D", [⟨"telegram", "p", none⟩], [], none⟩ _ rfl).2.1
  · exact ((C9_plan_session_update
      ⟨fun _ => none,
       fun _ => .ok ⟨"W", "D", [⟨"telegram", "p", none⟩], [], none⟩⟩
      (fun k => if k = "telegram:chat-9" then
        some ⟨"old-user", none, some "wf-7", some "ex-3", some "tb-5"⟩
       else none)
      ⟨"hi", "user-1", some "chat-9", some "telegram"⟩
      ⟨"W", "D", [⟨"telegram", "p", none⟩], [], none⟩ _ rfl).2.2
      "telegram:chat-8" (by decide)).trans rfl

end FlowForge
